import Mathlib

/-!
Workshop backend: admin gate, login/logout, route table, designation breakdown.

A shallow embedding of the Go backend (`backend/internal/...`, `backend/cmd/server`).

* `sessions` models the values map of a `gin-contrib/sessions` session together with its
  `written` flag and the cookie that the client holds.
* `gin` models the part of a request context the handlers touch: JSON writes, `Abort`,
  and the handler chain of a route.
* `middleware.RequireAdmin`, `handlers.AdminHandler.Login`, `handlers.AdminHandler.Logout`,
  `server.main` and `repository.GetDesignationBreakdown` follow the source line by line.
-/

set_option autoImplicit false

/-! ## Go values -/

/-- A Go slice that may be `nil`: `none` is the nil slice, `some xs` a non-nil slice. -/
abbrev Slice (α : Type) := Option (List α)

namespace Slice

/-- The elements of a slice; the nil slice has none. -/
def toList {α : Type} (s : Slice α) : List α := s.getD []

/-- Go `len(s)`. -/
def len {α : Type} (s : Slice α) : Nat := (toList s).length

/-- Go `append(s, x)`: the result is never nil. -/
def append {α : Type} (s : Slice α) (x : α) : Slice α := some (toList s ++ [x])

end Slice

deriving instance DecidableEq for Except

/-- A dynamically typed value as held in an `interface{}`: session values and JSON scalars. -/
inductive Value where
  | nil
  | bool (b : Bool)
  | string (s : String)
  | int (n : Int)
  deriving DecidableEq, Repr

/-- The process environment; `os.Getenv` reads it. -/
abbrev Env := List (String × String)

/-- Go `os.Getenv`: the value of the variable, or the empty string when it is unset. -/
def Getenv (env : Env) (key : String) : String := (env.lookup key).getD ""

/-! ## Sessions (`gin-contrib/sessions`) -/

namespace sessions

/-- The values map of a session: key/value pairs, the first pair of a key being its entry. -/
abbrev Values := List (String × Value)

/-- The session object of one request. `values` is the in-memory map, `written` says whether it
was modified since the last save, `cookie` is the state the client's cookie holds, and `saveErr`
is the error the store's `Save` gives for this request, if any. -/
structure Session where
  values : Values
  written : Bool
  cookie : Values
  saveErr : Option String
  deriving DecidableEq, Repr

/-- The session the sessions middleware loads from the client's cookie. A request without a
cookie loads the empty session. -/
def load (cookie : Values) (saveErr : Option String) : Session :=
  { values := cookie, written := false, cookie := cookie, saveErr := saveErr }

/-- Map read `Values[key]`: the stored value, or nil when the key is absent. -/
def Values.Get (vs : Values) (key : String) : Value := (vs.lookup key).getD Value.nil

/-- The call `session.Get(key)`. -/
def Session.Get (s : Session) (key : String) : Value := Values.Get s.values key

/-- The call `session.Set(key, val)`: replaces the entry of `key` and marks the session written. -/
def Session.Set (s : Session) (key : String) (val : Value) : Session :=
  { s with values := (key, val) :: s.values.filter (fun kv => kv.1 ≠ key), written := true }

/-- The call `session.Delete(key)`. -/
def Session.Delete (s : Session) (key : String) : Session :=
  { s with values := s.values.filter (fun kv => kv.1 ≠ key), written := true }

/-- The call `session.Clear()`: deletes every key that is present, one by one. -/
def Session.Clear (s : Session) : Session :=
  (s.values.map Prod.fst).foldl Session.Delete s

/-- The call `session.Save()`: nothing to do for a session that was not written; otherwise the
store either fails, leaving the client's cookie as it was, or writes the values to the cookie. -/
def Session.Save (s : Session) : Session × Option String :=
  if s.written then
    match s.saveErr with
    | some e => (s, some e)
    | none => ({ s with cookie := s.values, written := false }, none)
  else (s, none)

end sessions

/-! ## `models` -/

/-- A Go `time.Time`, as an instant counted from the zero time; the zero value is `0`. -/
abbrev Time := Int

namespace models

/-- The record `models.Attendee` (models.go 5-11). -/
structure Attendee where
  ID : String
  Name : String
  Email : String
  Designation : String
  CreatedAt : Time
  deriving DecidableEq, Repr

/-- The record `models.Speaker` (models.go 13-20). -/
structure Speaker where
  ID : String
  Name : String
  Bio : String
  Avatar : String
  LinkedIn : String
  Twitter : String
  deriving DecidableEq, Repr

/-- The record `models.Session` (models.go 22-28). -/
structure Session where
  ID : String
  Title : String
  Description : String
  Time : String
  Speakers : Slice String
  deriving DecidableEq, Repr

/-- The record `models.SessionWithSpeakers` (models.go 30-33): a session with the resolved
speaker records. -/
structure SessionWithSpeakers where
  Session : Session
  SpeakerDetails : Slice Speaker
  deriving DecidableEq, Repr

/-- The record `models.DesignationCount` (models.go 39-42). `Count` is a Go `int`; it counts
documents held in memory, so it stays far below the 64-bit bound and is kept as a natural
number. -/
structure DesignationCount where
  Designation : String
  Count : Nat
  deriving DecidableEq, Repr

end models

/-! ## Request context (`gin`) -/

namespace gin

/-- A response body: `h` is a `gin.H` with scalar values, `stats` the `gin.H` of `GetStats`
whose one value is the breakdown, and the other forms are the records and slices of records
that the handlers pass to `c.JSON`. A nil slice is written as JSON `null`, a non-nil slice as an
array. -/
inductive Body where
  | h (fields : List (String × Value))
  | stats (designationBreakdown : Slice models.DesignationCount)
  | attendee (a : models.Attendee)
  | attendees (as : Slice models.Attendee)
  | speaker (s : models.Speaker)
  | speakers (ss : Slice models.Speaker)
  | session (s : models.Session)
  | sessions (ss : Slice models.SessionWithSpeakers)
  deriving DecidableEq, Repr

/-- One write of `c.JSON(code, body)`. -/
structure Response where
  status : Nat
  body : Body
  deriving DecidableEq, Repr

/-- The part of `*gin.Context` the handlers read and write. -/
structure Context where
  session : sessions.Session
  writes : List Response
  aborted : Bool
  deriving DecidableEq, Repr

/-- The context of a request when its handler chain starts with session `s`: nothing written,
not aborted. -/
def Context.start (s : sessions.Session) : Context :=
  { session := s, writes := [], aborted := false }

/-- The context of a request that arrives with the given cookie: the session is loaded from the
cookie. -/
def newContext (cookie : sessions.Values) (saveErr : Option String) : Context :=
  Context.start (sessions.load cookie saveErr)

/-- The call `c.JSON(code, obj)`. -/
def Context.JSON (c : Context) (code : Nat) (obj : Body) : Context :=
  { c with writes := c.writes ++ [⟨code, obj⟩] }

/-- The call `c.Abort()`: no later handler of the chain runs. -/
def Context.Abort (c : Context) : Context := { c with aborted := true }

/-- The call `c.Next()` as the last statement of a middleware: control goes to the rest of the
chain, which `runChain` runs for every context that is not aborted. -/
def Context.Next (c : Context) : Context := c

end gin

def StatusOK : Nat := 200
def StatusCreated : Nat := 201
def StatusBadRequest : Nat := 400
def StatusUnauthorized : Nat := 401
def StatusInternalServerError : Nat := 500

/-! ## `middleware.RequireAdmin` -/

namespace middleware

open gin

/-- The middleware `RequireAdmin` (auth.go 10-21). The Go test `isAdmin != true` compares an
interface value with the boolean `true`: it is false only for a value of dynamic type bool that
is true. -/
def RequireAdmin (c : Context) : Context :=
  let session := c.session
  let isAdmin := session.Get "isAdmin"
  if isAdmin ≠ Value.bool true then
    (c.JSON StatusUnauthorized (Body.h [("error", Value.string "Unauthorized")])).Abort
  else
    c.Next

end middleware

/-! ## `handlers.AdminHandler` -/

namespace handlers

/-- The JSON body of a login request as the decoder sees it: a body it rejects (not JSON, not
an object, a password that is not a string), with the decoder's message, or an object whose
`password` field is absent (or null) or a string. -/
inductive LoginBody where
  | invalid (err : String)
  | object (password : Option String)
  deriving DecidableEq, Repr

/-- The message of the validator for a `binding:"required"` field left at its zero value. -/
def requiredPasswordError : String :=
  "Key: 'Password' Error:Field validation for 'Password' failed on the 'required' tag"

/-- The call `c.ShouldBindJSON(&req)` for `struct { Password string; binding:"required" }`:
the decoded password, or the error of the decoder or of the `required` validation. -/
def ShouldBindJSON : LoginBody → Except String String
  | LoginBody.invalid err => Except.error err
  | LoginBody.object none => Except.error requiredPasswordError
  | LoginBody.object (some p) => if p = "" then Except.error requiredPasswordError else Except.ok p

namespace AdminHandler

open gin

/-- The handler `AdminHandler.Login` (admin.go 21-50). -/
def Login (env : Env) (body : LoginBody) (c : Context) : Context :=
  match ShouldBindJSON body with
  | Except.error err => c.JSON StatusBadRequest (Body.h [("error", Value.string err)])
  | Except.ok reqPassword =>
    let adminPassword := Getenv env "ADMIN_PASSWORD"
    if adminPassword = "" then
      c.JSON StatusInternalServerError
        (Body.h [("error", Value.string "Admin password not configured")])
    else if reqPassword ≠ adminPassword then
      c.JSON StatusUnauthorized (Body.h [("error", Value.string "Invalid password")])
    else
      let session := c.session.Set "isAdmin" (Value.bool true)
      match session.Save with
      | (session, some _) =>
        { c with session := session }.JSON StatusInternalServerError
          (Body.h [("error", Value.string "Failed to save session")])
      | (session, none) =>
        { c with session := session }.JSON StatusOK (Body.h [("success", Value.bool true)])

/-- The handler `AdminHandler.Logout` (admin.go 52-61). -/
def Logout (c : Context) : Context :=
  let session := c.session.Clear
  match session.Save with
  | (session, some _) =>
    { c with session := session }.JSON StatusInternalServerError
      (Body.h [("error", Value.string "Failed to clear session")])
  | (session, none) =>
    { c with session := session }.JSON StatusOK
      (Body.h [("message", Value.string "Logged out successfully")])

end AdminHandler

end handlers

/-! ## Handler chains and the route table of `main` -/

namespace gin

/-- The HTTP methods used by the route table. -/
inductive Method where
  | GET | HEAD | POST | PUT | DELETE
  deriving DecidableEq, Repr

/-- The handler functions that `main` installs: the engine-wide middleware of `gin.Default()`
and of the two `r.Use` calls, the file server of `r.Static`, the admin gate, and the methods of
the four handler objects. -/
inductive HandlerFunc where
  | Logger | Recovery | StaticFS | CORS | Sessions
  | RequireAdmin
  | AttendeeRegister | AttendeeGetCount | AttendeeGetAll | AttendeeDelete
  | SpeakerGetAll | SpeakerCreate | SpeakerUpdate | SpeakerDelete
  | SessionGetAll | SessionCreate | SessionUpdate | SessionDelete
  | AdminLogin | AdminLogout | AdminGetStats
  deriving DecidableEq, Repr

/-- A `gin.RouterGroup`: a path prefix and the middleware every route of the group gets. -/
structure RouterGroup where
  basePath : String
  Handlers : List HandlerFunc
  deriving DecidableEq, Repr

/-- A registered route: method, full path pattern and its handler chain. -/
structure RouteInfo where
  Method : Method
  Path : String
  Handlers : List HandlerFunc
  deriving DecidableEq, Repr

/-- The path join of gin for the paths used here: a relative path that is empty leaves the
base path, the root base path `/` is replaced by the relative path, and otherwise the relative
path (which starts with `/`) is appended. -/
def joinPaths (absolutePath relativePath : String) : String :=
  if relativePath = "" then absolutePath
  else if absolutePath = "/" then relativePath
  else absolutePath ++ relativePath

/-- The call `group.Group(relativePath)`: the new group inherits the handlers the parent has at
this moment. -/
def RouterGroup.Group (g : RouterGroup) (relativePath : String) : RouterGroup :=
  { basePath := joinPaths g.basePath relativePath, Handlers := g.Handlers }

/-- The call `group.Use(middleware)`. -/
def RouterGroup.Use (g : RouterGroup) (m : HandlerFunc) : RouterGroup :=
  { g with Handlers := g.Handlers ++ [m] }

/-- The calls `group.GET/POST/PUT/DELETE(relativePath, handler)`: the route's chain is the
group's handlers followed by the handler. -/
def RouterGroup.handle (g : RouterGroup) (m : Method) (relativePath : String)
    (h : HandlerFunc) : RouteInfo :=
  { Method := m, Path := joinPaths g.basePath relativePath, Handlers := g.Handlers ++ [h] }

/-- The call `group.Static(relativePath, root)`: a GET and a HEAD route for the files below the
relative path. -/
def RouterGroup.Static (g : RouterGroup) (relativePath : String) : List RouteInfo :=
  let urlPattern := joinPaths relativePath "/*filepath"
  [g.handle .GET urlPattern .StaticFS, g.handle .HEAD urlPattern .StaticFS]

/-- The engine of `gin.Default()`: root group with the logger and recovery middleware. -/
def Default : RouterGroup := { basePath := "/", Handlers := [.Logger, .Recovery] }

/-- The handler that serves a route: the last function of its chain. -/
def RouteInfo.handler (r : RouteInfo) : Option HandlerFunc := r.Handlers.getLast?

/-- What one handler function does to the context. `RequireAdmin` is the middleware of this
repository; the behaviour of every other function is given by `impl`. -/
def exec (impl : HandlerFunc → Context → Context) : HandlerFunc → Context → Context
  | HandlerFunc.RequireAdmin => middleware.RequireAdmin
  | h => impl h

/-- The loop of the engine over a handler chain: the functions run in order, and none runs once
the context is aborted. Returns the functions that ran, in order, and the final context. -/
def runChain (impl : HandlerFunc → Context → Context) :
    List HandlerFunc → Context → List HandlerFunc × Context
  | [], c => ([], c)
  | h :: hs, c =>
    if c.aborted then ([], c)
    else
      let r := runChain impl hs (exec impl h c)
      (h :: r.1, r.2)

end gin

namespace server

open gin

/-- The route table built by `main` (main.go 19-122), in registration order. The `NoRoute`
fallback installed together with the static files is not a route of the table. -/
def main (env : Env) : List RouteInfo :=
  let r := gin.Default
  let staticDir := Getenv env "STATIC_DIR"
  let staticRoutes := if staticDir ≠ "" then r.Static "/assets" else []
  let r := r.Use .CORS
  let r := r.Use .Sessions
  -- Public routes
  let api := r.Group "/api"
  let publicRoutes := [
    api.handle .POST "/attendees" .AttendeeRegister,
    api.handle .GET "/attendees/count" .AttendeeGetCount,
    api.handle .GET "/speakers" .SpeakerGetAll,
    api.handle .GET "/sessions" .SessionGetAll,
    api.handle .POST "/admin/login" .AdminLogin,
    api.handle .POST "/admin/logout" .AdminLogout ]
  -- Protected admin routes
  let admin := api.Group "/admin"
  let admin := admin.Use .RequireAdmin
  let adminRoutes := [ admin.handle .GET "/stats" .AdminGetStats ]
  let adminProtected := api.Group ""
  let adminProtected := adminProtected.Use .RequireAdmin
  let protectedRoutes := [
    adminProtected.handle .GET "/attendees" .AttendeeGetAll,
    adminProtected.handle .DELETE "/attendees/:id" .AttendeeDelete,
    adminProtected.handle .POST "/speakers" .SpeakerCreate,
    adminProtected.handle .PUT "/speakers/:id" .SpeakerUpdate,
    adminProtected.handle .DELETE "/speakers/:id" .SpeakerDelete,
    adminProtected.handle .POST "/sessions" .SessionCreate,
    adminProtected.handle .PUT "/sessions/:id" .SessionUpdate,
    adminProtected.handle .DELETE "/sessions/:id" .SessionDelete ]
  staticRoutes ++ publicRoutes ++ adminRoutes ++ protectedRoutes

/-- The middleware installed on the engine before any API route is registered. -/
def engineHandlers : List gin.HandlerFunc := [.Logger, .Recovery, .CORS, .Sessions]

end server

/-! ## `repository.GetDesignationBreakdown` -/

namespace firestore

/-- A document snapshot returned by a query: the identity of the document (`doc.Ref.ID`) and
what `doc.DataTo(&record)` gives for it, the decoded record or the decoding error. The decoder
belongs to the store client and is not part of this repository. -/
structure DocumentSnapshot (α : Type) where
  RefID : String
  DataTo : Except String α

end firestore

/-- A Go `map[string]int` as the list of its entries, keys pairwise distinct. -/
abbrev GoMap := List (String × Nat)

namespace GoMap

/-- Map read `m[k]`: the zero value for an absent key. -/
def get (m : GoMap) (k : String) : Nat := (m.lookup k).getD 0

/-- Map write `m[k] = v`: replaces the entry of `k`, or adds one. -/
def set : GoMap → String → Nat → GoMap
  | [], k, v => [(k, v)]
  | (k', v') :: m, k, v => if k' = k then (k', v) :: m else (k', v') :: set m k v

/-- The statement `m[k]++`. -/
def incr (m : GoMap) (k : String) : GoMap := set m k (get m k + 1)

end GoMap

namespace repository

open models firestore

/-- The first loop of `GetDesignationBreakdown` (firestore.go 257-265): documents that fail to
decode are logged and skipped, every other document increments the count of its designation. -/
def designationMap (docs : List (DocumentSnapshot Attendee)) : GoMap :=
  docs.foldl
    (fun m doc =>
      match doc.DataTo with
      | Except.error _ => m
      | Except.ok attendee => m.incr attendee.Designation)
    []

/-- The method `Repository.GetDesignationBreakdown` (firestore.go 250-276). `store` is the
outcome of `attendeesRef.Documents(ctx).GetAll()`. `range` over a Go map visits the entries in
an order the language leaves open: `order` is the order in which this run visits them. -/
def GetDesignationBreakdown (order : GoMap → GoMap)
    (store : Except String (List (DocumentSnapshot Attendee))) :
    Except String (Slice DesignationCount) :=
  match store with
  | Except.error err => Except.error err
  | Except.ok docs =>
    let designationMap := designationMap docs
    let breakdown : Slice DesignationCount :=
      (order designationMap).foldl
        (fun breakdown entry =>
          Slice.append breakdown { Designation := entry.1, Count := entry.2 })
        none
    Except.ok breakdown

/-- The records of the documents that decode, in document order. -/
def parsedAttendees (docs : List (DocumentSnapshot Attendee)) : List Attendee :=
  docs.filterMap (fun doc => doc.DataTo.toOption)

/-- The number of decoded attendees whose designation is exactly the string `d`. -/
def designationCount (docs : List (DocumentSnapshot Attendee)) (d : String) : Nat :=
  (parsedAttendees docs).countP (fun a => a.Designation = d)

/-- Whether `doc.DataTo` succeeds for the document. -/
def parses (doc : DocumentSnapshot Attendee) : Bool :=
  match doc.DataTo with
  | Except.ok _ => true
  | Except.error _ => false

/-- A document holding an attendee record, as `CreateAttendee` stores it. -/
def attendeeDoc (id : String) (a : Attendee) : DocumentSnapshot Attendee :=
  { RefID := id, DataTo := Except.ok a }

end repository

/-! ## The document store (`cloud.google.com/go/firestore`) -/

namespace firestore

/-- A field value of a stored document, for the kinds of value this program writes: null,
string, timestamp (counted from the zero time, the earliest timestamp the store holds) and array
of strings. -/
inductive FieldValue where
  | null
  | string (s : String)
  | timestamp (t : Nat)
  | array (xs : List String)
  deriving DecidableEq, Repr

/-- The data of a document: field name and value, the first pair of a name being its entry. -/
abbrev Fields := List (String × FieldValue)

/-- A stored document: its identity within the collection and its data. -/
structure Document where
  ID : String
  data : Fields
  deriving DecidableEq, Repr

/-- A collection: its documents. -/
abbrev Collection := List Document

/-- One `firestore.Update` with a field path and the value to write. -/
structure Update where
  Path : String
  Value : FieldValue
  deriving DecidableEq, Repr

/-- Field read: the value of the field, if the document has it. -/
def Fields.get (data : Fields) (name : String) : Option FieldValue := data.lookup name

/-- Field write: replaces the entry of the field, or adds one. -/
def Fields.set : Fields → String → FieldValue → Fields
  | [], k, v => [(k, v)]
  | (k', v') :: m, k, v => if k' = k then (k', v) :: m else (k', v') :: Fields.set m k v

/-- The data after a list of updates: each named field is written, every other field stays. -/
def Fields.apply (data : Fields) (updates : List Update) : Fields :=
  updates.foldl (fun d u => Fields.set d u.Path u.Value) data

/-- The document of a collection with the given identity, if any. -/
def Collection.find (coll : Collection) (id : String) : Option Document :=
  List.find? (fun d => d.ID = id) coll

/-- The call `collection.Documents(ctx).GetAll()`: all documents, or the error of the call. -/
def Collection.GetAll (fail : Option String) (coll : Collection) : Except String (List Document) :=
  match fail with
  | some err => Except.error err
  | none => Except.ok coll

/-- The call `collection.Add(ctx, data)`: a new document under the identity `newID` that the
client generated; an identity that is taken makes the call fail. -/
def Collection.Add (fail : Option String) (newID : String) (coll : Collection) (data : Fields) :
    Except String Collection :=
  match fail with
  | some err => Except.error err
  | none =>
    if (Collection.find coll newID).isSome then Except.error "document already exists"
    else Except.ok (coll ++ [{ ID := newID, data := data }])

/-- The call `collection.Doc(id).Set(ctx, data)`: the document's data is replaced as a whole;
a document that does not exist is created. -/
def Collection.Set (fail : Option String) (coll : Collection) (id : String) (data : Fields) :
    Except String Collection :=
  match fail with
  | some err => Except.error err
  | none =>
    if (Collection.find coll id).isSome then
      Except.ok (coll.map (fun d => if d.ID = id then { ID := id, data := data } else d))
    else Except.ok (coll ++ [{ ID := id, data := data }])

/-- The call `collection.Doc(id).Update(ctx, updates)`: the named fields of an existing document
are written; a document that does not exist makes the call fail. -/
def Collection.Update (fail : Option String) (coll : Collection) (id : String)
    (updates : List Update) : Except String Collection :=
  match fail with
  | some err => Except.error err
  | none =>
    if (Collection.find coll id).isSome then
      Except.ok (coll.map (fun d =>
        if d.ID = id then { ID := id, data := Fields.apply d.data updates } else d))
    else Except.error "document not found"

/-- The call `collection.Doc(id).Delete(ctx)`: deleting a document that does not exist is not
an error. -/
def Collection.Delete (fail : Option String) (coll : Collection) (id : String) :
    Except String Collection :=
  match fail with
  | some err => Except.error err
  | none => Except.ok (coll.filter (fun d => d.ID ≠ id))

/-- The rank of a value's type in the store's ordering of values of different types. -/
def FieldValue.typeOrder : FieldValue → Nat
  | FieldValue.null => 0
  | FieldValue.timestamp _ => 1
  | FieldValue.string _ => 2
  | FieldValue.array _ => 3

/-- The store's ordering of field values as far as this program depends on it: values of
different types by type, timestamps by time. Values of another common type count as equal, so
the sort below leaves such documents in collection order. -/
def FieldValue.le (a b : FieldValue) : Bool :=
  match a, b with
  | FieldValue.timestamp s, FieldValue.timestamp t => decide (s ≤ t)
  | a, b => decide (a.typeOrder ≤ b.typeOrder)

/-- The query `collection.OrderBy(field, firestore.Desc)`: the documents that have the field,
by descending value of the field. An ordered query of the store also filters for the existence
of the order field: a document without the field is not in its result. -/
def Collection.OrderByDesc (coll : Collection) (field : String) : Collection :=
  List.insertionSort
    (fun a b => FieldValue.le ((Fields.get b.data field).getD FieldValue.null)
      ((Fields.get a.data field).getD FieldValue.null) = true)
    (coll.filter (fun d => (Fields.get d.data field).isSome))

/-- Decoding of a field into a Go `string`: an absent or null field leaves the zero value, a
value of another type is an error. -/
def Fields.getString (data : Fields) (name : String) : Except String String :=
  match Fields.get data name with
  | none => Except.ok ""
  | some FieldValue.null => Except.ok ""
  | some (FieldValue.string s) => Except.ok s
  | some _ => Except.error ("firestore: cannot set type string for field " ++ name)

/-- Decoding of a field into a Go `time.Time`. -/
def Fields.getTime (data : Fields) (name : String) : Except String Time :=
  match Fields.get data name with
  | none => Except.ok 0
  | some FieldValue.null => Except.ok 0
  | some (FieldValue.timestamp t) => Except.ok (t : Int)
  | some _ => Except.error ("firestore: cannot set type time.Time for field " ++ name)

/-- Decoding of a field into a Go `[]string`. -/
def Fields.getStrings (data : Fields) (name : String) : Except String (Slice String) :=
  match Fields.get data name with
  | none => Except.ok none
  | some FieldValue.null => Except.ok none
  | some (FieldValue.array xs) => Except.ok (some xs)
  | some _ => Except.error ("firestore: cannot set type []string for field " ++ name)

end firestore

/-! ## `repository`: the methods over the document store -/

namespace repository

open models firestore

/-- The collections below `workshops/<subcollection>` that `getSubcollectionPath` reaches. -/
structure Store where
  attendees : Collection
  speakers : Collection
  sessions : Collection
  deriving DecidableEq, Repr

/-- The store with no documents. -/
def Store.empty : Store := { attendees := [], speakers := [], sessions := [] }

/-- The fields the store client writes for an attendee record (the `firestore` tags of
models.go 5-11). -/
def attendeeFields (a : Attendee) : Fields :=
  [("id", FieldValue.string a.ID), ("name", FieldValue.string a.Name),
   ("email", FieldValue.string a.Email), ("designation", FieldValue.string a.Designation),
   ("createdAt", FieldValue.timestamp a.CreatedAt.toNat)]

/-- The fields the store client writes for a session record (the `firestore` tags of
models.go 22-28); a nil slice is written as null. -/
def sessionFields (s : Session) : Fields :=
  [("id", FieldValue.string s.ID), ("title", FieldValue.string s.Title),
   ("description", FieldValue.string s.Description), ("time", FieldValue.string s.Time),
   ("speakers", match s.Speakers with
      | none => FieldValue.null
      | some xs => FieldValue.array xs)]

/-- The call `doc.DataTo(&attendee)` on the data of a document: each tagged field is decoded,
fields the record does not name are ignored. -/
def attendeeDataTo (data : Fields) : Except String Attendee :=
  (Fields.getString data "id").bind fun id =>
  (Fields.getString data "name").bind fun name =>
  (Fields.getString data "email").bind fun email =>
  (Fields.getString data "designation").bind fun designation =>
  (Fields.getTime data "createdAt").bind fun createdAt =>
  Except.ok { ID := id, Name := name, Email := email, Designation := designation,
              CreatedAt := createdAt }

/-- The snapshot of a stored attendee document as a query returns it. -/
def attendeeSnapshot (doc : Document) : DocumentSnapshot Attendee :=
  { RefID := doc.ID, DataTo := attendeeDataTo doc.data }

/-- The method `Repository.CreateAttendee` (firestore.go 81-85). `fail` is the error of the
store call, if any, and `newID` the identity the client generates for the new document. -/
def CreateAttendee (fail : Option String) (newID : String) (attendee : Attendee) (st : Store) :
    Option String × Store :=
  let attendeesRef := st.attendees
  match Collection.Add fail newID attendeesRef (attendeeFields attendee) with
  | Except.error err => (some err, st)
  | Except.ok coll => (none, { st with attendees := coll })

/-- The method `Repository.GetAllAttendees` (firestore.go 87-106). -/
def GetAllAttendees (fail : Option String) (st : Store) : Except String (Slice Attendee) :=
  let attendeesRef := st.attendees
  match Collection.GetAll fail (Collection.OrderByDesc attendeesRef "createdAt") with
  | Except.error err => Except.error err
  | Except.ok docs =>
    let attendees : Slice Attendee :=
      docs.foldl
        (fun attendees doc =>
          match (attendeeSnapshot doc).DataTo with
          | Except.error _ => attendees
          | Except.ok attendee => Slice.append attendees { attendee with ID := doc.ID })
        (some [])
    Except.ok attendees

/-- The method `Repository.GetAttendeeCount` (firestore.go 108-115). -/
def GetAttendeeCount (fail : Option String) (st : Store) : Except String Int :=
  let attendeesRef := st.attendees
  match Collection.GetAll fail attendeesRef with
  | Except.error err => Except.error err
  | Except.ok docs => Except.ok (docs.length : Int)

/-- The field writes that `UpdateSpeaker` builds (firestore.go 168-180). -/
def speakerUpdates (speaker : Speaker) : List Update :=
  let updates : List Update :=
    [{ Path := "name", Value := FieldValue.string speaker.Name },
     { Path := "bio", Value := FieldValue.string speaker.Bio }]
  let updates :=
    if speaker.Avatar ≠ "" then
      updates ++ [{ Path := "avatar", Value := FieldValue.string speaker.Avatar }]
    else updates
  let updates :=
    if speaker.LinkedIn ≠ "" then
      updates ++ [{ Path := "linkedin", Value := FieldValue.string speaker.LinkedIn }]
    else updates
  let updates :=
    if speaker.Twitter ≠ "" then
      updates ++ [{ Path := "twitter", Value := FieldValue.string speaker.Twitter }]
    else updates
  updates

/-- The method `Repository.UpdateSpeaker` (firestore.go 166-186). -/
def UpdateSpeaker (fail : Option String) (id : String) (speaker : Speaker) (st : Store) :
    Option String × Store :=
  let speakersRef := st.speakers
  let updates := speakerUpdates speaker
  match Collection.Update fail speakersRef id updates with
  | Except.error err => (some err, st)
  | Except.ok coll => (none, { st with speakers := coll })

/-- The method `Repository.UpdateSession` (firestore.go 237-241). -/
def UpdateSession (fail : Option String) (id : String) (session : Session) (st : Store) :
    Option String × Store :=
  let sessionsRef := st.sessions
  match Collection.Set fail sessionsRef id (sessionFields session) with
  | Except.error err => (some err, st)
  | Except.ok coll => (none, { st with sessions := coll })

/-- The interface `RepositoryInterface` (repository.go 11-34) over a state `σ` of the
implementation: each method returns its Go results and the state after the call. An `error`
result is `none` for nil. Records passed by pointer are only read by the implementations. -/
structure RepositoryInterface (σ : Type) where
  CreateAttendee : Attendee → σ → Option String × σ
  GetAllAttendees : σ → Except String (Slice Attendee) × σ
  GetAttendeeCount : σ → Except String Int × σ
  DeleteAttendee : String → σ → Option String × σ
  CreateSpeaker : Speaker → σ → Option String × σ
  GetAllSpeakers : σ → Except String (Slice Speaker) × σ
  GetSpeaker : String → σ → Except String Speaker × σ
  UpdateSpeaker : String → Speaker → σ → Option String × σ
  DeleteSpeaker : String → σ → Option String × σ
  CreateSession : Session → σ → Option String × σ
  GetAllSessions : σ → Except String (Slice Session) × σ
  GetSession : String → σ → Except String Session × σ
  UpdateSession : String → Session → σ → Option String × σ
  DeleteSession : String → σ → Option String × σ
  GetDesignationBreakdown : σ → Except String (Slice DesignationCount) × σ

end repository

/-! ## `repository`: the remaining methods, the store-backed implementation, `NewRepository` -/

namespace firestore

/-- The call `collection.Doc(id).Get(ctx)`: the document, or an error when the call fails or
the document does not exist. -/
def Collection.Get (fail : Option String) (coll : Collection) (id : String) :
    Except String Document :=
  match fail with
  | some err => Except.error err
  | none =>
    match Collection.find coll id with
    | some doc => Except.ok doc
    | none => Except.error "document not found"

end firestore

namespace repository

open models firestore

/-- The fields the store client writes for a speaker record (the `firestore` tags of
models.go 13-20): avatar, linkedin and twitter are left out when empty. -/
def speakerFields (s : Speaker) : Fields :=
  [("id", FieldValue.string s.ID), ("name", FieldValue.string s.Name),
   ("bio", FieldValue.string s.Bio)]
  ++ (if s.Avatar ≠ "" then [("avatar", FieldValue.string s.Avatar)] else [])
  ++ (if s.LinkedIn ≠ "" then [("linkedin", FieldValue.string s.LinkedIn)] else [])
  ++ (if s.Twitter ≠ "" then [("twitter", FieldValue.string s.Twitter)] else [])

/-- The call `doc.DataTo(&speaker)` on the data of a document. -/
def speakerDataTo (data : Fields) : Except String Speaker :=
  (Fields.getString data "id").bind fun id =>
  (Fields.getString data "name").bind fun name =>
  (Fields.getString data "bio").bind fun bio =>
  (Fields.getString data "avatar").bind fun avatar =>
  (Fields.getString data "linkedin").bind fun linkedin =>
  (Fields.getString data "twitter").bind fun twitter =>
  Except.ok { ID := id, Name := name, Bio := bio, Avatar := avatar, LinkedIn := linkedin,
              Twitter := twitter }

/-- The call `doc.DataTo(&session)` on the data of a document. -/
def sessionDataTo (data : Fields) : Except String Session :=
  (Fields.getString data "id").bind fun id =>
  (Fields.getString data "title").bind fun title =>
  (Fields.getString data "description").bind fun description =>
  (Fields.getString data "time").bind fun time =>
  (Fields.getStrings data "speakers").bind fun speakers =>
  Except.ok { ID := id, Title := title, Description := description, Time := time,
              Speakers := speakers }

/-- The method `Repository.DeleteAttendee` (firestore.go 117-121). -/
def DeleteAttendee (fail : Option String) (id : String) (st : Store) : Option String × Store :=
  let attendeesRef := st.attendees
  match Collection.Delete fail attendeesRef id with
  | Except.error err => (some err, st)
  | Except.ok coll => (none, { st with attendees := coll })

/-- The method `Repository.CreateSpeaker` (firestore.go 124-128). -/
def CreateSpeaker (fail : Option String) (newID : String) (speaker : Speaker) (st : Store) :
    Option String × Store :=
  let speakersRef := st.speakers
  match Collection.Add fail newID speakersRef (speakerFields speaker) with
  | Except.error err => (some err, st)
  | Except.ok coll => (none, { st with speakers := coll })

/-- The method `Repository.GetAllSpeakers` (firestore.go 130-149). -/
def GetAllSpeakers (fail : Option String) (st : Store) : Except String (Slice Speaker) :=
  let speakersRef := st.speakers
  match Collection.GetAll fail speakersRef with
  | Except.error err => Except.error err
  | Except.ok docs =>
    let speakers : Slice Speaker :=
      docs.foldl
        (fun speakers doc =>
          match speakerDataTo doc.data with
          | Except.error _ => speakers
          | Except.ok speaker => Slice.append speakers { speaker with ID := doc.ID })
        (some [])
    Except.ok speakers

/-- The method `Repository.GetSpeaker` (firestore.go 151-164). -/
def GetSpeaker (fail : Option String) (id : String) (st : Store) : Except String Speaker :=
  let speakersRef := st.speakers
  match Collection.Get fail speakersRef id with
  | Except.error err => Except.error err
  | Except.ok doc =>
    match speakerDataTo doc.data with
    | Except.error err => Except.error err
    | Except.ok speaker => Except.ok { speaker with ID := doc.ID }

/-- The method `Repository.DeleteSpeaker` (firestore.go 188-192). -/
def DeleteSpeaker (fail : Option String) (id : String) (st : Store) : Option String × Store :=
  let speakersRef := st.speakers
  match Collection.Delete fail speakersRef id with
  | Except.error err => (some err, st)
  | Except.ok coll => (none, { st with speakers := coll })

/-- The method `Repository.CreateSession` (firestore.go 195-199). -/
def CreateSession (fail : Option String) (newID : String) (session : Session) (st : Store) :
    Option String × Store :=
  let sessionsRef := st.sessions
  match Collection.Add fail newID sessionsRef (sessionFields session) with
  | Except.error err => (some err, st)
  | Except.ok coll => (none, { st with sessions := coll })

/-- The method `Repository.GetAllSessions` (firestore.go 201-220). -/
def GetAllSessions (fail : Option String) (st : Store) : Except String (Slice Session) :=
  let sessionsRef := st.sessions
  match Collection.GetAll fail sessionsRef with
  | Except.error err => Except.error err
  | Except.ok docs =>
    let sessions : Slice Session :=
      docs.foldl
        (fun sessions doc =>
          match sessionDataTo doc.data with
          | Except.error _ => sessions
          | Except.ok session => Slice.append sessions { session with ID := doc.ID })
        (some [])
    Except.ok sessions

/-- The method `Repository.GetSession` (firestore.go 222-235). -/
def GetSession (fail : Option String) (id : String) (st : Store) : Except String Session :=
  let sessionsRef := st.sessions
  match Collection.Get fail sessionsRef id with
  | Except.error err => Except.error err
  | Except.ok doc =>
    match sessionDataTo doc.data with
    | Except.error err => Except.error err
    | Except.ok session => Except.ok { session with ID := doc.ID }

/-- The method `Repository.DeleteSession` (firestore.go 243-247). -/
def DeleteSession (fail : Option String) (id : String) (st : Store) : Option String × Store :=
  let sessionsRef := st.sessions
  match Collection.Delete fail sessionsRef id with
  | Except.error err => (some err, st)
  | Except.ok coll => (none, { st with sessions := coll })

/-- The type `Repository` as an implementation of `RepositoryInterface` over the store, for one
request: `fail` is the error of the store calls of the request, if any, `newID` the identity
generated for a document the request adds, and `order` the order in which a map is ranged
over. -/
def Repository.interface (order : GoMap → GoMap) (fail : Option String) (newID : String) :
    RepositoryInterface Store :=
  { CreateAttendee := fun attendee st => CreateAttendee fail newID attendee st
    GetAllAttendees := fun st => (GetAllAttendees fail st, st)
    GetAttendeeCount := fun st => (GetAttendeeCount fail st, st)
    DeleteAttendee := fun id st => DeleteAttendee fail id st
    CreateSpeaker := fun speaker st => CreateSpeaker fail newID speaker st
    GetAllSpeakers := fun st => (GetAllSpeakers fail st, st)
    GetSpeaker := fun id st => (GetSpeaker fail id st, st)
    UpdateSpeaker := fun id speaker st => UpdateSpeaker fail id speaker st
    DeleteSpeaker := fun id st => DeleteSpeaker fail id st
    CreateSession := fun session st => CreateSession fail newID session st
    GetAllSessions := fun st => (GetAllSessions fail st, st)
    GetSession := fun id st => (GetSession fail id st, st)
    UpdateSession := fun id session st => UpdateSession fail id session st
    DeleteSession := fun id st => DeleteSession fail id st
    GetDesignationBreakdown := fun st =>
      (GetDesignationBreakdown order
        (match Collection.GetAll fail st.attendees with
          | Except.error err => Except.error err
          | Except.ok docs => Except.ok (docs.map attendeeSnapshot)), st) }

end repository

namespace firebase

/-- The record `firebase.Config`, of which `NewRepository` sets the project identifier. -/
structure Config where
  ProjectID : String
  deriving DecidableEq, Repr

/-- The arguments of a call `firebase.NewApp(ctx, config, opts...)`: the configuration, nil
or not, and the credentials file of the option `option.WithCredentialsFile`, if that option is
passed. -/
structure AppArgs where
  config : Option Config
  credentialsFile : Option String
  deriving DecidableEq, Repr

/-- A `firebase.App`, known by the arguments it was created with. -/
structure App where
  args : AppArgs
  deriving DecidableEq, Repr

end firebase

namespace firestore

/-- A `firestore.Client`, known by the app it was obtained from. -/
structure Client where
  app : firebase.App
  deriving DecidableEq, Repr

end firestore

namespace repository

/-- The record `Repository` (firestore.go 16-19). -/
structure Repository where
  client : firestore.Client
  subcollection : String
  deriving DecidableEq, Repr

/-- A call that `NewRepository` makes outside this repository. -/
inductive ExternalCall where
  | NewApp (args : firebase.AppArgs)
  | Firestore (app : firebase.App)
  deriving DecidableEq, Repr

/-- The function `NewRepository` (firestore.go 21-74). `newAppErr` is the error that
`firebase.NewApp` gives for its arguments, if any, and `firestoreErr` the error that
`app.Firestore` gives. Returns the Go results (the repository, or the error with a nil
repository) and the external calls made, in order. -/
def NewRepository (env : Env) (newAppErr : firebase.AppArgs → Option String)
    (firestoreErr : firebase.App → Option String) :
    Except String Repository × List ExternalCall :=
  let subcollection := Getenv env "FIRESTORE_SUBCOLLECTION_ID"
  if subcollection = "" then
    (Except.error "FIRESTORE_SUBCOLLECTION_ID environment variable is required", [])
  else
    -- Check if service account path is provided (for local development)
    let serviceAccountPath := Getenv env "FIREBASE_SERVICE_ACCOUNT_PATH"
    let args : firebase.AppArgs :=
      if serviceAccountPath ≠ "" then
        -- Use service account file for local development
        { config := none, credentialsFile := some serviceAccountPath }
      else
        -- Use Application Default Credentials (ADC) for Cloud Run
        let projectID := Getenv env "GCP_PROJECT_ID"
        let projectID :=
          if projectID = "" then
            let projectID := Getenv env "GOOGLE_CLOUD_PROJECT"
            if projectID = "" then Getenv env "GCLOUD_PROJECT" else projectID
          else projectID
        let config : Option firebase.Config :=
          if projectID ≠ "" then some { ProjectID := projectID } else none
        { config := config, credentialsFile := none }
    match newAppErr args with
    | some err => (Except.error err, [ExternalCall.NewApp args])
    | none =>
      let app : firebase.App := { args := args }
      match firestoreErr app with
      | some err => (Except.error err, [ExternalCall.NewApp args, ExternalCall.Firestore app])
      | none =>
        (Except.ok { client := { app := app }, subcollection := subcollection },
          [ExternalCall.NewApp args, ExternalCall.Firestore app])

end repository

/-! ## `repository.MockRepository` -/

namespace repository

open models

/-- A recorded call of a repository method with its arguments (the context argument left
out). -/
inductive Call where
  | CreateAttendee (attendee : Attendee)
  | GetAllAttendees
  | GetAttendeeCount
  | DeleteAttendee (id : String)
  | CreateSpeaker (speaker : Speaker)
  | GetAllSpeakers
  | GetSpeaker (id : String)
  | UpdateSpeaker (id : String) (speaker : Speaker)
  | DeleteSpeaker (id : String)
  | CreateSession (session : Session)
  | GetAllSessions
  | GetSession (id : String)
  | UpdateSession (id : String) (session : Session)
  | DeleteSession (id : String)
  | GetDesignationBreakdown
  deriving DecidableEq, Repr

/-- The return values programmed into the mock, one per method. -/
structure MockReturns where
  CreateAttendee : Option String
  GetAllAttendees : Except String (Slice Attendee)
  GetAttendeeCount : Except String Int
  DeleteAttendee : Option String
  CreateSpeaker : Option String
  GetAllSpeakers : Except String (Slice Speaker)
  GetSpeaker : Except String Speaker
  UpdateSpeaker : Option String
  DeleteSpeaker : Option String
  CreateSession : Option String
  GetAllSessions : Except String (Slice Session)
  GetSession : Except String Session
  UpdateSession : Option String
  DeleteSession : Option String
  GetDesignationBreakdown : Except String (Slice DesignationCount)

/-- The mock `MockRepository` (mocks.go 11-107): every method records its call and returns the
programmed values. The state is the list of recorded calls. -/
def MockRepository (r : MockReturns) : RepositoryInterface (List Call) :=
  { CreateAttendee := fun attendee calls => (r.CreateAttendee, calls ++ [Call.CreateAttendee attendee])
    GetAllAttendees := fun calls => (r.GetAllAttendees, calls ++ [Call.GetAllAttendees])
    GetAttendeeCount := fun calls => (r.GetAttendeeCount, calls ++ [Call.GetAttendeeCount])
    DeleteAttendee := fun id calls => (r.DeleteAttendee, calls ++ [Call.DeleteAttendee id])
    CreateSpeaker := fun speaker calls => (r.CreateSpeaker, calls ++ [Call.CreateSpeaker speaker])
    GetAllSpeakers := fun calls => (r.GetAllSpeakers, calls ++ [Call.GetAllSpeakers])
    GetSpeaker := fun id calls => (r.GetSpeaker, calls ++ [Call.GetSpeaker id])
    UpdateSpeaker := fun id speaker calls =>
      (r.UpdateSpeaker, calls ++ [Call.UpdateSpeaker id speaker])
    DeleteSpeaker := fun id calls => (r.DeleteSpeaker, calls ++ [Call.DeleteSpeaker id])
    CreateSession := fun session calls => (r.CreateSession, calls ++ [Call.CreateSession session])
    GetAllSessions := fun calls => (r.GetAllSessions, calls ++ [Call.GetAllSessions])
    GetSession := fun id calls => (r.GetSession, calls ++ [Call.GetSession id])
    UpdateSession := fun id session calls =>
      (r.UpdateSession, calls ++ [Call.UpdateSession id session])
    DeleteSession := fun id calls => (r.DeleteSession, calls ++ [Call.DeleteSession id])
    GetDesignationBreakdown := fun calls =>
      (r.GetDesignationBreakdown, calls ++ [Call.GetDesignationBreakdown]) }

/-- Return values with which every method of the mock succeeds with empty results. -/
def MockReturns.success : MockReturns :=
  { CreateAttendee := none
    GetAllAttendees := Except.ok (some [])
    GetAttendeeCount := Except.ok 0
    DeleteAttendee := none
    CreateSpeaker := none
    GetAllSpeakers := Except.ok (some [])
    GetSpeaker := Except.ok ⟨"", "", "", "", "", ""⟩
    UpdateSpeaker := none
    DeleteSpeaker := none
    CreateSession := none
    GetAllSessions := Except.ok (some [])
    GetSession := Except.ok ⟨"", "", "", "", none⟩
    UpdateSession := none
    DeleteSession := none
    GetDesignationBreakdown := Except.ok none }

/-- Return values with which every method of the mock fails with the error `err`. -/
def MockReturns.failing (err : String) : MockReturns :=
  { CreateAttendee := some err
    GetAllAttendees := Except.error err
    GetAttendeeCount := Except.error err
    DeleteAttendee := some err
    CreateSpeaker := some err
    GetAllSpeakers := Except.error err
    GetSpeaker := Except.error err
    UpdateSpeaker := some err
    DeleteSpeaker := some err
    CreateSession := some err
    GetAllSessions := Except.error err
    GetSession := Except.error err
    UpdateSession := some err
    DeleteSession := some err
    GetDesignationBreakdown := Except.error err }

/-- A sequence of `CreateAttendee` calls, each with the error of its store call (if any), the
identity generated for it and the record: the errors returned, in order, and the store after
the last call. -/
def CreateAttendees : List (Option String × String × Attendee) → Store → List (Option String) × Store
  | [], st => ([], st)
  | (fail, newID, attendee) :: calls, st =>
    let r := CreateAttendee fail newID attendee st
    let rs := CreateAttendees calls r.2
    (r.1 :: rs.1, rs.2)

end repository

/-! ## `handlers`: attendee, speaker, session and stats handlers -/

/-- A Go map with string keys as the list of its entries, keys pairwise distinct. -/
abbrev StringMap (α : Type) := List (String × α)

namespace StringMap

/-- Map write `m[k] = v`: replaces the entry of `k`, or adds one. -/
def set {α : Type} : StringMap α → String → α → StringMap α
  | [], k, v => [(k, v)]
  | (k', v') :: m, k, v => if k' = k then (k', v) :: m else (k', v') :: set m k v

/-- Map read `v, ok := m[k]`: the entry of `k`, if there is one. -/
def get? {α : Type} (m : StringMap α) (k : String) : Option α := m.lookup k

end StringMap

namespace handlers

open gin models repository

/-- The JSON body of a request whose target record has no validation tags, as the decoder sees
it: a body it rejects, with its message, or an object, with the record it decodes to (absent
fields at their zero values). -/
inductive JSONBody (α : Type) where
  | invalid (err : String)
  | object (value : α)
  deriving DecidableEq, Repr

/-- The call `c.ShouldBindJSON(&record)` for a record without validation tags. -/
def JSONBody.ShouldBindJSON {α : Type} : JSONBody α → Except String α
  | JSONBody.invalid err => Except.error err
  | JSONBody.object value => Except.ok value

/-- The JSON body of a registration request as the decoder sees it: a body it rejects, with its
message, or an object with its `name`, `email` and `designation` fields (absent, or a string)
and whatever other fields the client sent, which the decoder ignores. -/
inductive RegisterBody where
  | invalid (err : String)
  | object (name email designation : Option String) (extra : List (String × Value))
  deriving DecidableEq, Repr

/-- The request record of `Register` (attendee.go 22-26). -/
structure RegisterRequest where
  Name : String
  Email : String
  Designation : String
  deriving DecidableEq, Repr

/-- The message of the validator for one field that fails one tag. -/
def fieldError (field tag : String) : String :=
  "Key: '" ++ field ++ "' Error:Field validation for '" ++ field ++ "' failed on the '"
    ++ tag ++ "' tag"

/-- The failures of the validation tags of `RegisterRequest`, in field order: `required` on
each field, and `email` on a non-empty email. `isEmail` is the validator's test for a
syntactically valid address. -/
def registerErrors (isEmail : String → Bool) (req : RegisterRequest) : List String :=
  (if req.Name = "" then [fieldError "Name" "required"] else [])
  ++ (if req.Email = "" then [fieldError "Email" "required"]
      else if isEmail req.Email then [] else [fieldError "Email" "email"])
  ++ (if req.Designation = "" then [fieldError "Designation" "required"] else [])

/-- The call `c.ShouldBindJSON(&req)` for `RegisterRequest`: the decoded request, or the error
of the decoder or of the validation. -/
def ShouldBindRegister (isEmail : String → Bool) : RegisterBody → Except String RegisterRequest
  | RegisterBody.invalid err => Except.error err
  | RegisterBody.object name email designation _ =>
    let req : RegisterRequest :=
      { Name := name.getD "", Email := email.getD "", Designation := designation.getD "" }
    if registerErrors isEmail req = [] then Except.ok req
    else Except.error (String.intercalate "\n" (registerErrors isEmail req))

namespace AttendeeHandler

/-- The handler `AttendeeHandler.Register` (attendee.go 21-46). `now` is `time.Now()`. -/
def Register {σ : Type} (repo : RepositoryInterface σ) (isEmail : String → Bool) (now : Time)
    (body : RegisterBody) (st : σ) (c : Context) : Context × σ :=
  match ShouldBindRegister isEmail body with
  | Except.error err => (c.JSON StatusBadRequest (Body.h [("error", Value.string err)]), st)
  | Except.ok req =>
    let attendee : Attendee :=
      { ID := "", Name := req.Name, Email := req.Email, Designation := req.Designation,
        CreatedAt := now }
    match repo.CreateAttendee attendee st with
    | (some _, st) =>
      (c.JSON StatusInternalServerError
        (Body.h [("error", Value.string "Failed to register attendee")]), st)
    | (none, st) => (c.JSON StatusCreated (Body.attendee attendee), st)

/-- The handler `AttendeeHandler.GetAll` (attendee.go 48-56). -/
def GetAll {σ : Type} (repo : RepositoryInterface σ) (st : σ) (c : Context) : Context × σ :=
  match repo.GetAllAttendees st with
  | (Except.error _, st) =>
    (c.JSON StatusInternalServerError
      (Body.h [("error", Value.string "Failed to fetch attendees")]), st)
  | (Except.ok attendees, st) => (c.JSON StatusOK (Body.attendees attendees), st)

/-- The handler `AttendeeHandler.GetCount` (attendee.go 58-66). -/
def GetCount {σ : Type} (repo : RepositoryInterface σ) (st : σ) (c : Context) : Context × σ :=
  match repo.GetAttendeeCount st with
  | (Except.error _, st) =>
    (c.JSON StatusInternalServerError (Body.h [("error", Value.string "Failed to get count")]), st)
  | (Except.ok count, st) => (c.JSON StatusOK (Body.h [("count", Value.int count)]), st)

/-- The handler `AttendeeHandler.Delete` (attendee.go 68-76). `id` is `c.Param("id")`. -/
def Delete {σ : Type} (repo : RepositoryInterface σ) (id : String) (st : σ) (c : Context) :
    Context × σ :=
  match repo.DeleteAttendee id st with
  | (some _, st) =>
    (c.JSON StatusInternalServerError
      (Body.h [("error", Value.string "Failed to delete attendee")]), st)
  | (none, st) =>
    (c.JSON StatusOK (Body.h [("message", Value.string "Attendee deleted successfully")]), st)

end AttendeeHandler

namespace SpeakerHandler

/-- The handler `SpeakerHandler.GetAll` (speaker.go 20-31). -/
def GetAll {σ : Type} (repo : RepositoryInterface σ) (st : σ) (c : Context) : Context × σ :=
  match repo.GetAllSpeakers st with
  | (Except.error _, st) =>
    (c.JSON StatusInternalServerError
      (Body.h [("error", Value.string "Failed to fetch speakers")]), st)
  | (Except.ok speakers, st) =>
    let speakers : Slice Speaker := if speakers = none then some [] else speakers
    (c.JSON StatusOK (Body.speakers speakers), st)

/-- The handler `SpeakerHandler.Create` (speaker.go 33-46). -/
def Create {σ : Type} (repo : RepositoryInterface σ) (body : JSONBody Speaker) (st : σ)
    (c : Context) : Context × σ :=
  match body.ShouldBindJSON with
  | Except.error err => (c.JSON StatusBadRequest (Body.h [("error", Value.string err)]), st)
  | Except.ok speaker =>
    match repo.CreateSpeaker speaker st with
    | (some _, st) =>
      (c.JSON StatusInternalServerError
        (Body.h [("error", Value.string "Failed to create speaker")]), st)
    | (none, st) => (c.JSON StatusCreated (Body.speaker speaker), st)

/-- The handler `SpeakerHandler.Update` (speaker.go 48-63). -/
def Update {σ : Type} (repo : RepositoryInterface σ) (id : String) (body : JSONBody Speaker)
    (st : σ) (c : Context) : Context × σ :=
  match body.ShouldBindJSON with
  | Except.error err => (c.JSON StatusBadRequest (Body.h [("error", Value.string err)]), st)
  | Except.ok speaker =>
    match repo.UpdateSpeaker id speaker st with
    | (some _, st) =>
      (c.JSON StatusInternalServerError
        (Body.h [("error", Value.string "Failed to update speaker")]), st)
    | (none, st) =>
      let speaker := { speaker with ID := id }
      (c.JSON StatusOK (Body.speaker speaker), st)

/-- The handler `SpeakerHandler.Delete` (speaker.go 65-73). -/
def Delete {σ : Type} (repo : RepositoryInterface σ) (id : String) (st : σ) (c : Context) :
    Context × σ :=
  match repo.DeleteSpeaker id st with
  | (some _, st) =>
    (c.JSON StatusInternalServerError
      (Body.h [("error", Value.string "Failed to delete speaker")]), st)
  | (none, st) =>
    (c.JSON StatusOK (Body.h [("message", Value.string "Speaker deleted successfully")]), st)

end SpeakerHandler

namespace SessionHandler

/-- The map built by the first loop of the enriched path (session.go 35-38). -/
def speakerMap (speakers : List Speaker) : StringMap Speaker :=
  speakers.foldl (fun m s => StringMap.set m s.ID s) []

/-- The body of the loop over the sessions in the enriched path (session.go 42-47): the session
with the speakers that its identities resolve to, in the order of the identities. -/
def enrich (speakerMap : StringMap Speaker) (session : Session) : SessionWithSpeakers :=
  let enriched : SessionWithSpeakers := { Session := session, SpeakerDetails := none }
  (Slice.toList session.Speakers).foldl
    (fun enriched speakerID =>
      match StringMap.get? speakerMap speakerID with
      | some speaker =>
        { enriched with SpeakerDetails := Slice.append enriched.SpeakerDetails speaker }
      | none => enriched)
    enriched

/-- The speakers the enriched path works with: the result of the speaker fetch when it is not
an error, not nil and not empty (the test of session.go 34). -/
def usableSpeakers : Except String (Slice Speaker) → Option (List Speaker)
  | Except.ok (some speakers) => if speakers.length > 0 then some speakers else none
  | _ => none

/-- The handler `SessionHandler.GetAll` (session.go 20-60). -/
def GetAll {σ : Type} (repo : RepositoryInterface σ) (st : σ) (c : Context) : Context × σ :=
  match repo.GetAllSessions st with
  | (Except.error _, st) =>
    (c.JSON StatusInternalServerError
      (Body.h [("error", Value.string "Failed to fetch sessions")]), st)
  | (Except.ok sessions, st) =>
    if sessions = none ∨ Slice.len sessions = 0 then
      (c.JSON StatusOK (Body.sessions (some [])), st)
    else
      -- Enrich with speaker details
      match repo.GetAllSpeakers st with
      | (speakers, st) =>
        match usableSpeakers speakers with
        | some speakers =>
          let speakerMap := speakerMap speakers
          let enrichedSessions : Slice SessionWithSpeakers :=
            (Slice.toList sessions).foldl
              (fun enrichedSessions session =>
                Slice.append enrichedSessions (enrich speakerMap session))
              (some [])
          (c.JSON StatusOK (Body.sessions enrichedSessions), st)
        | none =>
          let enrichedSessions : Slice SessionWithSpeakers :=
            (Slice.toList sessions).foldl
              (fun enrichedSessions session =>
                Slice.append enrichedSessions { Session := session, SpeakerDetails := none })
              (some [])
          (c.JSON StatusOK (Body.sessions enrichedSessions), st)

/-- The handler `SessionHandler.Create` (session.go 62-75). -/
def Create {σ : Type} (repo : RepositoryInterface σ) (body : JSONBody Session) (st : σ)
    (c : Context) : Context × σ :=
  match body.ShouldBindJSON with
  | Except.error err => (c.JSON StatusBadRequest (Body.h [("error", Value.string err)]), st)
  | Except.ok session =>
    match repo.CreateSession session st with
    | (some _, st) =>
      (c.JSON StatusInternalServerError
        (Body.h [("error", Value.string "Failed to create session")]), st)
    | (none, st) => (c.JSON StatusCreated (Body.session session), st)

/-- The handler `SessionHandler.Update` (session.go 77-92). -/
def Update {σ : Type} (repo : RepositoryInterface σ) (id : String) (body : JSONBody Session)
    (st : σ) (c : Context) : Context × σ :=
  match body.ShouldBindJSON with
  | Except.error err => (c.JSON StatusBadRequest (Body.h [("error", Value.string err)]), st)
  | Except.ok session =>
    match repo.UpdateSession id session st with
    | (some _, st) =>
      (c.JSON StatusInternalServerError
        (Body.h [("error", Value.string "Failed to update session")]), st)
    | (none, st) =>
      let session := { session with ID := id }
      (c.JSON StatusOK (Body.session session), st)

/-- The handler `SessionHandler.Delete` (session.go 94-102). -/
def Delete {σ : Type} (repo : RepositoryInterface σ) (id : String) (st : σ) (c : Context) :
    Context × σ :=
  match repo.DeleteSession id st with
  | (some _, st) =>
    (c.JSON StatusInternalServerError
      (Body.h [("error", Value.string "Failed to delete session")]), st)
  | (none, st) =>
    (c.JSON StatusOK (Body.h [("message", Value.string "Session deleted successfully")]), st)

end SessionHandler

namespace AdminHandler

/-- The handler `AdminHandler.GetStats` (admin.go 63-71). -/
def GetStats {σ : Type} (repo : RepositoryInterface σ) (st : σ) (c : Context) : Context × σ :=
  match repo.GetDesignationBreakdown st with
  | (Except.error _, st) =>
    (c.JSON StatusInternalServerError (Body.h [("error", Value.string "Failed to get stats")]), st)
  | (Except.ok breakdown, st) => (c.JSON StatusOK (Body.stats breakdown), st)

end AdminHandler

end handlers

/-! ## Auxiliary definitions for the statements -/

/-- The record that `GetAllAttendees` lists for a document: the decoded record with the
document's identity, or nothing for a document that fails to decode. -/
def listedAttendee (doc : firestore.Document) : Option models.Attendee :=
  match repository.attendeeDataTo doc.data with
  | Except.ok a => some { a with ID := doc.ID }
  | Except.error _ => none

/-- The value by which the ordered attendee query sorts a document. -/
def createdAtValue (doc : firestore.Document) : firestore.FieldValue :=
  (firestore.Fields.get doc.data "createdAt").getD firestore.FieldValue.null

/-- The response of the gate's refusal. -/
def unauthorizedResponse : gin.Response :=
  ⟨401, gin.Body.h [("error", Value.string "Unauthorized")]⟩

/-- The statuses written to the response, in order. -/
def statuses (c : gin.Context) : List Nat := c.writes.map gin.Response.status

/-- Well-formed count map: keys pairwise distinct and every count positive. -/
def GoMap.WF (m : GoMap) : Prop := (m.map Prod.fst).Nodup ∧ ∀ kv ∈ m, 0 < kv.2

/-- The loop body of the first loop of `GetDesignationBreakdown`. -/
def breakdownStep (m : GoMap) (doc : firestore.DocumentSnapshot models.Attendee) : GoMap :=
  match doc.DataTo with
  | Except.error _ => m
  | Except.ok attendee => m.incr attendee.Designation

/-- The record that `GetAllSpeakers` lists for a document: the decoded record with the
document's identity, or nothing for a document that fails to decode. -/
def listedSpeaker (doc : firestore.Document) : Option models.Speaker :=
  match repository.speakerDataTo doc.data with
  | Except.ok s => some { s with ID := doc.ID }
  | Except.error _ => none

/-- The record that `GetAllSessions` lists for a document. -/
def listedSession (doc : firestore.Document) : Option models.Session :=
  match repository.sessionDataTo doc.data with
  | Except.ok s => some { s with ID := doc.ID }
  | Except.error _ => none

/-- The project identifier of the ambient-credentials branch, in the words of the amended
claim: the value of GCP_PROJECT_ID when it is set, else that of GOOGLE_CLOUD_PROJECT when it is
set, else that of GCLOUD_PROJECT; empty when none of the three is set. -/
def ambientProjectID (env : Env) : String :=
  if Getenv env "GCP_PROJECT_ID" ≠ "" then Getenv env "GCP_PROJECT_ID"
  else if Getenv env "GOOGLE_CLOUD_PROJECT" ≠ "" then Getenv env "GOOGLE_CLOUD_PROJECT"
  else Getenv env "GCLOUD_PROJECT"

/-- The arguments with which the app is created from the ambient credentials, in the words of
the amended claim: no credentials file, and a configuration carrying the project identifier
exactly when there is one. -/
def ambientArgs (env : Env) : firebase.AppArgs :=
  { config := if ambientProjectID env ≠ "" then some { ProjectID := ambientProjectID env }
              else none,
    credentialsFile := none }

/-- A message mentions a name when the name occurs in it. -/
def mentions (msg name : String) : Prop := ∃ pre post : String, msg = pre ++ name ++ post

/-! ## The route lists of the specification -/

namespace server

open gin

/-- The routes the specification lists as admin-gated, by method and path pattern. -/
def specGatedRoutes : List (Method × String) :=
  [(.GET, "/api/admin/stats"), (.GET, "/api/attendees"), (.DELETE, "/api/attendees/:id"),
   (.POST, "/api/speakers"), (.PUT, "/api/speakers/:id"), (.DELETE, "/api/speakers/:id"),
   (.POST, "/api/sessions"), (.PUT, "/api/sessions/:id"), (.DELETE, "/api/sessions/:id")]

/-- The routes the specification lists as reachable without the admin flag. -/
def specOpenRoutes : List (Method × String) :=
  [(.POST, "/api/attendees"), (.GET, "/api/attendees/count"), (.GET, "/api/speakers"),
   (.GET, "/api/sessions"), (.POST, "/api/admin/login"), (.POST, "/api/admin/logout")]

/-- The method and path pattern that identify a route. -/
def routeKey (r : gin.RouteInfo) : gin.Method × String := (r.Method, r.Path)

end server

/-! ## Theorems: the admin gate -/

section Gate

open gin sessions middleware handlers handlers.AdminHandler

theorem RequireAdmin_of_admin (c : Context) (h : c.session.Get "isAdmin" = Value.bool true) :
    RequireAdmin c = c := by
  simp [RequireAdmin, h, Context.Next]

theorem RequireAdmin_of_not_admin (c : Context) (h : c.session.Get "isAdmin" ≠ Value.bool true) :
    RequireAdmin c
      = { session := c.session, writes := c.writes ++ [unauthorizedResponse], aborted := true } := by
  simp [RequireAdmin, h, Context.JSON, Context.Abort, unauthorizedResponse, StatusUnauthorized]

/-- C1: for every session state, `RequireAdmin` lets the request proceed to the protected
handler exactly when the session value under "isAdmin" is the boolean true (the context is then
untouched and the handler runs next); otherwise it writes 401 with the body
`error: Unauthorized`, aborts, and the chain stops after the gate, so the protected handler,
whatever it is, does not run. An absent key, `false`, the string "true" and the number 1 are all
refused. -/
theorem C1_RequireAdmin_gate (impl : HandlerFunc → Context → Context) (s : Session)
    (h : HandlerFunc) :
    ((RequireAdmin (Context.start s)).aborted = false ↔ s.Get "isAdmin" = Value.bool true)
    ∧ (s.Get "isAdmin" = Value.bool true →
        RequireAdmin (Context.start s) = Context.start s
        ∧ runChain impl [HandlerFunc.RequireAdmin, h] (Context.start s)
            = ([HandlerFunc.RequireAdmin, h], exec impl h (Context.start s)))
    ∧ (s.Get "isAdmin" ≠ Value.bool true →
        RequireAdmin (Context.start s)
          = { session := s, writes := [⟨401, Body.h [("error", Value.string "Unauthorized")]⟩],
              aborted := true }
        ∧ runChain impl [HandlerFunc.RequireAdmin, h] (Context.start s)
            = ([HandlerFunc.RequireAdmin], RequireAdmin (Context.start s)))
    ∧ (∀ vs : Values, vs.lookup "isAdmin" = none → Values.Get vs "isAdmin" ≠ Value.bool true)
    ∧ (∀ (v : Value) (vs : Values), v ≠ Value.bool true →
        Values.Get (("isAdmin", v) :: vs) "isAdmin" ≠ Value.bool true)
    ∧ Value.bool false ≠ Value.bool true
    ∧ Value.string "true" ≠ Value.bool true
    ∧ Value.int 1 ≠ Value.bool true
    ∧ Value.nil ≠ Value.bool true := by
  have hc : (Context.start s).aborted = false := rfl
  refine ⟨?_, ?_, ?_, ?_, ?_, by decide, by decide, by decide, by decide⟩
  · by_cases hs : s.Get "isAdmin" = Value.bool true
    · have := RequireAdmin_of_admin (Context.start s) hs
      simp [this, hs, hc]
    · have := RequireAdmin_of_not_admin (Context.start s) hs
      simp [this, hs]
  · intro hs
    have e := RequireAdmin_of_admin (Context.start s) hs
    refine ⟨e, ?_⟩
    simp [runChain, exec, e, hc]
  · intro hs
    have e := RequireAdmin_of_not_admin (Context.start s) hs
    refine ⟨by simpa [Context.start, unauthorizedResponse] using e, ?_⟩
    simp [runChain, exec, e, hc]
  · intro vs hvs
    simp [Values.Get, hvs]
  · intro v vs hv
    simpa [Values.Get, List.lookup] using hv

/-! ## Theorems: login and logout -/

theorem Values_Get_cons_self (k : String) (v : Value) (vs : Values) :
    Values.Get ((k, v) :: vs) k = v := by
  simp [Values.Get, List.lookup]

theorem Getenv_eq_empty_iff (env : Env) (k : String) :
    Getenv env k = "" ↔ env.lookup k = none ∨ env.lookup k = some "" := by
  unfold Getenv
  cases h : env.lookup k <;> simp

theorem ShouldBindJSON_ok_iff (body : LoginBody) (p : String) :
    ShouldBindJSON body = Except.ok p ↔ body = LoginBody.object (some p) ∧ p ≠ "" := by
  cases body with
  | invalid err => simp [ShouldBindJSON]
  | object o =>
    cases o with
    | none => simp [ShouldBindJSON]
    | some q =>
      by_cases hq : q = ""
      · subst hq
        simp [ShouldBindJSON]
        intro h1
        exact h1.symm
      · simp [ShouldBindJSON, hq]
        intro h1
        exact h1 ▸ hq

/-- C2: with a non-empty configured ADMIN_PASSWORD and a request password equal to it, when the
session save succeeds `Login` writes exactly 200 with the body `success: true`, does not abort,
and the resulting session (in memory and in the client's cookie) has isAdmin = true, so that
`RequireAdmin` on a later request carrying that cookie lets the request proceed. -/
theorem C2_Login_success (env : Env) (pw : String) (s : Session)
    (hpw : pw ≠ "") (henv : Getenv env "ADMIN_PASSWORD" = pw) (hsave : s.saveErr = none) :
    (Login env (LoginBody.object (some pw)) (Context.start s)).writes
        = [⟨200, Body.h [("success", Value.bool true)]⟩]
    ∧ (Login env (LoginBody.object (some pw)) (Context.start s)).aborted = false
    ∧ (Login env (LoginBody.object (some pw)) (Context.start s)).session.Get "isAdmin"
        = Value.bool true
    ∧ Values.Get (Login env (LoginBody.object (some pw)) (Context.start s)).session.cookie
        "isAdmin" = Value.bool true
    ∧ ∀ e : Option String,
        RequireAdmin
            (newContext (Login env (LoginBody.object (some pw)) (Context.start s)).session.cookie e)
          = newContext (Login env (LoginBody.object (some pw)) (Context.start s)).session.cookie e := by
  have hL : Login env (LoginBody.object (some pw)) (Context.start s)
      = { session := { values := ("isAdmin", Value.bool true)
                          :: s.values.filter (fun kv => kv.1 ≠ "isAdmin"),
                       written := false,
                       cookie := ("isAdmin", Value.bool true)
                          :: s.values.filter (fun kv => kv.1 ≠ "isAdmin"),
                       saveErr := none },
          writes := [⟨200, Body.h [("success", Value.bool true)]⟩],
          aborted := false } := by
    simp [Login, ShouldBindJSON, hpw, henv, Session.Set, Session.Save, hsave, Context.JSON,
      Context.start, StatusOK]
  rw [hL]
  refine ⟨rfl, rfl, ?_, ?_, ?_⟩
  · simp [Session.Get, Values_Get_cons_self]
  · simp [Values_Get_cons_self]
  · intro e
    apply RequireAdmin_of_admin
    simp [newContext, Context.start, sessions.load, Session.Get, Values_Get_cons_self]

/-- Witness for C2: secret "s3cret", request password "s3cret", empty session, save succeeds. -/
theorem C2_Login_success_witness :
    (Login [("ADMIN_PASSWORD", "s3cret")] (LoginBody.object (some "s3cret"))
        (Context.start (sessions.load [] none))).writes
      = [⟨200, Body.h [("success", Value.bool true)]⟩]
    ∧ Values.Get (Login [("ADMIN_PASSWORD", "s3cret")] (LoginBody.object (some "s3cret"))
        (Context.start (sessions.load [] none))).session.cookie "isAdmin" = Value.bool true :=
  have h := C2_Login_success [("ADMIN_PASSWORD", "s3cret")] "s3cret" (sessions.load [] none)
    (by decide) (by decide) rfl
  ⟨h.1, h.2.2.2.1⟩

/-- C3: `Login` answers 401 (with the body `error: Invalid password`) exactly when the request
carries a non-empty password, a non-empty ADMIN_PASSWORD is configured, and the two strings
differ; the comparison is exact string equality, so a password differing in case or in
surrounding whitespace is rejected with 401. -/
theorem C3_Login_wrong_password (env : Env) (body : LoginBody) (s : Session) :
    ((Login env body (Context.start s)).writes
        = [⟨401, Body.h [("error", Value.string "Invalid password")]⟩]
      ↔ ∃ p, body = LoginBody.object (some p) ∧ p ≠ ""
          ∧ Getenv env "ADMIN_PASSWORD" ≠ "" ∧ p ≠ Getenv env "ADMIN_PASSWORD")
    ∧ (statuses (Login env body (Context.start s)) = [401]
      ↔ ∃ p, body = LoginBody.object (some p) ∧ p ≠ ""
          ∧ Getenv env "ADMIN_PASSWORD" ≠ "" ∧ p ≠ Getenv env "ADMIN_PASSWORD")
    ∧ statuses (Login [("ADMIN_PASSWORD", "Secret")] (LoginBody.object (some "secret"))
        (Context.start s)) = [401]
    ∧ statuses (Login [("ADMIN_PASSWORD", "Secret")] (LoginBody.object (some " Secret"))
        (Context.start s)) = [401]
    ∧ statuses (Login [("ADMIN_PASSWORD", "Secret")] (LoginBody.object (some "Secret "))
        (Context.start s)) = [401] := by
  have key : ∀ (env : Env) (body : LoginBody),
      (statuses (Login env body (Context.start s)) = [401]
        ↔ ∃ p, body = LoginBody.object (some p) ∧ p ≠ ""
            ∧ Getenv env "ADMIN_PASSWORD" ≠ "" ∧ p ≠ Getenv env "ADMIN_PASSWORD")
      ∧ (statuses (Login env body (Context.start s)) = [401] →
          (Login env body (Context.start s)).writes
            = [⟨401, Body.h [("error", Value.string "Invalid password")]⟩]) := by
    intro env body
    cases hb : ShouldBindJSON body with
    | error err =>
      have hne : ∀ p, ¬ (body = LoginBody.object (some p) ∧ p ≠ "") := by
        intro p hp
        rw [← ShouldBindJSON_ok_iff, hb] at hp
        cases hp
      have hne2 : ∀ p, body = LoginBody.object (some p) → p = "" := by
        intro p hp
        by_contra h
        exact hne p ⟨hp, h⟩
      constructor
      · constructor
        · simp [statuses, Login, hb, Context.JSON, Context.start, StatusBadRequest]
        · rintro ⟨p, hp1, hp2, -⟩
          exact absurd (hne2 p hp1) hp2
      · simp [statuses, Login, hb, Context.JSON, Context.start, StatusBadRequest]
    | ok p =>
      obtain ⟨hbody, hp⟩ := (ShouldBindJSON_ok_iff body p).1 hb
      by_cases h1 : Getenv env "ADMIN_PASSWORD" = ""
      · constructor
        · constructor
          · simp [statuses, Login, hb, h1, Context.JSON, Context.start, StatusInternalServerError]
          · rintro ⟨q, -, -, hq, -⟩
            exact absurd h1 hq
        · simp [statuses, Login, hb, h1, Context.JSON, Context.start, StatusInternalServerError]
      · by_cases h2 : p = Getenv env "ADMIN_PASSWORD"
        · have hst : statuses (Login env body (Context.start s)) ≠ [401] := by
            simp only [statuses, Login, hb]
            simp only [h1, if_false, ne_eq, h2, not_true, Session.Save, Session.Set]
            cases hse : s.saveErr <;>
              simp [hse, Context.JSON, Context.start, StatusInternalServerError, StatusOK]
          constructor
          · constructor
            · intro h
              exact absurd h hst
            · rintro ⟨q, hq1, -, -, hq2⟩
              rw [hbody] at hq1
              injection hq1 with hq1
              injection hq1 with hq1
              exact absurd (hq1 ▸ h2) hq2
          · intro h
            exact absurd h hst
        · constructor
          · constructor
            · intro _
              exact ⟨p, hbody, hp, h1, h2⟩
            · intro _
              simp [statuses, Login, hb, h1, h2, Context.JSON, Context.start, StatusUnauthorized]
          · intro _
            simp [Login, hb, h1, h2, Context.JSON, Context.start, StatusUnauthorized]
  refine ⟨⟨?_, ?_⟩, (key env body).1, ?_, ?_, ?_⟩
  · intro h
    apply (key env body).1.1
    simp [statuses, h]
  · intro h
    exact (key env body).2 ((key env body).1.2 h)
  · exact (key _ _).1.2 ⟨"secret", rfl, by decide, by decide, by decide⟩
  · exact (key _ _).1.2 ⟨" Secret", rfl, by decide, by decide, by decide⟩
  · exact (key _ _).1.2 ⟨"Secret ", rfl, by decide, by decide, by decide⟩

/-- C4: when ADMIN_PASSWORD is unset or empty, a request carrying a non-empty password gets
exactly one response, 500 with the body `error: Admin password not configured` (so neither 401
nor 200), the chain is not aborted and the session is left exactly as it was: it is not marked
authorized. -/
theorem C4_Login_no_secret (env : Env) (p : String) (s : Session)
    (henv : env.lookup "ADMIN_PASSWORD" = none ∨ env.lookup "ADMIN_PASSWORD" = some "")
    (hp : p ≠ "") :
    Login env (LoginBody.object (some p)) (Context.start s)
        = { session := s,
            writes := [⟨500, Body.h [("error", Value.string "Admin password not configured")]⟩],
            aborted := false }
    ∧ statuses (Login env (LoginBody.object (some p)) (Context.start s)) = [500]
    ∧ 401 ∉ statuses (Login env (LoginBody.object (some p)) (Context.start s))
    ∧ 200 ∉ statuses (Login env (LoginBody.object (some p)) (Context.start s))
    ∧ (Login env (LoginBody.object (some p)) (Context.start s)).session.Get "isAdmin"
        = s.Get "isAdmin" := by
  have h1 : Getenv env "ADMIN_PASSWORD" = "" := (Getenv_eq_empty_iff env _).2 henv
  have hL : Login env (LoginBody.object (some p)) (Context.start s)
        = { session := s,
            writes := [⟨500, Body.h [("error", Value.string "Admin password not configured")]⟩],
            aborted := false } := by
    simp [Login, ShouldBindJSON, hp, h1, Context.JSON, Context.start, StatusInternalServerError]
  rw [hL]
  simp [statuses]

/-- Witness for C4: no ADMIN_PASSWORD in the environment, request password "any-password". -/
theorem C4_Login_no_secret_witness :
    statuses (Login [] (LoginBody.object (some "any-password"))
      (Context.start (sessions.load [] none))) = [500] :=
  (C4_Login_no_secret [] "any-password" (sessions.load [] none) (Or.inl rfl) (by decide)).2.1

/-- C5: a request whose body has no password field, or an empty password, gets 400 with the
validator's message as the only response, for every environment (ADMIN_PASSWORD configured,
empty or unset): the outcome is the same for any two environments, and the session is left as
it was. -/
theorem C5_Login_missing_password (env env' : Env) (s : Session) :
    Login env (LoginBody.object none) (Context.start s)
        = { session := s,
            writes := [⟨400, Body.h [("error", Value.string requiredPasswordError)]⟩],
            aborted := false }
    ∧ Login env (LoginBody.object (some "")) (Context.start s)
        = { session := s,
            writes := [⟨400, Body.h [("error", Value.string requiredPasswordError)]⟩],
            aborted := false }
    ∧ statuses (Login env (LoginBody.object none) (Context.start s)) = [400]
    ∧ statuses (Login env (LoginBody.object (some "")) (Context.start s)) = [400]
    ∧ Login env (LoginBody.object none) (Context.start s)
        = Login env' (LoginBody.object none) (Context.start s)
    ∧ Login env (LoginBody.object (some "")) (Context.start s)
        = Login env' (LoginBody.object (some "")) (Context.start s) := by
  simp [Login, ShouldBindJSON, Context.JSON, Context.start, StatusBadRequest, statuses]

theorem foldl_Delete_values (keys : List String) (s : Session) :
    (keys.foldl Session.Delete s).values = s.values.filter (fun kv => kv.1 ∉ keys)
    ∧ (keys.foldl Session.Delete s).cookie = s.cookie
    ∧ (keys.foldl Session.Delete s).saveErr = s.saveErr
    ∧ (keys.foldl Session.Delete s).written = (s.written || !keys.isEmpty) := by
  induction keys generalizing s with
  | nil => simp
  | cons k ks ih =>
    simp only [List.foldl_cons]
    obtain ⟨h1, h2, h3, h4⟩ := ih (s.Delete k)
    refine ⟨?_, ?_, ?_, ?_⟩
    · rw [h1]
      simp only [Session.Delete, List.filter_filter]
      congr 1
      funext kv
      simp [List.mem_cons, not_or, Bool.and_comm]
    · rw [h2]; rfl
    · rw [h3]; rfl
    · rw [h4]; simp [Session.Delete]

theorem Clear_values (s : Session) : s.Clear.values = [] := by
  unfold Session.Clear
  rw [(foldl_Delete_values _ s).1]
  simp only [List.filter_eq_nil_iff]
  intro kv hkv
  simp only [decide_not, Bool.not_eq_true', decide_eq_false_iff_not, not_not]
  exact List.mem_map_of_mem Prod.fst hkv

/-- C6: for every session state a request can arrive with (any cookie contents, authorized or
not), when the session save succeeds `Logout` writes exactly 200 with the body
`message: Logged out successfully`, and the resulting session holds no keys at all, in memory
and in the client's cookie; `RequireAdmin` on a later request carrying that cookie answers 401
and aborts. -/
theorem C6_Logout_clears (cookie : Values) :
    (Logout (newContext cookie none)).writes
        = [⟨200, Body.h [("message", Value.string "Logged out successfully")]⟩]
    ∧ (Logout (newContext cookie none)).session.values = []
    ∧ (Logout (newContext cookie none)).session.cookie = []
    ∧ ∀ e : Option String,
        RequireAdmin (newContext (Logout (newContext cookie none)).session.cookie e)
          = { session := sessions.load [] e,
              writes := [⟨401, Body.h [("error", Value.string "Unauthorized")]⟩],
              aborted := true } := by
  have hv := Clear_values (sessions.load cookie none)
  obtain ⟨-, h2, h3, h4⟩ := foldl_Delete_values (cookie.map Prod.fst) (sessions.load cookie none)
  have hc : (sessions.load cookie none).Clear.cookie = cookie := h2
  have he : (sessions.load cookie none).Clear.saveErr = none := h3
  have hw : (sessions.load cookie none).Clear.written = !cookie.isEmpty := by
    have : (sessions.load cookie none).Clear.written
        = ((sessions.load cookie none).written || !(cookie.map Prod.fst).isEmpty) := h4
    rw [this]
    cases cookie <;> simp [sessions.load]
  have hcookie : (Logout (newContext cookie none)).session.cookie = [] := by
    cases cookie with
    | nil => simp [Logout, newContext, Context.start, Session.Save, hw, hc, Context.JSON]
    | cons kv rest =>
      simp [Logout, newContext, Context.start, Session.Save, hw, he, hv, Context.JSON]
  refine ⟨?_, ?_, hcookie, ?_⟩
  · cases cookie <;>
      simp [Logout, newContext, Context.start, Session.Save, hw, he, Context.JSON, StatusOK]
  · cases cookie <;>
      simp [Logout, newContext, Context.start, Session.Save, hw, he, hv, Context.JSON]
  · intro e
    rw [hcookie]
    rfl

/-! ## Theorems: route gating -/

theorem runChain_aborted (impl : HandlerFunc → Context → Context) (hs : List HandlerFunc)
    (c : Context) (hc : c.aborted = true) : runChain impl hs c = ([], c) := by
  cases hs <;> simp [runChain, hc]

theorem runChain_append (impl : HandlerFunc → Context → Context) (a b : List HandlerFunc)
    (c : Context) :
    runChain impl (a ++ b) c
      = ((runChain impl a c).1 ++ (runChain impl b (runChain impl a c).2).1,
         (runChain impl b (runChain impl a c).2).2) := by
  induction a generalizing c with
  | nil => simp [runChain]
  | cons h hs ih =>
    by_cases hc : c.aborted = true
    · simp [runChain, hc, runChain_aborted impl b c hc]
    · simp [runChain, hc, ih]

theorem runChain_trace_subset (impl : HandlerFunc → Context → Context) (hs : List HandlerFunc)
    (c : Context) : ∀ x ∈ (runChain impl hs c).1, x ∈ hs := by
  induction hs generalizing c with
  | nil => simp [runChain]
  | cons h hs ih =>
    intro x hx
    by_cases hc : c.aborted = true
    · simp [runChain, hc] at hx
    · simp only [runChain, hc, Bool.false_eq_true, if_false, List.mem_cons] at hx
      rcases hx with hx | hx
      · exact hx ▸ List.mem_cons_self _ _
      · exact List.mem_cons_of_mem _ (ih _ x hx)

/-- A route whose chain is `pre ++ [RequireAdmin, h]`: when the session seen after `pre` does not
hold isAdmin = true, `h` is not among the functions that ran. -/
theorem gated_chain_blocks (impl : HandlerFunc → Context → Context) (pre : List HandlerFunc)
    (h : HandlerFunc) (c : Context) (hpre : h ∉ pre) (hh : h ≠ HandlerFunc.RequireAdmin)
    (hs : (runChain impl pre c).2.session.Get "isAdmin" ≠ Value.bool true) :
    h ∉ (runChain impl (pre ++ [HandlerFunc.RequireAdmin, h]) c).1 := by
  rw [runChain_append]
  simp only [List.mem_append, not_or]
  refine ⟨fun hx => hpre (runChain_trace_subset impl pre c h hx), ?_⟩
  by_cases hc : (runChain impl pre c).2.aborted = true
  · simp [runChain_aborted impl _ _ hc]
  · have e := RequireAdmin_of_not_admin _ hs
    simp [runChain, hc, exec, e, hh]

/-- A route whose chain is `pre ++ [h]`: when `pre` does not abort, `h` runs, whatever the
session holds. -/
theorem open_chain_runs (impl : HandlerFunc → Context → Context) (pre : List HandlerFunc)
    (h : HandlerFunc) (c : Context) (hc : (runChain impl pre c).2.aborted = false) :
    h ∈ (runChain impl (pre ++ [h]) c).1 := by
  rw [runChain_append]
  simp [runChain, hc]

theorem main_cases (env : Env) : server.main env = server.main []
    ∨ server.main env = server.main [("STATIC_DIR", "dist")] := by
  by_cases h : Getenv env "STATIC_DIR" = ""
  · left
    have e : Getenv ([] : Env) "STATIC_DIR" = "" := rfl
    simp [server.main, h, e]
  · right
    have e : ¬ Getenv [("STATIC_DIR", "dist")] "STATIC_DIR" = "" := by decide
    simp [server.main, h, e]

/-- C7: in the route table built by `main`, for every environment, the routes with
`RequireAdmin` in their chain are exactly the nine routes the specification lists as gated, and
there the gate stands right before the route's handler, after the engine-wide middleware; each
of the fifteen listed routes is registered exactly once. For a gated route, whenever the session
seen by the gate does not hold isAdmin = true the route's handler is not among the functions
that run, whatever the handlers do. For each of the six open routes the chain is the engine-wide
middleware followed by the handler, so the handler runs for every session once the engine-wide
middleware lets the request through. -/
theorem C7_route_gating (env : Env) (impl : HandlerFunc → Context → Context) (c : Context) :
    (∀ r ∈ server.main env,
        HandlerFunc.RequireAdmin ∈ r.Handlers ↔ server.routeKey r ∈ server.specGatedRoutes)
    ∧ (∀ k ∈ server.specGatedRoutes ++ server.specOpenRoutes,
        ((server.main env).map server.routeKey).count k = 1)
    ∧ (∀ r ∈ server.main env, server.routeKey r ∈ server.specGatedRoutes →
        r.Handlers = server.engineHandlers ++ HandlerFunc.RequireAdmin :: r.handler.toList
        ∧ r.handler.isSome = true
        ∧ ((runChain impl server.engineHandlers c).2.session.Get "isAdmin" ≠ Value.bool true →
            ∀ h, r.handler = some h → h ∉ (runChain impl r.Handlers c).1))
    ∧ (∀ r ∈ server.main env, server.routeKey r ∈ server.specOpenRoutes →
        r.Handlers = server.engineHandlers ++ r.handler.toList
        ∧ r.handler.isSome = true
        ∧ ((runChain impl server.engineHandlers c).2.aborted = false →
            ∀ h, r.handler = some h → h ∈ (runChain impl r.Handlers c).1)) := by
  have hg : ∀ r ∈ server.main env, server.routeKey r ∈ server.specGatedRoutes →
      r.Handlers = server.engineHandlers ++ HandlerFunc.RequireAdmin :: r.handler.toList
      ∧ r.handler.isSome = true
      ∧ r.handler ≠ some HandlerFunc.RequireAdmin
      ∧ ∀ h ∈ server.engineHandlers, r.handler ≠ some h := by
    rcases main_cases env with e | e <;> rw [e] <;> decide
  have ho : ∀ r ∈ server.main env, server.routeKey r ∈ server.specOpenRoutes →
      r.Handlers = server.engineHandlers ++ r.handler.toList
      ∧ r.handler.isSome = true := by
    rcases main_cases env with e | e <;> rw [e] <;> decide
  refine ⟨?_, ?_, ?_, ?_⟩
  · rcases main_cases env with e | e <;> rw [e] <;> decide
  · rcases main_cases env with e | e <;> rw [e] <;> decide
  · intro r hr hk
    obtain ⟨h1, h2, h3, h4⟩ := hg r hr hk
    refine ⟨h1, h2, ?_⟩
    intro hs h hh
    rw [h1, hh]
    simp only [Option.toList]
    apply gated_chain_blocks impl _ h c _ _ hs
    · intro hmem
      exact h4 h hmem hh
    · intro e
      exact h3 (e ▸ hh)
  · intro r hr hk
    obtain ⟨h1, h2⟩ := ho r hr hk
    refine ⟨h1, h2, ?_⟩
    intro hc h hh
    rw [h1, hh]
    simp only [Option.toList]
    exact open_chain_runs impl _ h c hc

end Gate

/-! ## Theorems: designation breakdown -/

section Breakdown

open repository models firestore

theorem GoMap.get_cons (a : String) (b : Nat) (m : GoMap) (k : String) :
    GoMap.get ((a, b) :: m) k = if k = a then b else GoMap.get m k := by
  unfold GoMap.get
  simp only [List.lookup]
  by_cases h : k = a
  · subst h
    simp
  · have hb : (k == a) = false := by simpa using h
    simp [hb, h]

theorem GoMap.get_set (m : GoMap) (k : String) (v : Nat) (k' : String) :
    GoMap.get (GoMap.set m k v) k' = if k' = k then v else GoMap.get m k' := by
  induction m with
  | nil =>
    simp only [GoMap.set, GoMap.get_cons]
  | cons kv m ih =>
    obtain ⟨a, b⟩ := kv
    by_cases hak : a = k
    · subst hak
      simp only [GoMap.set, if_true, GoMap.get_cons]
      split <;> rfl
    · simp only [GoMap.set, hak, if_false, GoMap.get_cons, ih]
      by_cases h' : k' = a
      · have hk : ¬ k' = k := fun e => hak (h' ▸ e)
        simp [h', hk, hak]
      · simp [h']

theorem GoMap.keys_set (m : GoMap) (k : String) (v : Nat) :
    (GoMap.set m k v).map Prod.fst
      = if k ∈ m.map Prod.fst then m.map Prod.fst else m.map Prod.fst ++ [k] := by
  induction m with
  | nil => simp [GoMap.set]
  | cons kv m ih =>
    obtain ⟨a, b⟩ := kv
    by_cases hak : a = k
    · subst hak
      simp [GoMap.set]
    · have hka : ¬ k = a := fun e => hak e.symm
      simp only [GoMap.set, hak, if_false, List.map_cons, ih, List.mem_cons, hka, false_or]
      split <;> simp

theorem GoMap.mem_set (m : GoMap) (k : String) (v : Nat) (kv : String × Nat)
    (h : kv ∈ GoMap.set m k v) : kv ∈ m ∨ kv = (k, v) := by
  induction m with
  | nil => simpa [GoMap.set] using h
  | cons e m ih =>
    obtain ⟨a, b⟩ := e
    by_cases hak : a = k
    · subst hak
      simp only [GoMap.set, if_true, List.mem_cons] at h
      rcases h with h | h
      · exact Or.inr h
      · exact Or.inl (List.mem_cons_of_mem _ h)
    · simp only [GoMap.set, hak, if_false, List.mem_cons] at h
      rcases h with h | h
      · exact Or.inl (h ▸ List.mem_cons_self _ _)
      · rcases ih h with h | h
        · exact Or.inl (List.mem_cons_of_mem _ h)
        · exact Or.inr h

theorem GoMap.WF_incr (m : GoMap) (k : String) (h : GoMap.WF m) : GoMap.WF (GoMap.incr m k) := by
  constructor
  · unfold GoMap.incr
    rw [GoMap.keys_set]
    split
    · exact h.1
    · rename_i hk
      exact List.Nodup.append h.1 (List.nodup_singleton k) (by simpa using hk)
  · intro kv hkv
    rcases GoMap.mem_set _ _ _ _ hkv with h' | h'
    · exact h.2 kv h'
    · rw [h']
      exact Nat.succ_pos _

theorem GoMap.mem_iff_of_WF (m : GoMap) (h : GoMap.WF m) (k : String) (v : Nat) :
    (k, v) ∈ m ↔ v = GoMap.get m k ∧ 0 < v := by
  induction m with
  | nil =>
    simp only [List.not_mem_nil, false_iff, not_and, GoMap.get, List.lookup, Option.getD_none]
    omega
  | cons e m ih =>
    obtain ⟨a, b⟩ := e
    have hwf : GoMap.WF m := by
      refine ⟨?_, fun kv hkv => h.2 kv (List.mem_cons_of_mem _ hkv)⟩
      have := h.1
      simp only [List.map_cons, List.nodup_cons] at this
      exact this.2
    have ha : a ∉ m.map Prod.fst := by
      have := h.1
      simp only [List.map_cons, List.nodup_cons] at this
      exact this.1
    have hb : 0 < b := h.2 (a, b) (List.mem_cons_self _ _)
    by_cases hka : k = a
    · subst hka
      have hg : GoMap.get ((k, b) :: m) k = b := by simp [GoMap.get_cons]
      rw [hg]
      constructor
      · intro hmem
        rcases List.mem_cons.1 hmem with e | e
        · have : v = b := by injection e
          exact ⟨this, this ▸ hb⟩
        · exact absurd (List.mem_map_of_mem Prod.fst e) ha
      · rintro ⟨rfl, -⟩
        exact List.mem_cons_self _ _
    · have hg : GoMap.get ((a, b) :: m) k = GoMap.get m k := by
        simp [GoMap.get_cons, hka]
      rw [hg, ← ih hwf]
      constructor
      · intro hmem
        rcases List.mem_cons.1 hmem with e | e
        · have : k = a := by injection e
          exact absurd this hka
        · exact e
      · intro hmem
        exact List.mem_cons_of_mem _ hmem

theorem designationMap_eq (docs : List (DocumentSnapshot Attendee)) :
    designationMap docs = docs.foldl breakdownStep [] := rfl

theorem foldl_breakdownStep (docs : List (DocumentSnapshot Attendee)) (m : GoMap)
    (h : GoMap.WF m) :
    GoMap.WF (docs.foldl breakdownStep m)
    ∧ ∀ k, GoMap.get (docs.foldl breakdownStep m) k = GoMap.get m k + designationCount docs k := by
  induction docs generalizing m with
  | nil => exact ⟨h, fun k => by simp [designationCount, parsedAttendees]⟩
  | cons doc rest ih =>
    simp only [List.foldl_cons]
    cases hd : doc.DataTo with
    | error err =>
      have e : breakdownStep m doc = m := by simp [breakdownStep, hd]
      rw [e]
      refine ⟨(ih m h).1, fun k => ?_⟩
      rw [(ih m h).2 k]
      simp [designationCount, parsedAttendees, List.filterMap_cons, hd, Except.toOption]
    | ok a =>
      have e : breakdownStep m doc = m.incr a.Designation := by simp [breakdownStep, hd]
      rw [e]
      have hw := GoMap.WF_incr m a.Designation h
      refine ⟨(ih _ hw).1, fun k => ?_⟩
      rw [(ih _ hw).2 k]
      have hc : designationCount (doc :: rest) k
          = designationCount rest k + (if a.Designation = k then 1 else 0) := by
        simp [designationCount, parsedAttendees, List.filterMap_cons, hd, Except.toOption,
          List.countP_cons]
      rw [hc]
      unfold GoMap.incr
      rw [GoMap.get_set]
      by_cases hk : k = a.Designation
      · subst hk
        simp
        omega
      · have hk' : ¬ a.Designation = k := fun e => hk e.symm
        simp [hk, hk']

theorem designationMap_spec (docs : List (DocumentSnapshot Attendee)) :
    GoMap.WF (designationMap docs)
    ∧ ∀ k, GoMap.get (designationMap docs) k = designationCount docs k := by
  have h := foldl_breakdownStep docs [] ⟨by simp, by simp⟩
  rw [designationMap_eq]
  refine ⟨h.1, fun k => ?_⟩
  rw [h.2 k]
  simp [GoMap.get]

theorem foldl_append_toList (l : List (String × Nat)) (b : Slice DesignationCount) :
    Slice.toList (l.foldl
        (fun breakdown entry =>
          Slice.append breakdown { Designation := entry.1, Count := entry.2 }) b)
      = Slice.toList b ++ l.map (fun e => { Designation := e.1, Count := e.2 }) := by
  induction l generalizing b with
  | nil => simp
  | cons e l ih =>
    simp only [List.foldl_cons, List.map_cons]
    rw [ih]
    simp [Slice.append, Slice.toList]

theorem GetDesignationBreakdown_ok (order : GoMap → GoMap)
    (docs : List (DocumentSnapshot Attendee)) :
    ∃ b, GetDesignationBreakdown order (Except.ok docs) = Except.ok b
      ∧ Slice.toList b
          = (order (designationMap docs)).map (fun e => { Designation := e.1, Count := e.2 }) := by
  refine ⟨_, rfl, ?_⟩
  rw [foldl_append_toList]
  simp [Slice.toList]

theorem designationCount_eq_count (docs : List (DocumentSnapshot Attendee)) (d : String) :
    designationCount docs d
      = ((parsedAttendees docs).map (fun a => a.Designation)).count d := by
  unfold designationCount
  generalize parsedAttendees docs = l
  induction l with
  | nil => simp
  | cons a l ih =>
    by_cases h : a.Designation = d
    · simp [List.countP_cons, List.count_cons, h, ih]
    · simp [List.countP_cons, List.count_cons, h, ih]

theorem breakdown_mem_iff (order : GoMap → GoMap) (horder : ∀ m, (order m).Perm m)
    (docs : List (DocumentSnapshot Attendee)) (b : Slice DesignationCount)
    (hb : Slice.toList b
      = (order (designationMap docs)).map (fun e => { Designation := e.1, Count := e.2 }))
    (d : String) (n : Nat) :
    ({ Designation := d, Count := n } : DesignationCount) ∈ Slice.toList b
      ↔ n = designationCount docs d ∧ 0 < n := by
  obtain ⟨hwf, hget⟩ := designationMap_spec docs
  rw [hb, ← hget d, ← GoMap.mem_iff_of_WF _ hwf, ← (horder (designationMap docs)).mem_iff]
  simp only [List.mem_map, DesignationCount.mk.injEq, Prod.exists]
  constructor
  · rintro ⟨a, c, hmem, rfl, rfl⟩
    exact hmem
  · intro hmem
    exact ⟨d, n, hmem, rfl, rfl⟩

/-- C8: for every list of attendee documents and every order in which the map is ranged over,
`GetDesignationBreakdown` returns without error a list in which an entry (d, n) occurs exactly
when n is the number of decoded attendees whose designation is the exact string d and n is
positive; no designation occurs in two entries, and the designations that occur are exactly the
designations of the attendees. The comparison is exact string equality: designations
[Engineer, Engineer, Manager] give the entries Engineer:2 and Manager:1 and no other, and
"Engineer", "engineer" and "Engineer " give three entries of count 1. -/
theorem C8_breakdown_counts (order : GoMap → GoMap) (horder : ∀ m, (order m).Perm m)
    (docs : List (DocumentSnapshot Attendee)) :
    ∃ b, GetDesignationBreakdown order (Except.ok docs) = Except.ok b
      ∧ (∀ d n, ({ Designation := d, Count := n } : DesignationCount) ∈ Slice.toList b
          ↔ n = designationCount docs d ∧ 0 < n)
      ∧ ((Slice.toList b).map (fun e => e.Designation)).Nodup
      ∧ (∀ d, d ∈ (Slice.toList b).map (fun e => e.Designation)
          ↔ ∃ a ∈ parsedAttendees docs, a.Designation = d)
      ∧ ((parsedAttendees docs).map (fun a => a.Designation) = ["Engineer", "Engineer", "Manager"] →
          Slice.len b = 2 ∧ ∀ e, e ∈ Slice.toList b
            ↔ e = { Designation := "Engineer", Count := 2 }
              ∨ e = { Designation := "Manager", Count := 1 })
      ∧ ((parsedAttendees docs).map (fun a => a.Designation)
            = ["Engineer", "engineer", "Engineer "] →
          Slice.len b = 3 ∧ ∀ e, e ∈ Slice.toList b
            ↔ e = { Designation := "Engineer", Count := 1 }
              ∨ e = { Designation := "engineer", Count := 1 }
              ∨ e = { Designation := "Engineer ", Count := 1 }) := by
  obtain ⟨b, hb1, hb2⟩ := GetDesignationBreakdown_ok order docs
  obtain ⟨hwf, hget⟩ := designationMap_spec docs
  have hmem := breakdown_mem_iff order horder docs b hb2
  have hkeys : (Slice.toList b).map (fun e => e.Designation)
      = (order (designationMap docs)).map Prod.fst := by
    rw [hb2, List.map_map]
    rfl
  have hnodup : ((Slice.toList b).map (fun e => e.Designation)).Nodup := by
    rw [hkeys]
    exact ((horder _).map Prod.fst).nodup_iff.2 hwf.1
  have hdes : ∀ d, d ∈ (Slice.toList b).map (fun e => e.Designation)
      ↔ 0 < designationCount docs d := by
    intro d
    constructor
    · intro hd
      obtain ⟨e, he, rfl⟩ := List.mem_map.1 hd
      exact ((hmem e.Designation e.Count).1 he).1 ▸ ((hmem e.Designation e.Count).1 he).2
    · intro hd
      exact List.mem_map.2 ⟨⟨d, designationCount docs d⟩, (hmem _ _).2 ⟨rfl, hd⟩, rfl⟩
  have hlen : Slice.len b = ((Slice.toList b).map (fun e => e.Designation)).length := by
    simp [Slice.len]
  refine ⟨b, hb1, hmem, hnodup, ?_, ?_, ?_⟩
  · intro d
    rw [hdes d]
    unfold designationCount
    rw [List.countP_pos_iff]
    simp
  · intro hL
    have hcount : ∀ d, designationCount docs d = ["Engineer", "Engineer", "Manager"].count d := by
      intro d
      rw [designationCount_eq_count, hL]
    have hk : ∀ d, d ∈ (Slice.toList b).map (fun e => e.Designation)
        ↔ d ∈ ["Engineer", "Manager"] := by
      intro d
      rw [hdes d, hcount d, List.count_pos_iff]
      simp
    constructor
    · rw [hlen]
      have hp : ((Slice.toList b).map (fun e => e.Designation)).Perm ["Engineer", "Manager"] :=
        (List.perm_ext_iff_of_nodup hnodup (by decide)).2 hk
      rw [hp.length_eq]
      rfl
    · rintro ⟨d, n⟩
      rw [hmem d n, hcount d]
      constructor
      · rintro ⟨rfl, hpos⟩
        have : d ∈ ["Engineer", "Manager"] := by
          rw [List.count_pos_iff] at hpos
          simpa using hpos
        simp only [List.mem_cons, List.mem_singleton, List.not_mem_nil, or_false] at this
        rcases this with rfl | rfl
        · left; rfl
        · right; rfl
      · rintro (h | h)
        · injection h with h1 h2
          subst h1 h2
          decide
        · injection h with h1 h2
          subst h1 h2
          decide
  · intro hL
    have hcount : ∀ d, designationCount docs d = ["Engineer", "engineer", "Engineer "].count d := by
      intro d
      rw [designationCount_eq_count, hL]
    have hk : ∀ d, d ∈ (Slice.toList b).map (fun e => e.Designation)
        ↔ d ∈ ["Engineer", "engineer", "Engineer "] := by
      intro d
      rw [hdes d, hcount d, List.count_pos_iff]
    constructor
    · rw [hlen]
      have hp : ((Slice.toList b).map (fun e => e.Designation)).Perm
          ["Engineer", "engineer", "Engineer "] :=
        (List.perm_ext_iff_of_nodup hnodup (by decide)).2 hk
      rw [hp.length_eq]
      rfl
    · rintro ⟨d, n⟩
      rw [hmem d n, hcount d]
      constructor
      · rintro ⟨rfl, hpos⟩
        have : d ∈ ["Engineer", "engineer", "Engineer "] := by
          rw [List.count_pos_iff] at hpos
          exact hpos
        simp only [List.mem_cons, List.mem_singleton, List.not_mem_nil, or_false] at this
        rcases this with rfl | rfl | rfl
        · left; rfl
        · right; left; rfl
        · right; right; rfl
      · rintro (h | h | h)
        · injection h with h1 h2
          subst h1 h2
          decide
        · injection h with h1 h2
          subst h1 h2
          decide
        · injection h with h1 h2
          subst h1 h2
          decide

/-- Witness for C8: three decoding documents with designations Engineer, Engineer, Manager,
the map ranged over in reverse insertion order. -/
theorem C8_breakdown_counts_witness :
    ∃ b, GetDesignationBreakdown List.reverse (Except.ok
          [attendeeDoc "d1" ⟨"", "User1", "u1@test.com", "Engineer", 1⟩,
           attendeeDoc "d2" ⟨"", "User2", "u2@test.com", "Engineer", 2⟩,
           attendeeDoc "d3" ⟨"", "User3", "u3@test.com", "Manager", 3⟩]) = Except.ok b
      ∧ Slice.len b = 2
      ∧ ∀ e, e ∈ Slice.toList b
          ↔ e = { Designation := "Engineer", Count := 2 }
            ∨ e = { Designation := "Manager", Count := 1 } :=
  match C8_breakdown_counts List.reverse (fun m => List.reverse_perm m)
      [attendeeDoc "d1" ⟨"", "User1", "u1@test.com", "Engineer", 1⟩,
       attendeeDoc "d2" ⟨"", "User2", "u2@test.com", "Engineer", 2⟩,
       attendeeDoc "d3" ⟨"", "User3", "u3@test.com", "Manager", 3⟩] with
  | ⟨b, h1, _, _, _, h5, _⟩ => ⟨b, h1, (h5 rfl).1, (h5 rfl).2⟩

/-- C9: when the store returns no attendee documents and no error, `GetDesignationBreakdown`
returns no error and a result with zero entries (the nil slice), for every order of ranging over
the map. -/
theorem C9_breakdown_empty (order : GoMap → GoMap) (horder : ∀ m, (order m).Perm m) :
    GetDesignationBreakdown order (Except.ok []) = Except.ok none
    ∧ ∃ b, GetDesignationBreakdown order (Except.ok []) = Except.ok b ∧ Slice.len b = 0 := by
  have h0 : order [] = [] := List.perm_nil.1 (horder [])
  have h : GetDesignationBreakdown order (Except.ok []) = Except.ok none := by
    simp [GetDesignationBreakdown, designationMap, h0]
  exact ⟨h, none, h, rfl⟩

/-- Witness for C9: the map ranged over in reverse insertion order. -/
theorem C9_breakdown_empty_witness :
    GetDesignationBreakdown List.reverse (Except.ok []) = Except.ok none :=
  (C9_breakdown_empty List.reverse (fun m => List.reverse_perm m)).1

theorem foldl_breakdownStep_filter (docs : List (DocumentSnapshot Attendee)) (m : GoMap) :
    docs.foldl breakdownStep m = (docs.filter parses).foldl breakdownStep m := by
  induction docs generalizing m with
  | nil => rfl
  | cons doc rest ih =>
    cases hd : doc.DataTo with
    | error err =>
      have hp : parses doc = false := by simp [parses, hd]
      have e : breakdownStep m doc = m := by simp [breakdownStep, hd]
      simp only [List.foldl_cons, List.filter_cons, hp, e, Bool.false_eq_true, if_false]
      exact ih m
    | ok a =>
      have hp : parses doc = true := by simp [parses, hd]
      simp only [List.foldl_cons, List.filter_cons, hp, if_true]
      exact ih _

theorem foldl_breakdownStep_skip (pre post : List (DocumentSnapshot Attendee))
    (doc : DocumentSnapshot Attendee) (hdoc : parses doc = false) :
    designationMap (pre ++ doc :: post) = designationMap (pre ++ post) := by
  rw [designationMap_eq, designationMap_eq, foldl_breakdownStep_filter,
    foldl_breakdownStep_filter (pre ++ post)]
  simp [List.filter_append, List.filter_cons, hdoc]

/-- C10: for every list of attendee documents, some of which may fail to decode, and every order
of ranging over the map, `GetDesignationBreakdown` returns no error, and its result is the
result computed over only the documents that decode; taking a failing document out of the list,
wherever it stands, leaves the result unchanged, so a decoding failure adds to no count, and each
count is the number of decoding documents with that designation. -/
theorem C10_breakdown_skips_unparseable (order : GoMap → GoMap)
    (docs : List (DocumentSnapshot Attendee)) :
    (∃ b, GetDesignationBreakdown order (Except.ok docs) = Except.ok b)
    ∧ GetDesignationBreakdown order (Except.ok docs)
        = GetDesignationBreakdown order (Except.ok (docs.filter parses))
    ∧ (∀ (pre post : List (DocumentSnapshot Attendee)) (doc : DocumentSnapshot Attendee),
        parses doc = false →
        GetDesignationBreakdown order (Except.ok (pre ++ doc :: post))
          = GetDesignationBreakdown order (Except.ok (pre ++ post)))
    ∧ (∀ d, GoMap.get (designationMap docs) d
        = ((docs.filter parses).filterMap (fun doc => doc.DataTo.toOption)).countP
            (fun a => a.Designation = d)) := by
  refine ⟨⟨_, rfl⟩, ?_, ?_, ?_⟩
  · have e : designationMap docs = designationMap (docs.filter parses) := by
      rw [designationMap_eq, designationMap_eq]
      exact foldl_breakdownStep_filter docs []
    simp only [GetDesignationBreakdown, e]
  · intro pre post doc hdoc
    simp only [GetDesignationBreakdown, foldl_breakdownStep_skip pre post doc hdoc]
  · intro d
    have e : designationMap docs = designationMap (docs.filter parses) := by
      rw [designationMap_eq, designationMap_eq]
      exact foldl_breakdownStep_filter docs []
    rw [e, (designationMap_spec _).2 d]
    rfl

end Breakdown

/-! ## Theorems: speaker and session updates -/

section Updates

open repository models firestore handlers gin

theorem Fields.get_of_set (d : Fields) (k : String) (v : FieldValue) (k' : String) :
    Fields.get (Fields.set d k v) k' = if k' = k then some v else Fields.get d k' := by
  induction d with
  | nil =>
    by_cases h : k' = k
    · subst h
      simp [Fields.set, Fields.get, List.lookup]
    · have hb : (k' == k) = false := by simpa using h
      simp [Fields.set, Fields.get, List.lookup, hb, h]
  | cons e d ih =>
    obtain ⟨a, b⟩ := e
    unfold Fields.get at ih ⊢
    by_cases hak : a = k
    · subst hak
      by_cases h : k' = a
      · subst h
        simp [Fields.set, List.lookup]
      · have hb : (k' == a) = false := by simpa using h
        simp [Fields.set, List.lookup, hb, h]
    · by_cases h : k' = a
      · subst h
        simp [Fields.set, List.lookup, hak]
      · have hb : (k' == a) = false := by simpa using h
        simp only [Fields.set, hak, if_false, List.lookup, hb]
        exact ih

theorem Collection.find_map_update (coll : Collection) (id : String) (g : Fields → Fields) :
    Collection.find
        (coll.map (fun d => if d.ID = id then { ID := id, data := g d.data } else d)) id
      = (Collection.find coll id).map (fun d => { ID := id, data := g d.data }) := by
  induction coll with
  | nil => simp [Collection.find]
  | cons d rest ih =>
    unfold Collection.find at ih ⊢
    by_cases h : d.ID = id
    · simp [List.find?, h]
    · simp [List.find?, h, ih]

theorem Collection.find_ID (coll : Collection) (id : String) (doc : Document)
    (h : Collection.find coll id = some doc) : doc.ID = id := by
  unfold Collection.find at h
  have := List.find?_some h
  simpa using this

theorem mem_speakerUpdates (speaker : Speaker) (u : Update) :
    u ∈ speakerUpdates speaker ↔
      u = { Path := "name", Value := FieldValue.string speaker.Name }
      ∨ u = { Path := "bio", Value := FieldValue.string speaker.Bio }
      ∨ (speaker.Avatar ≠ "" ∧ u = { Path := "avatar", Value := FieldValue.string speaker.Avatar })
      ∨ (speaker.LinkedIn ≠ ""
          ∧ u = { Path := "linkedin", Value := FieldValue.string speaker.LinkedIn })
      ∨ (speaker.Twitter ≠ ""
          ∧ u = { Path := "twitter", Value := FieldValue.string speaker.Twitter }) := by
  unfold speakerUpdates
  by_cases ha : speaker.Avatar = "" <;> by_cases hl : speaker.LinkedIn = ""
    <;> by_cases ht : speaker.Twitter = "" <;> simp [ha, hl, ht]

theorem get_apply_speakerUpdates (speaker : Speaker) (d : Fields) (f : String) :
    Fields.get (Fields.apply d (speakerUpdates speaker)) f
      = if f = "name" then some (FieldValue.string speaker.Name)
        else if f = "bio" then some (FieldValue.string speaker.Bio)
        else if f = "avatar" ∧ speaker.Avatar ≠ "" then some (FieldValue.string speaker.Avatar)
        else if f = "linkedin" ∧ speaker.LinkedIn ≠ "" then
          some (FieldValue.string speaker.LinkedIn)
        else if f = "twitter" ∧ speaker.Twitter ≠ "" then
          some (FieldValue.string speaker.Twitter)
        else Fields.get d f := by
  have hn1 : ¬ ("name" = "bio") := by decide
  have hn2 : ¬ ("name" = "avatar") := by decide
  have hn3 : ¬ ("name" = "linkedin") := by decide
  have hn4 : ¬ ("name" = "twitter") := by decide
  have hb2 : ¬ ("bio" = "avatar") := by decide
  have hb3 : ¬ ("bio" = "linkedin") := by decide
  have hb4 : ¬ ("bio" = "twitter") := by decide
  have ha3 : ¬ ("avatar" = "linkedin") := by decide
  have ha4 : ¬ ("avatar" = "twitter") := by decide
  have hl4 : ¬ ("linkedin" = "twitter") := by decide
  unfold speakerUpdates Fields.apply
  by_cases ha : speaker.Avatar = "" <;> by_cases hl : speaker.LinkedIn = ""
    <;> by_cases ht : speaker.Twitter = ""
    <;> simp only [ha, hl, ht, ne_eq, not_true_eq_false, not_false_eq_true, if_true, if_false,
      List.cons_append, List.nil_append, List.foldl_cons, List.foldl_nil, Fields.get_of_set,
      and_true, and_false]
    <;> by_cases h1 : f = "name" <;> by_cases h2 : f = "bio" <;> by_cases h3 : f = "avatar"
    <;> by_cases h4 : f = "linkedin" <;> by_cases h5 : f = "twitter"
    <;> simp_all

/-- C11: the field writes that `UpdateSpeaker` sends to the store are the write of name and the
write of bio with the request's values, whatever they are, and a write of avatar, linkedin and
twitter each exactly when the request's value for it is non-empty. After a successful update of
a stored speaker, name and bio hold the request's values, each of avatar, linkedin and twitter
holds the request's value when that is non-empty and is as stored before otherwise, and every
other field and every other collection is untouched. -/
theorem C11_UpdateSpeaker_partial (id : String) (speaker : Speaker) (st : Store) (doc : Document)
    (hdoc : Collection.find st.speakers id = some doc) :
    (∀ u : Update, u ∈ speakerUpdates speaker ↔
        u = { Path := "name", Value := FieldValue.string speaker.Name }
        ∨ u = { Path := "bio", Value := FieldValue.string speaker.Bio }
        ∨ (speaker.Avatar ≠ ""
            ∧ u = { Path := "avatar", Value := FieldValue.string speaker.Avatar })
        ∨ (speaker.LinkedIn ≠ ""
            ∧ u = { Path := "linkedin", Value := FieldValue.string speaker.LinkedIn })
        ∨ (speaker.Twitter ≠ ""
            ∧ u = { Path := "twitter", Value := FieldValue.string speaker.Twitter }))
    ∧ ∃ st' doc', UpdateSpeaker none id speaker st = (none, st')
        ∧ st'.attendees = st.attendees ∧ st'.sessions = st.sessions
        ∧ Collection.find st'.speakers id = some doc'
        ∧ doc'.ID = id
        ∧ doc'.data = Fields.apply doc.data (speakerUpdates speaker)
        ∧ Fields.get doc'.data "name" = some (FieldValue.string speaker.Name)
        ∧ Fields.get doc'.data "bio" = some (FieldValue.string speaker.Bio)
        ∧ Fields.get doc'.data "avatar"
            = (if speaker.Avatar ≠ "" then some (FieldValue.string speaker.Avatar)
               else Fields.get doc.data "avatar")
        ∧ Fields.get doc'.data "linkedin"
            = (if speaker.LinkedIn ≠ "" then some (FieldValue.string speaker.LinkedIn)
               else Fields.get doc.data "linkedin")
        ∧ Fields.get doc'.data "twitter"
            = (if speaker.Twitter ≠ "" then some (FieldValue.string speaker.Twitter)
               else Fields.get doc.data "twitter")
        ∧ ∀ f : String, f ∉ ["name", "bio", "avatar", "linkedin", "twitter"] →
            Fields.get doc'.data f = Fields.get doc.data f := by
  refine ⟨mem_speakerUpdates speaker, ?_⟩
  have hsome : (Collection.find st.speakers id).isSome = true := by simp [hdoc]
  refine ⟨{ st with speakers := st.speakers.map (fun d =>
      if d.ID = id then { ID := id, data := Fields.apply d.data (speakerUpdates speaker) }
      else d) },
    { ID := id, data := Fields.apply doc.data (speakerUpdates speaker) }, ?_, rfl, rfl, ?_, rfl,
    rfl, ?_, ?_, ?_, ?_, ?_, ?_⟩
  · simp [UpdateSpeaker, Collection.Update, hsome]
  · rw [Collection.find_map_update st.speakers id
      (fun data => Fields.apply data (speakerUpdates speaker)), hdoc]
    rfl
  · simp [get_apply_speakerUpdates]
  · simp [get_apply_speakerUpdates]
  · simp only [get_apply_speakerUpdates]
    by_cases ha : speaker.Avatar = "" <;> simp [ha]
  · simp only [get_apply_speakerUpdates]
    by_cases ha : speaker.LinkedIn = "" <;> simp [ha]
  · simp only [get_apply_speakerUpdates]
    by_cases ha : speaker.Twitter = "" <;> simp [ha]
  · intro f hf
    simp only [List.mem_cons, List.mem_singleton, List.not_mem_nil, or_false, not_or] at hf
    obtain ⟨h1, h2, h3, h4, h5⟩ := hf
    simp [get_apply_speakerUpdates, h1, h2, h3, h4, h5]

/-- Witness for C11: a stored speaker with avatar "a.jpg" updated with an empty avatar keeps
"a.jpg", and updated with avatar "b.jpg" has "b.jpg"; the empty name of the first request is
written. -/
theorem C11_UpdateSpeaker_partial_witness :
    (∃ st' doc',
      UpdateSpeaker none "s1" ⟨"", "", "new bio", "", "", ""⟩
        ⟨[], [⟨"s1", [("name", FieldValue.string "Ann"), ("bio", FieldValue.string "old"),
          ("avatar", FieldValue.string "a.jpg")]⟩], []⟩
        = (none, st')
      ∧ Collection.find st'.speakers "s1" = some doc'
      ∧ Fields.get doc'.data "name" = some (FieldValue.string "")
      ∧ Fields.get doc'.data "avatar" = some (FieldValue.string "a.jpg"))
    ∧ (∃ st' doc',
      UpdateSpeaker none "s1" ⟨"", "Ann", "old", "b.jpg", "", ""⟩
        ⟨[], [⟨"s1", [("name", FieldValue.string "Ann"), ("bio", FieldValue.string "old"),
          ("avatar", FieldValue.string "a.jpg")]⟩], []⟩
        = (none, st')
      ∧ Collection.find st'.speakers "s1" = some doc'
      ∧ Fields.get doc'.data "avatar" = some (FieldValue.string "b.jpg")) :=
  ⟨match C11_UpdateSpeaker_partial "s1" ⟨"", "", "new bio", "", "", ""⟩
      ⟨[], [⟨"s1", [("name", FieldValue.string "Ann"), ("bio", FieldValue.string "old"),
        ("avatar", FieldValue.string "a.jpg")]⟩], []⟩
      ⟨"s1", [("name", FieldValue.string "Ann"), ("bio", FieldValue.string "old"),
        ("avatar", FieldValue.string "a.jpg")]⟩ rfl with
    | ⟨_, st', doc', h1, _, _, h4, _, _, h7, _, h9, _⟩ => ⟨st', doc', h1, h4, h7, h9⟩,
   match C11_UpdateSpeaker_partial "s1" ⟨"", "Ann", "old", "b.jpg", "", ""⟩
      ⟨[], [⟨"s1", [("name", FieldValue.string "Ann"), ("bio", FieldValue.string "old"),
        ("avatar", FieldValue.string "a.jpg")]⟩], []⟩
      ⟨"s1", [("name", FieldValue.string "Ann"), ("bio", FieldValue.string "old"),
        ("avatar", FieldValue.string "a.jpg")]⟩ rfl with
    | ⟨_, st', doc', h1, _, _, h4, _, _, _, _, h9, _⟩ => ⟨st', doc', h1, h4, h9⟩⟩

theorem Collection.find_append_new (coll : Collection) (id : String) (data : Fields)
    (h : (Collection.find coll id).isSome = false) :
    Collection.find (coll ++ [{ ID := id, data := data }]) id = some { ID := id, data := data } := by
  unfold Collection.find at h ⊢
  rw [List.find?_append]
  cases hf : List.find? (fun d => decide (d.ID = id)) coll with
  | some d => simp [hf] at h
  | none => simp [List.find?]

/-- The fields of the record type `models.Session` in the store. -/
theorem get_sessionFields (s : Session) (f : String) :
    Fields.get (sessionFields s) f
      = if f = "id" then some (FieldValue.string s.ID)
        else if f = "title" then some (FieldValue.string s.Title)
        else if f = "description" then some (FieldValue.string s.Description)
        else if f = "time" then some (FieldValue.string s.Time)
        else if f = "speakers" then
          some (match s.Speakers with
            | none => FieldValue.null
            | some xs => FieldValue.array xs)
        else none := by
  unfold sessionFields Fields.get
  by_cases h1 : f = "id"
  · subst h1; simp [List.lookup]
  by_cases h2 : f = "title"
  · subst h2; simp [List.lookup]
  by_cases h3 : f = "description"
  · subst h3; simp [List.lookup]
  by_cases h4 : f = "time"
  · subst h4; simp [List.lookup]
  by_cases h5 : f = "speakers"
  · subst h5; simp [List.lookup]
  have b1 : (f == "id") = false := by simpa using h1
  have b2 : (f == "title") = false := by simpa using h2
  have b3 : (f == "description") = false := by simpa using h3
  have b4 : (f == "time") = false := by simpa using h4
  have b5 : (f == "speakers") = false := by simpa using h5
  simp [List.lookup, b1, b2, b3, b4, b5, h1, h2, h3, h4, h5]

/-- C12: for every stored state and every update request, a successful `UpdateSession` leaves
under the identity a document whose data is exactly the fields of the request's record: title,
description, time and speaker list hold the request's values, also when they are empty, and no
other field of the old document survives. `SessionHandler.Update` hands the request's record to
`UpdateSession` as the decoder produced it. -/
theorem C12_UpdateSession_overwrite (id : String) (session : Session) (st : Store) :
    (∃ st' doc', UpdateSession none id session st = (none, st')
        ∧ st'.attendees = st.attendees ∧ st'.speakers = st.speakers
        ∧ Collection.find st'.sessions id = some doc'
        ∧ doc'.data = sessionFields session
        ∧ Fields.get doc'.data "title" = some (FieldValue.string session.Title)
        ∧ Fields.get doc'.data "description" = some (FieldValue.string session.Description)
        ∧ Fields.get doc'.data "time" = some (FieldValue.string session.Time)
        ∧ Fields.getStrings doc'.data "speakers" = Except.ok session.Speakers
        ∧ ∀ f : String, f ∉ ["id", "title", "description", "time", "speakers"] →
            Fields.get doc'.data f = none)
    ∧ (∀ (σ : Type) (repo : RepositoryInterface σ) (s : σ) (c : Context),
        (SessionHandler.Update repo id (JSONBody.object session) s c).2
          = (repo.UpdateSession id session s).2) := by
  constructor
  · have hfields : Fields.get (sessionFields session) "title" = some (FieldValue.string session.Title)
        ∧ Fields.get (sessionFields session) "description"
            = some (FieldValue.string session.Description)
        ∧ Fields.get (sessionFields session) "time" = some (FieldValue.string session.Time)
        ∧ Fields.getStrings (sessionFields session) "speakers" = Except.ok session.Speakers
        ∧ ∀ f : String, f ∉ ["id", "title", "description", "time", "speakers"] →
            Fields.get (sessionFields session) f = none := by
      refine ⟨by simp [get_sessionFields], by simp [get_sessionFields],
        by simp [get_sessionFields], ?_, ?_⟩
      · unfold Fields.getStrings
        rw [get_sessionFields]
        cases session.Speakers <;> simp
      · intro f hf
        simp only [List.mem_cons, List.mem_singleton, List.not_mem_nil, or_false, not_or] at hf
        obtain ⟨h1, h2, h3, h4, h5⟩ := hf
        simp [get_sessionFields, h1, h2, h3, h4, h5]
    cases hsome : (Collection.find st.sessions id).isSome with
    | true =>
      obtain ⟨d, hd⟩ := Option.isSome_iff_exists.1 hsome
      refine ⟨{ st with sessions := st.sessions.map (fun d =>
          if d.ID = id then { ID := id, data := sessionFields session } else d) },
        { ID := id, data := sessionFields session }, ?_, rfl, rfl, ?_, rfl, hfields⟩
      · simp [UpdateSession, Collection.Set, hsome]
      · have := Collection.find_map_update st.sessions id (fun _ => sessionFields session)
        simp only [this, hd, Option.map_some']
    | false =>
      refine ⟨{ st with sessions := st.sessions ++ [{ ID := id, data := sessionFields session }] },
        { ID := id, data := sessionFields session }, ?_, rfl, rfl, ?_, rfl, hfields⟩
      · simp [UpdateSession, Collection.Set, hsome]
      · exact Collection.find_append_new _ _ _ hsome
  · intro σ repo s c
    unfold SessionHandler.Update
    simp only [JSONBody.ShouldBindJSON]
    rcases h : repo.UpdateSession id session s with ⟨e, s'⟩
    cases e <;> simp

end Updates

/-! ## Theorems: session listing -/

section Sessions

open repository models handlers handlers.SessionHandler gin

theorem StringMap.get?_set {α : Type} (m : StringMap α) (k : String) (v : α) (k' : String) :
    StringMap.get? (StringMap.set m k v) k' = if k' = k then some v else StringMap.get? m k' := by
  induction m with
  | nil =>
    by_cases h : k' = k
    · subst h
      simp [StringMap.set, StringMap.get?, List.lookup]
    · have hb : (k' == k) = false := by simpa using h
      simp [StringMap.set, StringMap.get?, List.lookup, hb, h]
  | cons e d ih =>
    obtain ⟨a, b⟩ := e
    unfold StringMap.get? at ih ⊢
    by_cases hak : a = k
    · subst hak
      by_cases h : k' = a
      · subst h
        simp [StringMap.set, List.lookup]
      · have hb : (k' == a) = false := by simpa using h
        simp [StringMap.set, List.lookup, hb, h]
    · by_cases h : k' = a
      · subst h
        simp [StringMap.set, List.lookup, hak]
      · have hb : (k' == a) = false := by simpa using h
        simp only [StringMap.set, hak, if_false, List.lookup, hb]
        exact ih

theorem get?_foldl_set (speakers : List Speaker) (m : StringMap Speaker) (id : String) :
    StringMap.get? (speakers.foldl (fun m s => StringMap.set m s.ID s) m) id
      = (List.find? (fun s => decide (s.ID = id)) speakers.reverse).or (StringMap.get? m id) := by
  induction speakers generalizing m with
  | nil => simp
  | cons s rest ih =>
    simp only [List.foldl_cons, List.reverse_cons, List.find?_append]
    rw [ih, StringMap.get?_set]
    cases List.find? (fun s => decide (s.ID = id)) rest.reverse with
    | some x => simp
    | none =>
      by_cases h : s.ID = id
      · simp [List.find?, h]
      · have h' : ¬ id = s.ID := fun e => h e.symm
        simp [List.find?, h, h']

/-- The speaker the map holds for an identity: the last speaker of the fetched list that
carries it. -/
theorem speakerMap_get? (speakers : List Speaker) (id : String) :
    StringMap.get? (speakerMap speakers) id
      = List.find? (fun s => decide (s.ID = id)) speakers.reverse := by
  unfold speakerMap
  rw [get?_foldl_set]
  simp [StringMap.get?]

theorem speakerMap_get?_of_nodup (speakers : List Speaker)
    (hnd : (speakers.map (fun s => s.ID)).Nodup) (id : String) (s : Speaker) :
    StringMap.get? (speakerMap speakers) id = some s ↔ s ∈ speakers ∧ s.ID = id := by
  rw [speakerMap_get?]
  constructor
  · intro h
    exact ⟨List.mem_reverse.1 (List.mem_of_find?_eq_some h), by simpa using List.find?_some h⟩
  · rintro ⟨hs, hid⟩
    have hsome : (List.find? (fun s => decide (s.ID = id)) speakers.reverse).isSome = true := by
      rw [List.find?_isSome]
      exact ⟨s, List.mem_reverse.2 hs, by simpa using hid⟩
    obtain ⟨s', hs'⟩ := Option.isSome_iff_exists.1 hsome
    have hmem : s' ∈ speakers := List.mem_reverse.1 (List.mem_of_find?_eq_some hs')
    have hid' : s'.ID = id := by simpa using List.find?_some hs'
    have : s' = s := List.inj_on_of_nodup_map hnd hmem hs (hid'.trans hid.symm)
    rw [hs', this]

theorem enrich_foldl (m : StringMap Speaker) (ids : List String) (e : SessionWithSpeakers) :
    (ids.foldl
        (fun enriched speakerID =>
          match StringMap.get? m speakerID with
          | some speaker =>
            { enriched with SpeakerDetails := Slice.append enriched.SpeakerDetails speaker }
          | none => enriched)
        e).Session = e.Session
    ∧ Slice.toList (ids.foldl
        (fun enriched speakerID =>
          match StringMap.get? m speakerID with
          | some speaker =>
            { enriched with SpeakerDetails := Slice.append enriched.SpeakerDetails speaker }
          | none => enriched)
        e).SpeakerDetails = Slice.toList e.SpeakerDetails ++ ids.filterMap (StringMap.get? m)
    ∧ (ids.filterMap (StringMap.get? m) = [] →
        (ids.foldl
          (fun enriched speakerID =>
            match StringMap.get? m speakerID with
            | some speaker =>
              { enriched with SpeakerDetails := Slice.append enriched.SpeakerDetails speaker }
            | none => enriched)
          e) = e) := by
  induction ids generalizing e with
  | nil => simp
  | cons id rest ih =>
    simp only [List.foldl_cons]
    cases h : StringMap.get? m id with
    | none =>
      simp only [List.filterMap_cons, h]
      exact ih e
    | some sp =>
      simp only [List.filterMap_cons, h]
      obtain ⟨h1, h2, -⟩ := ih { e with SpeakerDetails := Slice.append e.SpeakerDetails sp }
      refine ⟨h1, ?_, ?_⟩
      · rw [h2]
        simp [Slice.append, Slice.toList]
      · intro hcontra
        simp at hcontra

theorem enrich_spec (m : StringMap Speaker) (session : Session) :
    (enrich m session).Session = session
    ∧ Slice.toList (enrich m session).SpeakerDetails
        = (Slice.toList session.Speakers).filterMap (StringMap.get? m) := by
  obtain ⟨h1, h2, -⟩ := enrich_foldl m (Slice.toList session.Speakers)
    { Session := session, SpeakerDetails := none }
  exact ⟨h1, by simpa [Slice.toList] using h2⟩

theorem foldl_append_map {α β : Type} (g : α → β) (l : List α) (init : List β) :
    l.foldl (fun acc x => Slice.append acc (g x)) (some init) = some (init ++ l.map g) := by
  induction l generalizing init with
  | nil => simp
  | cons x rest ih =>
    have e : Slice.append (some init) (g x) = some (init ++ [g x]) := rfl
    simp only [List.foldl_cons, e]
    rw [ih]
    simp

theorem GetAll_enriched {σ : Type} (repo : RepositoryInterface σ) (st st1 st2 : σ) (c : Context)
    (sessions : List Session) (speakers : List Speaker)
    (hs : repo.GetAllSessions st = (Except.ok (some sessions), st1)) (hne : sessions ≠ [])
    (hp : repo.GetAllSpeakers st1 = (Except.ok (some speakers), st2)) (hpne : speakers ≠ []) :
    GetAll repo st c
      = (c.JSON 200 (Body.sessions (some (sessions.map (enrich (speakerMap speakers))))), st2) := by
  have hlen : ¬ (Slice.len (some sessions) = 0) := by
    simpa [Slice.len, Slice.toList] using hne
  have hu : usableSpeakers (Except.ok (some speakers)) = some speakers := by
    have : 0 < speakers.length := List.length_pos.2 hpne
    simp [usableSpeakers, this]
  unfold GetAll
  simp only [hs, hlen, or_false, reduceCtorEq, if_false, hp, hu]
  rw [show Slice.toList (some sessions) = sessions from rfl, foldl_append_map]
  simp [StatusOK]

theorem GetAll_fallback {σ : Type} (repo : RepositoryInterface σ) (st st1 st2 : σ) (c : Context)
    (sessions : List Session) (r : Except String (Slice Speaker))
    (hs : repo.GetAllSessions st = (Except.ok (some sessions), st1)) (hne : sessions ≠ [])
    (hp : repo.GetAllSpeakers st1 = (r, st2)) (hr : usableSpeakers r = none) :
    GetAll repo st c
      = (c.JSON 200 (Body.sessions
          (some (sessions.map (fun s => { Session := s, SpeakerDetails := none })))), st2) := by
  have hlen : ¬ (Slice.len (some sessions) = 0) := by
    simpa [Slice.len, Slice.toList] using hne
  unfold GetAll
  simp only [hs, hlen, or_false, reduceCtorEq, if_false, hp, hr]
  rw [show Slice.toList (some sessions) = sessions from rfl, foldl_append_map]
  simp [StatusOK]

/-- C13 (as amended): when the session fetch returns a non-empty list and the speaker fetch a
non-empty list, both without error, `SessionHandler.GetAll` answers 200 with one entry per
session, and the SpeakerDetails of each entry contain a speaker s exactly when some identity of
the session's list resolves to s in the map, that is when s is the last speaker of the fetched
list carrying that identity. When the identities of the fetched speakers are pairwise distinct,
as store-assigned identities are, this is: s is in the fetched list and its identity occurs in
the session's list. Identities without a speaker are left out and cause no error. -/
theorem C13_denormalization {σ : Type} (repo : RepositoryInterface σ) (st st1 st2 : σ)
    (c : Context) (sessions : List Session) (speakers : List Speaker)
    (hs : repo.GetAllSessions st = (Except.ok (some sessions), st1)) (hne : sessions ≠ [])
    (hp : repo.GetAllSpeakers st1 = (Except.ok (some speakers), st2)) (hpne : speakers ≠ []) :
    GetAll repo st c
      = (c.JSON 200 (Body.sessions (some (sessions.map (enrich (speakerMap speakers))))), st2)
    ∧ ∀ session ∈ sessions,
        (enrich (speakerMap speakers) session).Session = session
        ∧ (∀ s : Speaker,
            s ∈ Slice.toList (enrich (speakerMap speakers) session).SpeakerDetails
              ↔ ∃ id ∈ Slice.toList session.Speakers,
                  List.find? (fun x => decide (x.ID = id)) speakers.reverse = some s)
        ∧ ((speakers.map (fun x => x.ID)).Nodup →
            ∀ s : Speaker,
              s ∈ Slice.toList (enrich (speakerMap speakers) session).SpeakerDetails
                ↔ s ∈ speakers ∧ s.ID ∈ Slice.toList session.Speakers) := by
  refine ⟨GetAll_enriched repo st st1 st2 c sessions speakers hs hne hp hpne, ?_⟩
  intro session _
  obtain ⟨h1, h2⟩ := enrich_spec (speakerMap speakers) session
  refine ⟨h1, ?_, ?_⟩
  · intro s
    rw [h2, List.mem_filterMap]
    constructor
    · rintro ⟨id, hid, hget⟩
      exact ⟨id, hid, by rw [← speakerMap_get?]; exact hget⟩
    · rintro ⟨id, hid, hget⟩
      exact ⟨id, hid, by rw [speakerMap_get?]; exact hget⟩
  · intro hnd s
    rw [h2, List.mem_filterMap]
    constructor
    · rintro ⟨id, hid, hget⟩
      obtain ⟨hm, he⟩ := (speakerMap_get?_of_nodup speakers hnd id s).1 hget
      exact ⟨hm, he ▸ hid⟩
    · rintro ⟨hm, hid⟩
      exact ⟨s.ID, hid, (speakerMap_get?_of_nodup speakers hnd s.ID s).2 ⟨hm, rfl⟩⟩

/-- Witness for C13: one session referencing the identities "sp1" and "gone", one fetched
speaker "sp1": the entry carries exactly that speaker. -/
theorem C13_denormalization_witness :
    GetAll
        (MockRepository { MockReturns.success with
          GetAllSessions := Except.ok (some [⟨"s1", "Talk", "About", "10:00", some ["sp1", "gone"]⟩])
          GetAllSpeakers := Except.ok (some [⟨"sp1", "Ann", "Bio", "", "", ""⟩]) })
        [] (newContext [] none)
      = ((newContext [] none).JSON 200 (Body.sessions (some
            [⟨⟨"s1", "Talk", "About", "10:00", some ["sp1", "gone"]⟩,
              some [⟨"sp1", "Ann", "Bio", "", "", ""⟩]⟩])),
         [Call.GetAllSessions, Call.GetAllSpeakers]) :=
  (C13_denormalization
    (MockRepository { MockReturns.success with
      GetAllSessions := Except.ok (some [⟨"s1", "Talk", "About", "10:00", some ["sp1", "gone"]⟩])
      GetAllSpeakers := Except.ok (some [⟨"sp1", "Ann", "Bio", "", "", ""⟩]) })
    [] [Call.GetAllSessions] [Call.GetAllSessions, Call.GetAllSpeakers] (newContext [] none)
    [⟨"s1", "Talk", "About", "10:00", some ["sp1", "gone"]⟩] [⟨"sp1", "Ann", "Bio", "", "", ""⟩]
    rfl (by decide) rfl (by decide)).1

/-- Counterexample to C13 as stated: the speaker fetch returns two different records under the
identity "sp1" and the session references "sp1". The entry carries only the second record, so
the first one is in the fetched list, its identity occurs in the session's list, and it is not
in the SpeakerDetails. -/
theorem C13_denormalization_counterexample :
    (GetAll
        (MockRepository { MockReturns.success with
          GetAllSessions := Except.ok (some [⟨"s1", "Talk", "About", "10:00", some ["sp1"]⟩])
          GetAllSpeakers := Except.ok (some [⟨"sp1", "Ann", "Bio", "", "", ""⟩,
                                             ⟨"sp1", "Bob", "Bio", "", "", ""⟩]) })
        [] (newContext [] none)).1.writes
      = [⟨200, Body.sessions (some
            [⟨⟨"s1", "Talk", "About", "10:00", some ["sp1"]⟩,
              some [⟨"sp1", "Bob", "Bio", "", "", ""⟩]⟩])⟩]
    ∧ ¬ (∀ s : Speaker,
          s ∈ [(⟨"sp1", "Bob", "Bio", "", "", ""⟩ : Speaker)]
            ↔ s ∈ [(⟨"sp1", "Ann", "Bio", "", "", ""⟩ : Speaker), ⟨"sp1", "Bob", "Bio", "", "", ""⟩]
              ∧ s.ID ∈ ["sp1"]) := by
  constructor
  · decide
  · intro h
    have h1 := (h ⟨"sp1", "Ann", "Bio", "", "", ""⟩).2 ⟨by decide, by decide⟩
    revert h1
    decide

/-- C14: when the session fetch returns a non-empty list without error and the speaker fetch
returns an error, nil or an empty list, `SessionHandler.GetAll` still answers 200 with one entry
per session, in the order and number of the sessions fetched, each carrying the session's own
fields and no speaker details; the response is the same whatever error the speaker fetch
returned. -/
theorem C14_listing_survives {σ : Type} (repo : RepositoryInterface σ) (st st1 st2 : σ)
    (c : Context) (sessions : List Session) (r : Except String (Slice Speaker))
    (hs : repo.GetAllSessions st = (Except.ok (some sessions), st1)) (hne : sessions ≠ [])
    (hp : repo.GetAllSpeakers st1 = (r, st2))
    (hr : (∃ e, r = Except.error e) ∨ r = Except.ok none ∨ r = Except.ok (some [])) :
    GetAll repo st c
      = (c.JSON 200 (Body.sessions
          (some (sessions.map (fun s => { Session := s, SpeakerDetails := none })))), st2)
    ∧ (sessions.map (fun s => ({ Session := s, SpeakerDetails := none } : SessionWithSpeakers))).length
        = sessions.length
    ∧ statuses (GetAll repo st c).1 = statuses c ++ [200] := by
  have hu : usableSpeakers r = none := by
    rcases hr with ⟨e, rfl⟩ | rfl | rfl <;> simp [usableSpeakers]
  have h := GetAll_fallback repo st st1 st2 c sessions r hs hne hp hu
  refine ⟨h, by simp, ?_⟩
  rw [h]
  simp [statuses, Context.JSON]

/-- Witness for C14: two sessions, the speaker fetch fails with "unavailable". -/
theorem C14_listing_survives_witness :
    GetAll
        (MockRepository { MockReturns.success with
          GetAllSessions := Except.ok (some [⟨"s1", "Talk", "About", "10:00", some ["sp1"]⟩,
                                             ⟨"s2", "Lab", "", "11:00", none⟩])
          GetAllSpeakers := Except.error "unavailable" })
        [] (newContext [] none)
      = ((newContext [] none).JSON 200 (Body.sessions (some
            [⟨⟨"s1", "Talk", "About", "10:00", some ["sp1"]⟩, none⟩,
             ⟨⟨"s2", "Lab", "", "11:00", none⟩, none⟩])),
         [Call.GetAllSessions, Call.GetAllSpeakers]) :=
  (C14_listing_survives
    (MockRepository { MockReturns.success with
      GetAllSessions := Except.ok (some [⟨"s1", "Talk", "About", "10:00", some ["sp1"]⟩,
                                         ⟨"s2", "Lab", "", "11:00", none⟩])
      GetAllSpeakers := Except.error "unavailable" })
    [] [Call.GetAllSessions] [Call.GetAllSessions, Call.GetAllSpeakers] (newContext [] none)
    [⟨"s1", "Talk", "About", "10:00", some ["sp1"]⟩, ⟨"s2", "Lab", "", "11:00", none⟩]
    (Except.error "unavailable") rfl (by decide) rfl (Or.inl ⟨"unavailable", rfl⟩)).1

end Sessions

/-! ## Theorems: attendee registration and count -/

section Attendees

open repository models handlers gin firestore

theorem ShouldBindRegister_valid (isEmail : String → Bool) (name email designation : String)
    (extra : List (String × Value)) (hn : name ≠ "") (he : email ≠ "")
    (hv : isEmail email = true) (hd : designation ≠ "") :
    ShouldBindRegister isEmail (RegisterBody.object (some name) (some email) (some designation) extra)
      = Except.ok { Name := name, Email := email, Designation := designation } := by
  simp [ShouldBindRegister, registerErrors, hn, he, hv, hd]

theorem ShouldBindRegister_invalid (isEmail : String → Bool) (name email designation : Option String)
    (extra : List (String × Value))
    (hbad : name.getD "" = "" ∨ email.getD "" = "" ∨ isEmail (email.getD "") = false
      ∨ designation.getD "" = "") :
    ∃ msg, ShouldBindRegister isEmail (RegisterBody.object name email designation extra)
      = Except.error msg := by
  have hne : registerErrors isEmail
      { Name := name.getD "", Email := email.getD "", Designation := designation.getD "" }
      ≠ [] := by
    unfold registerErrors
    rcases hbad with h | h | h | h
    · simp [h]
    · simp [h]
    · by_cases he : email.getD "" = ""
      · simp [he]
      · simp [he, h]
    · simp [h]
  refine ⟨String.intercalate "\n" (registerErrors isEmail
      { Name := name.getD "", Email := email.getD "", Designation := designation.getD "" }), ?_⟩
  simp only [ShouldBindRegister, hne, if_false]

/-- C15: for a request with non-empty name, non-empty email that the validator accepts and
non-empty designation, whatever further fields the body carries, when the store write succeeds
`Register` answers 201 with the record whose name, email and designation are the request's
values and whose creation timestamp is the server's current time (so non-zero, the clock being
past the zero time); the record handed to `CreateAttendee` is that same record. -/
theorem C15_Register_success {σ : Type} (repo : RepositoryInterface σ) (isEmail : String → Bool)
    (now : Time) (name email designation : String) (extra : List (String × Value))
    (st st' : σ) (c : Context)
    (hn : name ≠ "") (he : email ≠ "") (hv : isEmail email = true) (hd : designation ≠ "")
    (hstore : repo.CreateAttendee
      { ID := "", Name := name, Email := email, Designation := designation, CreatedAt := now } st
      = (none, st')) :
    AttendeeHandler.Register repo isEmail now
        (RegisterBody.object (some name) (some email) (some designation) extra) st c
      = (c.JSON 201 (Body.attendee
          { ID := "", Name := name, Email := email, Designation := designation,
            CreatedAt := now }), st')
    ∧ (now ≠ 0 →
        ∃ a : Attendee,
          (AttendeeHandler.Register repo isEmail now
            (RegisterBody.object (some name) (some email) (some designation) extra) st c).1
            = c.JSON 201 (Body.attendee a)
          ∧ a.Name = name ∧ a.Email = email ∧ a.Designation = designation
          ∧ a.CreatedAt = now ∧ a.CreatedAt ≠ 0)
    ∧ (∀ (r : MockReturns) (calls : List Call), r.CreateAttendee = none →
        (AttendeeHandler.Register (MockRepository r) isEmail now
          (RegisterBody.object (some name) (some email) (some designation) extra) calls c).2
          = calls ++ [Call.CreateAttendee
              { ID := "", Name := name, Email := email, Designation := designation,
                CreatedAt := now }]) := by
  have hb := ShouldBindRegister_valid isEmail name email designation extra hn he hv hd
  have h1 : AttendeeHandler.Register repo isEmail now
        (RegisterBody.object (some name) (some email) (some designation) extra) st c
      = (c.JSON 201 (Body.attendee
          { ID := "", Name := name, Email := email, Designation := designation,
            CreatedAt := now }), st') := by
    simp [AttendeeHandler.Register, hb, hstore, StatusCreated]
  refine ⟨h1, ?_, ?_⟩
  · intro hnow
    exact ⟨_, by rw [h1], rfl, rfl, rfl, rfl, hnow⟩
  · intro r calls hr
    simp [AttendeeHandler.Register, hb, MockRepository, hr]

/-- Witness for C15: a valid request that also carries a client timestamp and an id. -/
theorem C15_Register_success_witness :
    AttendeeHandler.Register (MockRepository MockReturns.success) (fun _ => true) 1700
        (RegisterBody.object (some "Ann") (some "ann@example.com") (some "Engineer")
          [("createdAt", Value.string "1999-01-01T00:00:00Z"), ("id", Value.string "mine")])
        [] (newContext [] none)
      = ((newContext [] none).JSON 201
            (Body.attendee ⟨"", "Ann", "ann@example.com", "Engineer", 1700⟩),
         [Call.CreateAttendee ⟨"", "Ann", "ann@example.com", "Engineer", 1700⟩]) :=
  (C15_Register_success (MockRepository MockReturns.success) (fun _ => true) 1700
    "Ann" "ann@example.com" "Engineer"
    [("createdAt", Value.string "1999-01-01T00:00:00Z"), ("id", Value.string "mine")]
    [] [Call.CreateAttendee ⟨"", "Ann", "ann@example.com", "Engineer", 1700⟩]
    (newContext [] none) (by decide) (by decide) rfl (by decide) rfl).1

/-- C16: for a request in which the name is missing or empty, or the email is missing or empty,
or the email is not accepted by the validator, or the designation is missing or empty, whatever
the other fields are, `Register` answers 400 with the validator's message and leaves the state
of every repository implementation as it was; in particular the mock records no call, so
`CreateAttendee` is not called and nothing is persisted. -/
theorem C16_Register_validation {σ : Type} (repo : RepositoryInterface σ)
    (isEmail : String → Bool) (now : Time) (name email designation : Option String)
    (extra : List (String × Value)) (st : σ) (c : Context)
    (hbad : name.getD "" = "" ∨ email.getD "" = "" ∨ isEmail (email.getD "") = false
      ∨ designation.getD "" = "") :
    (∃ msg, AttendeeHandler.Register repo isEmail now
        (RegisterBody.object name email designation extra) st c
      = (c.JSON 400 (Body.h [("error", Value.string msg)]), st))
    ∧ (∀ (r : MockReturns) (calls : List Call),
        (AttendeeHandler.Register (MockRepository r) isEmail now
          (RegisterBody.object name email designation extra) calls c).2 = calls) := by
  obtain ⟨msg, hmsg⟩ := ShouldBindRegister_invalid isEmail name email designation extra hbad
  refine ⟨⟨msg, ?_⟩, ?_⟩
  · simp [AttendeeHandler.Register, hmsg, StatusBadRequest]
  · intro r calls
    simp [AttendeeHandler.Register, hmsg]

/-- Witness for C16: a request with a malformed email and otherwise valid fields; the mock
records no call. -/
theorem C16_Register_validation_witness :
    (AttendeeHandler.Register (MockRepository MockReturns.success)
      (fun e => decide (e = "ann@example.com")) 1700
      (RegisterBody.object (some "Ann") (some "not-an-email") (some "Engineer") [])
      [] (newContext [] none)).2 = [] :=
  (C16_Register_validation (MockRepository MockReturns.success)
    (fun e => decide (e = "ann@example.com")) 1700
    (some "Ann") (some "not-an-email") (some "Engineer") [] [] (newContext [] none)
    (Or.inr (Or.inr (Or.inl (by decide))))).2 MockReturns.success []

theorem Collection.find_isSome_iff (coll : Collection) (id : String) :
    (Collection.find coll id).isSome = true ↔ id ∈ coll.map (fun d => d.ID) := by
  unfold Collection.find
  rw [List.find?_isSome]
  simp only [decide_eq_true_eq, List.mem_map]

theorem CreateAttendee_spec (fail : Option String) (newID : String) (a : Attendee) (st : Store) :
    ((CreateAttendee fail newID a st).1 = none
      ∧ (CreateAttendee fail newID a st).2
          = { st with attendees := st.attendees ++ [{ ID := newID, data := attendeeFields a }] }
      ∧ fail = none ∧ newID ∉ st.attendees.map (fun d => d.ID))
    ∨ ((CreateAttendee fail newID a st).1 ≠ none ∧ (CreateAttendee fail newID a st).2 = st
      ∧ (fail ≠ none ∨ newID ∈ st.attendees.map (fun d => d.ID))) := by
  cases fail with
  | some e =>
    right
    simp [CreateAttendee, Collection.Add]
  | none =>
    by_cases h : (Collection.find st.attendees newID).isSome = true
    · right
      have hm := (Collection.find_isSome_iff _ _).1 h
      refine ⟨?_, ?_, Or.inr hm⟩ <;> simp [CreateAttendee, Collection.Add, h]
    · left
      have hm : newID ∉ st.attendees.map (fun d => d.ID) :=
        fun hm => h ((Collection.find_isSome_iff _ _).2 hm)
      refine ⟨?_, ?_, rfl, hm⟩ <;> simp [CreateAttendee, Collection.Add, h]

theorem CreateAttendees_length (calls : List (Option String × String × Attendee)) (st : Store) :
    (CreateAttendees calls st).2.attendees.length
      = st.attendees.length + (CreateAttendees calls st).1.count none := by
  induction calls generalizing st with
  | nil => simp [CreateAttendees]
  | cons call rest ih =>
    obtain ⟨fail, newID, a⟩ := call
    simp only [CreateAttendees]
    rw [ih]
    rcases CreateAttendee_spec fail newID a st with ⟨h1, h2, -, -⟩ | ⟨h1, h2, -⟩
    · rw [h1, h2]
      simp [List.count_cons]
      omega
    · rw [h2]
      have : ¬ ((CreateAttendee fail newID a st).1 == none) = true := by simpa using h1
      simp [List.count_cons, this]

theorem CreateAttendees_errs_length (calls : List (Option String × String × Attendee))
    (st : Store) : (CreateAttendees calls st).1.length = calls.length := by
  induction calls generalizing st with
  | nil => simp [CreateAttendees]
  | cons call rest ih =>
    obtain ⟨fail, newID, a⟩ := call
    simp only [CreateAttendees, List.length_cons]
    rw [ih]

theorem CreateAttendees_ids (calls : List (Option String × String × Attendee)) (st : Store)
    (hfail : ∀ call ∈ calls, call.1 = none)
    (hids : (st.attendees.map (fun d => d.ID) ++ calls.map (fun call => call.2.1)).Nodup) :
    ∀ e ∈ (CreateAttendees calls st).1, e = none := by
  induction calls generalizing st with
  | nil => simp [CreateAttendees]
  | cons call rest ih =>
    obtain ⟨fail, newID, a⟩ := call
    have hf : fail = none := hfail (fail, newID, a) (List.mem_cons_self _ _)
    subst hf
    have hnew : newID ∉ st.attendees.map (fun d => d.ID) := by
      intro hm
      have := List.disjoint_of_nodup_append hids hm
      exact this (by simp)
    rcases CreateAttendee_spec none newID a st with ⟨h1, h2, -, -⟩ | ⟨-, -, h3⟩
    · intro e he
      simp only [CreateAttendees, List.mem_cons] at he
      rcases he with he | he
      · rw [he, h1]
      · refine ih _ (fun call hc => hfail call (List.mem_cons_of_mem _ hc)) ?_ e he
        rw [h2]
        simpa [List.map_append, List.append_assoc] using hids
    · rcases h3 with h3 | h3
      · exact absurd rfl h3
      · exact absurd h3 hnew

/-- C18: `GetAttendeeCount` returns the number of documents of the attendee collection: 0 for
the empty store, and after any sequence of `CreateAttendee` calls from the empty store the
number of calls that succeeded, so N after N successful calls (and N calls with working store
and fresh identities all succeed). `GetCount` answers 200 with `count` set to the number the
repository returns, and 500 with a fixed message when the repository returns an error. -/
theorem C18_attendee_count (calls : List (Option String × String × Attendee)) :
    GetAttendeeCount none Store.empty = Except.ok 0
    ∧ (∀ st : Store, GetAttendeeCount none st = Except.ok (st.attendees.length : Int))
    ∧ GetAttendeeCount none (CreateAttendees calls Store.empty).2
        = Except.ok (((CreateAttendees calls Store.empty).1.count none : Nat) : Int)
    ∧ ((∀ e ∈ (CreateAttendees calls Store.empty).1, e = none) →
        GetAttendeeCount none (CreateAttendees calls Store.empty).2
          = Except.ok (calls.length : Int))
    ∧ ((∀ call ∈ calls, call.1 = none) → (calls.map (fun call => call.2.1)).Nodup →
        ∀ e ∈ (CreateAttendees calls Store.empty).1, e = none)
    ∧ (∀ (σ : Type) (repo : RepositoryInterface σ) (st st' : σ) (c : Context) (n : Int),
        repo.GetAttendeeCount st = (Except.ok n, st') →
        AttendeeHandler.GetCount repo st c
          = (c.JSON 200 (Body.h [("count", Value.int n)]), st'))
    ∧ (∀ (σ : Type) (repo : RepositoryInterface σ) (st st' : σ) (c : Context) (e : String),
        repo.GetAttendeeCount st = (Except.error e, st') →
        AttendeeHandler.GetCount repo st c
          = (c.JSON 500 (Body.h [("error", Value.string "Failed to get count")]), st')) := by
  have hcount : ∀ st : Store, GetAttendeeCount none st = Except.ok (st.attendees.length : Int) := by
    intro st
    simp [GetAttendeeCount, Collection.GetAll]
  have hlen := CreateAttendees_length calls Store.empty
  have hlen1 := CreateAttendees_errs_length calls Store.empty
  refine ⟨by simp [GetAttendeeCount, Collection.GetAll, Store.empty], hcount, ?_, ?_, ?_, ?_, ?_⟩
  · rw [hcount, hlen]
    simp [Store.empty]
  · intro hall
    rw [hcount, hlen]
    have : (CreateAttendees calls Store.empty).1.count none
        = (CreateAttendees calls Store.empty).1.length :=
      List.count_eq_length.2 (fun e he => (hall e he).symm)
    rw [this, hlen1]
    simp [Store.empty]
  · intro hfail hids
    exact CreateAttendees_ids calls Store.empty hfail (by simpa [Store.empty] using hids)
  · intro σ repo st st' c n h
    simp [AttendeeHandler.GetCount, h, StatusOK]
  · intro σ repo st st' c e h
    simp [AttendeeHandler.GetCount, h, StatusInternalServerError]

end Attendees

/-! ## Theorems: list responses and store errors -/

section Responses

open repository models handlers gin

/-- C19: whenever the store returns a speaker list without error, `SpeakerHandler.GetAll`
answers 200 with a non-nil slice, which is written as an array; it is the empty array when the
store returned nil or an empty list. The same holds for `SessionHandler.GetAll` and the session
list, on each of its paths. -/
theorem C19_lists_never_null {σ : Type} (repo : RepositoryInterface σ) (st st' : σ)
    (c : Context) :
    (∀ speakers : Slice Speaker, repo.GetAllSpeakers st = (Except.ok speakers, st') →
        (speakers = none ∨ speakers = some [] →
          SpeakerHandler.GetAll repo st c = (c.JSON 200 (Body.speakers (some [])), st'))
        ∧ ∃ l : List Speaker,
            SpeakerHandler.GetAll repo st c = (c.JSON 200 (Body.speakers (some l)), st'))
    ∧ (∀ sessions : Slice Session, repo.GetAllSessions st = (Except.ok sessions, st') →
        (sessions = none ∨ sessions = some [] →
          SessionHandler.GetAll repo st c = (c.JSON 200 (Body.sessions (some [])), st'))
        ∧ ∃ (l : List SessionWithSpeakers) (st'' : σ),
            SessionHandler.GetAll repo st c = (c.JSON 200 (Body.sessions (some l)), st'')) := by
  constructor
  · intro speakers h
    constructor
    · rintro (rfl | rfl) <;> simp [SpeakerHandler.GetAll, h, StatusOK]
    · cases speakers with
      | none => exact ⟨[], by simp [SpeakerHandler.GetAll, h, StatusOK]⟩
      | some l => exact ⟨l, by simp [SpeakerHandler.GetAll, h, StatusOK]⟩
  · intro sessions h
    have hempty : sessions = none ∨ sessions = some [] →
        SessionHandler.GetAll repo st c = (c.JSON 200 (Body.sessions (some [])), st') := by
      rintro (rfl | rfl) <;> simp [SessionHandler.GetAll, h, StatusOK, Slice.len, Slice.toList]
    refine ⟨hempty, ?_⟩
    cases sessions with
    | none => exact ⟨[], st', hempty (Or.inl rfl)⟩
    | some l =>
      cases l with
      | nil => exact ⟨[], st', hempty (Or.inr rfl)⟩
      | cons x rest =>
        rcases hp : repo.GetAllSpeakers st' with ⟨r, st''⟩
        cases hu : SessionHandler.usableSpeakers r with
        | none =>
          exact ⟨_, st'', GetAll_fallback repo st st' st'' c (x :: rest) r h (by simp) hp hu⟩
        | some speakers =>
          refine ⟨(x :: rest).map (SessionHandler.enrich (SessionHandler.speakerMap speakers)),
            st'', ?_⟩
          have hlen : ¬ (Slice.len (some (x :: rest)) = 0) := by simp [Slice.len, Slice.toList]
          unfold SessionHandler.GetAll
          simp only [h, hlen, or_false, reduceCtorEq, if_false, hp, hu]
          rw [show Slice.toList (some (x :: rest)) = x :: rest from rfl, foldl_append_map]
          simp [StatusOK]

/-- C20: in every handler that talks to the store, when the store call returns an error the
response is 500 with a message fixed for the handler; the error's content does not enter the
response, so two runs that differ only in the error returned give the same response. -/
theorem C20_store_errors_do_not_leak {σ : Type} (repo : RepositoryInterface σ) (st st' : σ)
    (c : Context) (e : String) :
    (∀ isEmail now body req, ShouldBindRegister isEmail body = Except.ok req →
        repo.CreateAttendee ⟨"", req.Name, req.Email, req.Designation, now⟩ st = (some e, st') →
        AttendeeHandler.Register repo isEmail now body st c
          = (c.JSON 500 (Body.h [("error", Value.string "Failed to register attendee")]), st'))
    ∧ (repo.GetAllAttendees st = (Except.error e, st') →
        AttendeeHandler.GetAll repo st c
          = (c.JSON 500 (Body.h [("error", Value.string "Failed to fetch attendees")]), st'))
    ∧ (repo.GetAttendeeCount st = (Except.error e, st') →
        AttendeeHandler.GetCount repo st c
          = (c.JSON 500 (Body.h [("error", Value.string "Failed to get count")]), st'))
    ∧ (∀ id, repo.DeleteAttendee id st = (some e, st') →
        AttendeeHandler.Delete repo id st c
          = (c.JSON 500 (Body.h [("error", Value.string "Failed to delete attendee")]), st'))
    ∧ (repo.GetAllSpeakers st = (Except.error e, st') →
        SpeakerHandler.GetAll repo st c
          = (c.JSON 500 (Body.h [("error", Value.string "Failed to fetch speakers")]), st'))
    ∧ (∀ speaker, repo.CreateSpeaker speaker st = (some e, st') →
        SpeakerHandler.Create repo (JSONBody.object speaker) st c
          = (c.JSON 500 (Body.h [("error", Value.string "Failed to create speaker")]), st'))
    ∧ (∀ id speaker, repo.UpdateSpeaker id speaker st = (some e, st') →
        SpeakerHandler.Update repo id (JSONBody.object speaker) st c
          = (c.JSON 500 (Body.h [("error", Value.string "Failed to update speaker")]), st'))
    ∧ (∀ id, repo.DeleteSpeaker id st = (some e, st') →
        SpeakerHandler.Delete repo id st c
          = (c.JSON 500 (Body.h [("error", Value.string "Failed to delete speaker")]), st'))
    ∧ (repo.GetAllSessions st = (Except.error e, st') →
        SessionHandler.GetAll repo st c
          = (c.JSON 500 (Body.h [("error", Value.string "Failed to fetch sessions")]), st'))
    ∧ (∀ session, repo.CreateSession session st = (some e, st') →
        SessionHandler.Create repo (JSONBody.object session) st c
          = (c.JSON 500 (Body.h [("error", Value.string "Failed to create session")]), st'))
    ∧ (∀ id session, repo.UpdateSession id session st = (some e, st') →
        SessionHandler.Update repo id (JSONBody.object session) st c
          = (c.JSON 500 (Body.h [("error", Value.string "Failed to update session")]), st'))
    ∧ (∀ id, repo.DeleteSession id st = (some e, st') →
        SessionHandler.Delete repo id st c
          = (c.JSON 500 (Body.h [("error", Value.string "Failed to delete session")]), st'))
    ∧ (repo.GetDesignationBreakdown st = (Except.error e, st') →
        AdminHandler.GetStats repo st c
          = (c.JSON 500 (Body.h [("error", Value.string "Failed to get stats")]), st'))
    ∧ (∀ (e' : String) (calls : List Call) (id : String) (speaker : JSONBody Speaker)
        (session : JSONBody Session) (isEmail : String → Bool) (now : Time) (body : RegisterBody),
        AttendeeHandler.Register (MockRepository (MockReturns.failing e)) isEmail now body calls c
          = AttendeeHandler.Register (MockRepository (MockReturns.failing e')) isEmail now body
              calls c
        ∧ AttendeeHandler.GetAll (MockRepository (MockReturns.failing e)) calls c
          = AttendeeHandler.GetAll (MockRepository (MockReturns.failing e')) calls c
        ∧ AttendeeHandler.GetCount (MockRepository (MockReturns.failing e)) calls c
          = AttendeeHandler.GetCount (MockRepository (MockReturns.failing e')) calls c
        ∧ AttendeeHandler.Delete (MockRepository (MockReturns.failing e)) id calls c
          = AttendeeHandler.Delete (MockRepository (MockReturns.failing e')) id calls c
        ∧ SpeakerHandler.GetAll (MockRepository (MockReturns.failing e)) calls c
          = SpeakerHandler.GetAll (MockRepository (MockReturns.failing e')) calls c
        ∧ SpeakerHandler.Create (MockRepository (MockReturns.failing e)) speaker calls c
          = SpeakerHandler.Create (MockRepository (MockReturns.failing e')) speaker calls c
        ∧ SpeakerHandler.Update (MockRepository (MockReturns.failing e)) id speaker calls c
          = SpeakerHandler.Update (MockRepository (MockReturns.failing e')) id speaker calls c
        ∧ SpeakerHandler.Delete (MockRepository (MockReturns.failing e)) id calls c
          = SpeakerHandler.Delete (MockRepository (MockReturns.failing e')) id calls c
        ∧ SessionHandler.GetAll (MockRepository (MockReturns.failing e)) calls c
          = SessionHandler.GetAll (MockRepository (MockReturns.failing e')) calls c
        ∧ SessionHandler.Create (MockRepository (MockReturns.failing e)) session calls c
          = SessionHandler.Create (MockRepository (MockReturns.failing e')) session calls c
        ∧ SessionHandler.Update (MockRepository (MockReturns.failing e)) id session calls c
          = SessionHandler.Update (MockRepository (MockReturns.failing e')) id session calls c
        ∧ SessionHandler.Delete (MockRepository (MockReturns.failing e)) id calls c
          = SessionHandler.Delete (MockRepository (MockReturns.failing e')) id calls c
        ∧ AdminHandler.GetStats (MockRepository (MockReturns.failing e)) calls c
          = AdminHandler.GetStats (MockRepository (MockReturns.failing e')) calls c) := by
  refine ⟨?_, ?_, ?_, ?_, ?_, ?_, ?_, ?_, ?_, ?_, ?_, ?_, ?_, ?_⟩
  · intro isEmail now body req hb h
    simp [AttendeeHandler.Register, hb, h, StatusInternalServerError]
  · intro h
    simp [AttendeeHandler.GetAll, h, StatusInternalServerError]
  · intro h
    simp [AttendeeHandler.GetCount, h, StatusInternalServerError]
  · intro id h
    simp [AttendeeHandler.Delete, h, StatusInternalServerError]
  · intro h
    simp [SpeakerHandler.GetAll, h, StatusInternalServerError]
  · intro speaker h
    simp [SpeakerHandler.Create, JSONBody.ShouldBindJSON, h, StatusInternalServerError]
  · intro id speaker h
    simp [SpeakerHandler.Update, JSONBody.ShouldBindJSON, h, StatusInternalServerError]
  · intro id h
    simp [SpeakerHandler.Delete, h, StatusInternalServerError]
  · intro h
    simp [SessionHandler.GetAll, h, StatusInternalServerError]
  · intro session h
    simp [SessionHandler.Create, JSONBody.ShouldBindJSON, h, StatusInternalServerError]
  · intro id session h
    simp [SessionHandler.Update, JSONBody.ShouldBindJSON, h, StatusInternalServerError]
  · intro id h
    simp [SessionHandler.Delete, h, StatusInternalServerError]
  · intro h
    simp [AdminHandler.GetStats, h, StatusInternalServerError]
  · intro e' calls id speaker session isEmail now body
    refine ⟨?_, ?_, ?_, ?_, ?_, ?_, ?_, ?_, ?_, ?_, ?_, ?_, ?_⟩
    · cases hb : ShouldBindRegister isEmail body <;>
        simp [AttendeeHandler.Register, hb, MockRepository, MockReturns.failing]
    · simp [AttendeeHandler.GetAll, MockRepository, MockReturns.failing]
    · simp [AttendeeHandler.GetCount, MockRepository, MockReturns.failing]
    · simp [AttendeeHandler.Delete, MockRepository, MockReturns.failing]
    · simp [SpeakerHandler.GetAll, MockRepository, MockReturns.failing]
    · cases speaker <;>
        simp [SpeakerHandler.Create, JSONBody.ShouldBindJSON, MockRepository, MockReturns.failing]
    · cases speaker <;>
        simp [SpeakerHandler.Update, JSONBody.ShouldBindJSON, MockRepository, MockReturns.failing]
    · simp [SpeakerHandler.Delete, MockRepository, MockReturns.failing]
    · simp [SessionHandler.GetAll, MockRepository, MockReturns.failing]
    · cases session <;>
        simp [SessionHandler.Create, JSONBody.ShouldBindJSON, MockRepository, MockReturns.failing]
    · cases session <;>
        simp [SessionHandler.Update, JSONBody.ShouldBindJSON, MockRepository, MockReturns.failing]
    · simp [SessionHandler.Delete, MockRepository, MockReturns.failing]
    · simp [AdminHandler.GetStats, MockRepository, MockReturns.failing]

end Responses

/-! ## Theorems: attendee listing order -/

section Listing

open repository models firestore

theorem FieldValue.le_total (a b : FieldValue) :
    FieldValue.le a b = true ∨ FieldValue.le b a = true := by
  cases a <;> cases b <;> simp [FieldValue.le, FieldValue.typeOrder]
  all_goals omega

theorem FieldValue.le_trans (a b c : FieldValue) (h1 : FieldValue.le a b = true)
    (h2 : FieldValue.le b c = true) : FieldValue.le a c = true := by
  cases a <;> cases b <;> cases c <;> simp_all [FieldValue.le, FieldValue.typeOrder]
  all_goals omega

theorem listedAttendee_createdAt (doc : Document) (a : Attendee)
    (h : listedAttendee doc = some a) :
    (createdAtValue doc = FieldValue.null ∧ a.CreatedAt = 0)
    ∨ ∃ t : Nat, createdAtValue doc = FieldValue.timestamp t ∧ a.CreatedAt = (t : Int) := by
  unfold listedAttendee attendeeDataTo at h
  cases h1 : Fields.getString doc.data "id" with
  | error e => simp [h1, Except.bind] at h
  | ok v1 =>
  cases h2 : Fields.getString doc.data "name" with
  | error e => simp [h1, h2, Except.bind] at h
  | ok v2 =>
  cases h3 : Fields.getString doc.data "email" with
  | error e => simp [h1, h2, h3, Except.bind] at h
  | ok v3 =>
  cases h4 : Fields.getString doc.data "designation" with
  | error e => simp [h1, h2, h3, h4, Except.bind] at h
  | ok v4 =>
  cases h5 : Fields.getTime doc.data "createdAt" with
  | error e => simp [h1, h2, h3, h4, h5, Except.bind] at h
  | ok v5 =>
    simp only [h1, h2, h3, h4, h5, Except.bind, Option.some.injEq] at h
    subst h
    unfold Fields.getTime at h5
    unfold createdAtValue
    cases hg : Fields.get doc.data "createdAt" with
    | none =>
      simp only [hg] at h5
      injection h5 with h5
      left
      exact ⟨rfl, h5.symm⟩
    | some v =>
      cases v with
      | null =>
        simp only [hg] at h5
        injection h5 with h5
        left
        exact ⟨rfl, h5.symm⟩
      | timestamp t =>
        simp only [hg] at h5
        injection h5 with h5
        right
        exact ⟨t, rfl, h5.symm⟩
      | string x => simp [hg] at h5
      | array x => simp [hg] at h5

theorem listedAttendee_order (d1 d2 : Document) (a1 a2 : Attendee)
    (h : FieldValue.le (createdAtValue d2) (createdAtValue d1) = true)
    (h1 : listedAttendee d1 = some a1) (h2 : listedAttendee d2 = some a2) :
    a2.CreatedAt ≤ a1.CreatedAt := by
  rcases listedAttendee_createdAt d1 a1 h1 with ⟨e1, c1⟩ | ⟨t1, e1, c1⟩
  · rcases listedAttendee_createdAt d2 a2 h2 with ⟨e2, c2⟩ | ⟨t2, e2, c2⟩
    · rw [c1, c2]
    · rw [e1, e2] at h
      simp [FieldValue.le, FieldValue.typeOrder] at h
  · rcases listedAttendee_createdAt d2 a2 h2 with ⟨e2, c2⟩ | ⟨t2, e2, c2⟩
    · rw [c1, c2]
      exact Int.ofNat_nonneg t1
    · rw [e1, e2] at h
      rw [c1, c2]
      have : t2 ≤ t1 := by simpa [FieldValue.le] using h
      exact Int.ofNat_le.2 this

theorem OrderByDesc_sorted (coll : Collection) :
    (Collection.OrderByDesc coll "createdAt").Pairwise
      (fun a b => FieldValue.le (createdAtValue b) (createdAtValue a) = true) := by
  unfold Collection.OrderByDesc
  exact @List.sorted_insertionSort Document
    (fun a b => FieldValue.le (createdAtValue b) (createdAtValue a) = true) _
    ⟨fun a b => (FieldValue.le_total (createdAtValue b) (createdAtValue a))⟩
    ⟨fun a b c hab hbc => FieldValue.le_trans _ _ _ hbc hab⟩ _

theorem OrderByDesc_perm (coll : Collection) :
    (Collection.OrderByDesc coll "createdAt").Perm
      (coll.filter (fun d => (Fields.get d.data "createdAt").isSome)) := by
  unfold Collection.OrderByDesc
  exact List.perm_insertionSort _ _

theorem foldl_listed (docs : List Document) (init : List Attendee) :
    docs.foldl
        (fun attendees doc =>
          match (attendeeSnapshot doc).DataTo with
          | Except.error _ => attendees
          | Except.ok attendee => Slice.append attendees { attendee with ID := doc.ID })
        (some init)
      = some (init ++ docs.filterMap listedAttendee) := by
  have hstep : (fun (attendees : Slice Attendee) (doc : Document) =>
        match (attendeeSnapshot doc).DataTo with
        | Except.error _ => attendees
        | Except.ok attendee => Slice.append attendees { attendee with ID := doc.ID })
      = (fun attendees doc =>
        match listedAttendee doc with
        | none => attendees
        | some a => Slice.append attendees a) := by
    funext attendees doc
    unfold listedAttendee attendeeSnapshot
    cases attendeeDataTo doc.data <;> rfl
  rw [hstep]
  induction docs generalizing init with
  | nil => simp
  | cons doc rest ih =>
    simp only [List.foldl_cons, List.filterMap_cons]
    cases h : listedAttendee doc with
    | none => exact ih init
    | some a =>
      have e : Slice.append (some init) a = some (init ++ [a]) := rfl
      simp only [e]
      rw [ih]
      simp

/-- C17 (as amended): for every attendee collection `GetAllAttendees` returns the listed records
of the ordered query, that is of all documents that carry a creation timestamp field, as every
document written by `CreateAttendee` does, leaving out the documents that fail to decode. The
records are in descending order of creation timestamp: for every pair, and so for every adjacent
pair, the earlier element's timestamp is not before the later one's. The records stand in the
order of their documents in the query result, so leaving out a document does not move the
others. -/
theorem C17_attendee_listing_order (st : Store) :
    ∃ as : List Attendee, GetAllAttendees none st = Except.ok (some as)
      ∧ as.Pairwise (fun a b => b.CreatedAt ≤ a.CreatedAt)
      ∧ as.Chain' (fun a b => b.CreatedAt ≤ a.CreatedAt)
      ∧ as = (Collection.OrderByDesc st.attendees "createdAt").filterMap listedAttendee
      ∧ as.Perm ((st.attendees.filter
          (fun d => (Fields.get d.data "createdAt").isSome)).filterMap listedAttendee)
      ∧ ((∀ d ∈ st.attendees, (Fields.get d.data "createdAt").isSome = true) →
          as.Perm (st.attendees.filterMap listedAttendee))
      ∧ (∀ a : Attendee, (Fields.get (attendeeFields a) "createdAt").isSome = true) := by
  have hres : GetAllAttendees none st
      = Except.ok (some ((Collection.OrderByDesc st.attendees "createdAt").filterMap
          listedAttendee)) := by
    simp only [GetAllAttendees, Collection.GetAll]
    rw [foldl_listed]
    simp
  have hpw : ((Collection.OrderByDesc st.attendees "createdAt").filterMap listedAttendee).Pairwise
      (fun a b => b.CreatedAt ≤ a.CreatedAt) := by
    refine List.Pairwise.filterMap listedAttendee ?_ (OrderByDesc_sorted st.attendees)
    intro d1 d2 hle a1 ha1 a2 ha2
    exact listedAttendee_order d1 d2 a1 a2 hle ha1 ha2
  have hperm := (OrderByDesc_perm st.attendees).filterMap listedAttendee
  refine ⟨_, hres, hpw, List.Pairwise.chain' hpw, rfl, hperm, ?_, ?_⟩
  · intro hall
    have : st.attendees.filter (fun d => (Fields.get d.data "createdAt").isSome) = st.attendees :=
      List.filter_eq_self.2 hall
    rw [this] at hperm
    exact hperm
  · intro a
    simp [attendeeFields, Fields.get, List.lookup]

/-- Counterexample to C17 as stated: a collection with two documents that both decode, one
with a createdAt field and one without. The ordered query lists only the first, so
`GetAllAttendees` does not return all attendees. -/
theorem C17_attendee_listing_counterexample :
    GetAllAttendees none
        ⟨[⟨"d1", [("name", FieldValue.string "Ann"), ("createdAt", FieldValue.timestamp 5)]⟩,
          ⟨"d2", [("name", FieldValue.string "Bob")]⟩], [], []⟩
      = Except.ok (some [⟨"d1", "Ann", "", "", 5⟩])
    ∧ listedAttendee ⟨"d2", [("name", FieldValue.string "Bob")]⟩ = some ⟨"d2", "Bob", "", "", 0⟩
    ∧ (⟨"d2", "Bob", "", "", 0⟩ : Attendee) ∉ [(⟨"d1", "Ann", "", "", 5⟩ : Attendee)] := by
  decide

end Listing

/-! ## Theorems: update responses -/

section PathIdentity

open repository models handlers gin

/-- C21: for every successful `SpeakerHandler.Update` and `SessionHandler.Update` the returned
record carries the identity of the request path, whatever identity the request body holds, and
its other fields are the values of the request body. The repository itself is called with the
record as the body gave it. -/
theorem C21_update_path_identity {σ : Type} (repo : RepositoryInterface σ) (id : String)
    (speaker : Speaker) (session : Session) (st st' : σ) (c : Context) :
    (repo.UpdateSpeaker id speaker st = (none, st') →
        SpeakerHandler.Update repo id (JSONBody.object speaker) st c
          = (c.JSON 200 (Body.speaker
              { ID := id, Name := speaker.Name, Bio := speaker.Bio, Avatar := speaker.Avatar,
                LinkedIn := speaker.LinkedIn, Twitter := speaker.Twitter }), st'))
    ∧ (repo.UpdateSession id session st = (none, st') →
        SessionHandler.Update repo id (JSONBody.object session) st c
          = (c.JSON 200 (Body.session
              { ID := id, Title := session.Title, Description := session.Description,
                Time := session.Time, Speakers := session.Speakers }), st'))
    ∧ (∀ (r : MockReturns) (calls : List Call), r.UpdateSpeaker = none →
        SpeakerHandler.Update (MockRepository r) id (JSONBody.object speaker) calls c
          = (c.JSON 200 (Body.speaker { speaker with ID := id }),
             calls ++ [Call.UpdateSpeaker id speaker]))
    ∧ (∀ (r : MockReturns) (calls : List Call), r.UpdateSession = none →
        SessionHandler.Update (MockRepository r) id (JSONBody.object session) calls c
          = (c.JSON 200 (Body.session { session with ID := id }),
             calls ++ [Call.UpdateSession id session]))
    ∧ (SpeakerHandler.Update (MockRepository MockReturns.success) "123"
          (JSONBody.object ⟨"other", "Updated Speaker", "Updated Bio", "", "", ""⟩) [] c).1
        = c.JSON 200 (Body.speaker ⟨"123", "Updated Speaker", "Updated Bio", "", "", ""⟩)
    ∧ (SessionHandler.Update (MockRepository MockReturns.success) "123"
          (JSONBody.object ⟨"other", "Updated Title", "", "11:00", some ["sp1"]⟩) [] c).1
        = c.JSON 200 (Body.session ⟨"123", "Updated Title", "", "11:00", some ["sp1"]⟩) := by
  refine ⟨?_, ?_, ?_, ?_, ?_, ?_⟩
  · intro h
    simp [SpeakerHandler.Update, JSONBody.ShouldBindJSON, h, StatusOK]
  · intro h
    simp [SessionHandler.Update, JSONBody.ShouldBindJSON, h, StatusOK]
  · intro r calls h
    simp [SpeakerHandler.Update, JSONBody.ShouldBindJSON, MockRepository, h, StatusOK]
  · intro r calls h
    simp [SessionHandler.Update, JSONBody.ShouldBindJSON, MockRepository, h, StatusOK]
  · simp [SpeakerHandler.Update, JSONBody.ShouldBindJSON, MockRepository, MockReturns.success,
      StatusOK]
  · simp [SessionHandler.Update, JSONBody.ShouldBindJSON, MockRepository, MockReturns.success,
      StatusOK]

end PathIdentity

/-! ## Theorems: `NewRepository` -/

section Startup

open repository

/-- C23: for every environment in which FIRESTORE_SUBCOLLECTION_ID is unset or empty,
whatever the other variables are and whatever the app and client creation would do,
`NewRepository` returns the error "FIRESTORE_SUBCOLLECTION_ID environment variable is
required", which mentions the variable, returns no repository, and makes no external call: no
app and no store client is created. -/
theorem C23_subcollection_required (env : Env) (newAppErr : firebase.AppArgs → Option String)
    (firestoreErr : firebase.App → Option String)
    (henv : env.lookup "FIRESTORE_SUBCOLLECTION_ID" = none
      ∨ env.lookup "FIRESTORE_SUBCOLLECTION_ID" = some "") :
    NewRepository env newAppErr firestoreErr
      = (Except.error "FIRESTORE_SUBCOLLECTION_ID environment variable is required", [])
    ∧ mentions "FIRESTORE_SUBCOLLECTION_ID environment variable is required"
        "FIRESTORE_SUBCOLLECTION_ID"
    ∧ (∀ repo : Repository, (NewRepository env newAppErr firestoreErr).1 ≠ Except.ok repo)
    ∧ (NewRepository env newAppErr firestoreErr).2 = [] := by
  have h1 : Getenv env "FIRESTORE_SUBCOLLECTION_ID" = "" := (Getenv_eq_empty_iff env _).2 henv
  have hN : NewRepository env newAppErr firestoreErr
      = (Except.error "FIRESTORE_SUBCOLLECTION_ID environment variable is required", []) := by
    simp [NewRepository, h1]
  refine ⟨hN, ⟨"", " environment variable is required", by decide⟩, ?_, ?_⟩
  · intro repo
    rw [hN]
    simp
  · rw [hN]

/-- Witness for C23: the service account path and a project are configured, the subcollection
identifier is not. -/
theorem C23_subcollection_required_witness :
    NewRepository
        [("FIREBASE_SERVICE_ACCOUNT_PATH", "/path/to/service-account.json"),
         ("GCP_PROJECT_ID", "demo")]
        (fun _ => none) (fun _ => none)
      = (Except.error "FIRESTORE_SUBCOLLECTION_ID environment variable is required", []) :=
  (C23_subcollection_required
    [("FIREBASE_SERVICE_ACCOUNT_PATH", "/path/to/service-account.json"),
     ("GCP_PROJECT_ID", "demo")]
    (fun _ => none) (fun _ => none) (Or.inl rfl)).1

/-- C24 (as amended): for every environment in which FIRESTORE_SUBCOLLECTION_ID is set and
FIREBASE_SERVICE_ACCOUNT_PATH is unset or empty, `NewRepository` creates the app without a
credentials file, from the ambient credentials, with the project identifier taken from
GCP_PROJECT_ID when that is set, else from GOOGLE_CLOUD_PROJECT when that is set, else from
GCLOUD_PROJECT when that is set, and with no configuration when none of the three is set. It
returns the repository with that subcollection when app and client creation succeed, and an
error it returns is the error of `firebase.NewApp` or of `app.Firestore`, unchanged. -/
theorem C24_ambient_credentials (env : Env) (newAppErr : firebase.AppArgs → Option String)
    (firestoreErr : firebase.App → Option String)
    (hsub : Getenv env "FIRESTORE_SUBCOLLECTION_ID" ≠ "")
    (hpath : env.lookup "FIREBASE_SERVICE_ACCOUNT_PATH" = none
      ∨ env.lookup "FIREBASE_SERVICE_ACCOUNT_PATH" = some "") :
    (Getenv env "GCP_PROJECT_ID" ≠ "" →
        ambientArgs env
          = { config := some { ProjectID := Getenv env "GCP_PROJECT_ID" },
              credentialsFile := none })
    ∧ (Getenv env "GCP_PROJECT_ID" = "" → Getenv env "GOOGLE_CLOUD_PROJECT" ≠ "" →
        ambientArgs env
          = { config := some { ProjectID := Getenv env "GOOGLE_CLOUD_PROJECT" },
              credentialsFile := none })
    ∧ (Getenv env "GCP_PROJECT_ID" = "" → Getenv env "GOOGLE_CLOUD_PROJECT" = "" →
        Getenv env "GCLOUD_PROJECT" ≠ "" →
        ambientArgs env
          = { config := some { ProjectID := Getenv env "GCLOUD_PROJECT" },
              credentialsFile := none })
    ∧ (Getenv env "GCP_PROJECT_ID" = "" → Getenv env "GOOGLE_CLOUD_PROJECT" = "" →
        Getenv env "GCLOUD_PROJECT" = "" →
        ambientArgs env = { config := none, credentialsFile := none })
    ∧ (∀ e : String, newAppErr (ambientArgs env) = some e →
        NewRepository env newAppErr firestoreErr
          = (Except.error e, [ExternalCall.NewApp (ambientArgs env)]))
    ∧ (∀ e : String, newAppErr (ambientArgs env) = none →
        firestoreErr { args := ambientArgs env } = some e →
        NewRepository env newAppErr firestoreErr
          = (Except.error e,
             [ExternalCall.NewApp (ambientArgs env),
              ExternalCall.Firestore { args := ambientArgs env }]))
    ∧ (newAppErr (ambientArgs env) = none →
        firestoreErr { args := ambientArgs env } = none →
        NewRepository env newAppErr firestoreErr
          = (Except.ok
                { client := { app := { args := ambientArgs env } },
                  subcollection := Getenv env "FIRESTORE_SUBCOLLECTION_ID" },
             [ExternalCall.NewApp (ambientArgs env),
              ExternalCall.Firestore { args := ambientArgs env }]))
    ∧ (∀ e : String, (NewRepository env newAppErr firestoreErr).1 = Except.error e →
        newAppErr (ambientArgs env) = some e
        ∨ firestoreErr { args := ambientArgs env } = some e) := by
  have h1 : Getenv env "FIREBASE_SERVICE_ACCOUNT_PATH" = "" := (Getenv_eq_empty_iff env _).2 hpath
  have hN : NewRepository env newAppErr firestoreErr
      = (match newAppErr (ambientArgs env) with
        | some err => (Except.error err, [ExternalCall.NewApp (ambientArgs env)])
        | none =>
          match firestoreErr { args := ambientArgs env } with
          | some err =>
            (Except.error err,
              [ExternalCall.NewApp (ambientArgs env),
               ExternalCall.Firestore { args := ambientArgs env }])
          | none =>
            (Except.ok
                { client := { app := { args := ambientArgs env } },
                  subcollection := Getenv env "FIRESTORE_SUBCOLLECTION_ID" },
              [ExternalCall.NewApp (ambientArgs env),
               ExternalCall.Firestore { args := ambientArgs env }])) := by
    have hargs : ambientArgs env
        = { config :=
              if (if Getenv env "GCP_PROJECT_ID" = "" then
                    (if Getenv env "GOOGLE_CLOUD_PROJECT" = "" then Getenv env "GCLOUD_PROJECT"
                     else Getenv env "GOOGLE_CLOUD_PROJECT")
                  else Getenv env "GCP_PROJECT_ID") ≠ "" then
                some { ProjectID :=
                  (if Getenv env "GCP_PROJECT_ID" = "" then
                    (if Getenv env "GOOGLE_CLOUD_PROJECT" = "" then Getenv env "GCLOUD_PROJECT"
                     else Getenv env "GOOGLE_CLOUD_PROJECT")
                  else Getenv env "GCP_PROJECT_ID") }
              else none,
            credentialsFile := none } := by
      unfold ambientArgs ambientProjectID
      by_cases a : Getenv env "GCP_PROJECT_ID" = "" <;>
        by_cases b : Getenv env "GOOGLE_CLOUD_PROJECT" = "" <;> simp [a, b]
    rw [hargs]
    simp only [NewRepository, hsub, if_false, h1, ne_eq, not_true_eq_false]
  refine ⟨?_, ?_, ?_, ?_, ?_, ?_, ?_, ?_⟩
  · intro a
    simp [ambientArgs, ambientProjectID, a]
  · intro a b
    simp [ambientArgs, ambientProjectID, a, b]
  · intro a b d
    simp [ambientArgs, ambientProjectID, a, b, d]
  · intro a b d
    simp [ambientArgs, ambientProjectID, a, b, d]
  · intro e he
    rw [hN, he]
  · intro e ha hf
    rw [hN, ha]
    simp only [hf]
  · intro ha hf
    rw [hN, ha]
    simp only [hf]
  · intro e
    rw [hN]
    cases ha : newAppErr (ambientArgs env) with
    | some e' =>
      intro h
      left
      simpa using h
    | none =>
      cases hf : firestoreErr { args := ambientArgs env } with
      | some e' =>
        intro h
        right
        simpa using h
      | none =>
        intro h
        simp at h

/-- Witness for C24: only the subcollection identifier and GOOGLE_CLOUD_PROJECT are configured;
app and client creation succeed. The app is created with the project "demo" and no credentials
file. -/
theorem C24_ambient_credentials_witness :
    NewRepository [("FIRESTORE_SUBCOLLECTION_ID", "test-id"), ("GOOGLE_CLOUD_PROJECT", "demo")]
        (fun _ => none) (fun _ => none)
      = (Except.ok ⟨⟨⟨⟨some ⟨"demo"⟩, none⟩⟩⟩, "test-id"⟩,
         [ExternalCall.NewApp ⟨some ⟨"demo"⟩, none⟩,
          ExternalCall.Firestore ⟨⟨some ⟨"demo"⟩, none⟩⟩]) :=
  (C24_ambient_credentials
    [("FIRESTORE_SUBCOLLECTION_ID", "test-id"), ("GOOGLE_CLOUD_PROJECT", "demo")]
    (fun _ => none) (fun _ => none) (by decide) (Or.inl rfl)).2.2.2.2.2.2.1 rfl rfl

/-- Counterexample to C24 as stated: FIRESTORE_SUBCOLLECTION_ID is "test-id", the service
account path is not set, app and client creation succeed. `NewRepository` returns a repository
and no error, after creating the app without a credentials file. -/
theorem C24_missing_path_counterexample :
    NewRepository [("FIRESTORE_SUBCOLLECTION_ID", "test-id")] (fun _ => none) (fun _ => none)
      = (Except.ok ⟨⟨⟨⟨none, none⟩⟩⟩, "test-id"⟩,
         [ExternalCall.NewApp ⟨none, none⟩, ExternalCall.Firestore ⟨⟨none, none⟩⟩])
    ∧ ¬ ∃ e : String,
        (NewRepository [("FIRESTORE_SUBCOLLECTION_ID", "test-id")]
          (fun _ => none) (fun _ => none)).1 = Except.error e := by
  have h1 : NewRepository [("FIRESTORE_SUBCOLLECTION_ID", "test-id")] (fun _ => none)
      (fun _ => none)
      = (Except.ok ⟨⟨⟨⟨none, none⟩⟩⟩, "test-id"⟩,
         [ExternalCall.NewApp ⟨none, none⟩, ExternalCall.Firestore ⟨⟨none, none⟩⟩]) := by
    decide
  refine ⟨h1, ?_⟩
  rintro ⟨e, he⟩
  rw [h1] at he
  cases he

end Startup

/-! ## Theorems: failed login -/

section Frames

open gin sessions middleware handlers handlers.AdminHandler

/-- C28: for every prior session state and every login request whose response is 400, or 500
with "Admin password not configured", or 401, the session after the request is the session
before it, in memory and in the client's cookie; so the value under "isAdmin" is what it was,
an unauthorized session stays unauthorized and an authorized one stays authorized, and the gate
decides on the next request as it would have before. -/
theorem C28_failed_login_keeps_session (env : Env) (body : LoginBody) (s : Session)
    (hfail : statuses (Login env body (Context.start s)) = [400]
      ∨ (Login env body (Context.start s)).writes
          = [⟨500, Body.h [("error", Value.string "Admin password not configured")]⟩]
      ∨ statuses (Login env body (Context.start s)) = [401]) :
    (Login env body (Context.start s)).session = s
    ∧ (Login env body (Context.start s)).session.Get "isAdmin" = s.Get "isAdmin"
    ∧ (Login env body (Context.start s)).session.cookie = s.cookie
    ∧ (Login env body (Context.start s)).aborted = false
    ∧ RequireAdmin (Context.start (Login env body (Context.start s)).session)
        = RequireAdmin (Context.start s) := by
  have key : (Login env body (Context.start s)).session = s
      ∧ (Login env body (Context.start s)).aborted = false := by
    cases hb : ShouldBindJSON body with
    | error err => simp [Login, hb, Context.JSON, Context.start]
    | ok p =>
      by_cases h1 : Getenv env "ADMIN_PASSWORD" = ""
      · simp [Login, hb, h1, Context.JSON, Context.start]
      · by_cases h2 : p = Getenv env "ADMIN_PASSWORD"
        · exfalso
          cases hse : s.saveErr with
          | none =>
            rcases hfail with h | h | h <;>
              simp [statuses, Login, hb, h1, h2, Session.Save, Session.Set, hse, Context.JSON,
                Context.start, StatusOK] at h
          | some e =>
            rcases hfail with h | h | h <;>
              simp [statuses, Login, hb, h1, h2, Session.Save, Session.Set, hse, Context.JSON,
                Context.start, StatusInternalServerError] at h
        · simp [Login, hb, h1, h2, Context.JSON, Context.start]
  obtain ⟨h1, h2⟩ := key
  refine ⟨h1, by rw [h1], by rw [h1], h2, by rw [h1]⟩

/-- Witness for C28: an authorized session and a login with a wrong password. -/
theorem C28_failed_login_keeps_session_witness :
    (Login [("ADMIN_PASSWORD", "s3cret")] (LoginBody.object (some "guess"))
        (Context.start (sessions.load [("isAdmin", Value.bool true)] none))).session
      = sessions.load [("isAdmin", Value.bool true)] none :=
  (C28_failed_login_keeps_session [("ADMIN_PASSWORD", "s3cret")] (LoginBody.object (some "guess"))
    (sessions.load [("isAdmin", Value.bool true)] none) (Or.inr (Or.inr (by decide)))).1

end Frames

/-! ## Theorems: breakdown totals -/

section Totals

open repository models firestore

theorem GoMap.sum_set (m : GoMap) (k : String) (v : Nat) :
    ((GoMap.set m k v).map Prod.snd).sum + GoMap.get m k = (m.map Prod.snd).sum + v := by
  induction m with
  | nil => simp [GoMap.set, GoMap.get]
  | cons e m ih =>
    obtain ⟨a, b⟩ := e
    by_cases hak : a = k
    · subst hak
      simp only [GoMap.set, if_true, List.map_cons, List.sum_cons, GoMap.get_cons]
      omega
    · have hka : ¬ k = a := fun e => hak e.symm
      simp only [GoMap.set, hak, if_false, List.map_cons, List.sum_cons, GoMap.get_cons, hka]
      omega

theorem foldl_breakdownStep_sum (docs : List (DocumentSnapshot Attendee)) (m : GoMap) :
    ((docs.foldl breakdownStep m).map Prod.snd).sum
      = (m.map Prod.snd).sum + (parsedAttendees docs).length := by
  induction docs generalizing m with
  | nil => simp [parsedAttendees]
  | cons doc rest ih =>
    simp only [List.foldl_cons]
    rw [ih]
    cases hd : doc.DataTo with
    | error err =>
      simp [breakdownStep, hd, parsedAttendees, List.filterMap_cons, Except.toOption]
    | ok a =>
      have hs := GoMap.sum_set m a.Designation (GoMap.get m a.Designation + 1)
      simp only [breakdownStep, hd, GoMap.incr, parsedAttendees, List.filterMap_cons,
        Except.toOption, List.length_cons]
      simp only [parsedAttendees] at *
      omega

theorem parsedAttendees_length (docs : List (DocumentSnapshot Attendee)) :
    (parsedAttendees docs).length = (docs.filter parses).length := by
  unfold parsedAttendees
  induction docs with
  | nil => rfl
  | cons doc rest ih =>
    rw [List.filterMap_cons, List.filter_cons]
    cases hd : doc.DataTo with
    | error err =>
      have e1 : (Except.error err : Except String Attendee).toOption = none := rfl
      have e2 : parses doc = false := by simp [parses, hd]
      simp only [e1, e2, Bool.false_eq_true, if_false]
      exact ih
    | ok a =>
      have e1 : (Except.ok a : Except String Attendee).toOption = some a := rfl
      have e2 : parses doc = true := by simp [parses, hd]
      simp only [e1, e2, if_true, List.length_cons]
      rw [ih]

/-- C25: for every list of attendee documents and every order of ranging over the map, the
counts of the entries that `GetDesignationBreakdown` returns add up to the number of documents
that decode, every count is at least 1, and no designation occurs in two entries. -/
theorem C25_breakdown_conserves (order : GoMap → GoMap) (horder : ∀ m, (order m).Perm m)
    (docs : List (DocumentSnapshot Attendee)) :
    ∃ b, GetDesignationBreakdown order (Except.ok docs) = Except.ok b
      ∧ ((Slice.toList b).map (fun e => e.Count)).sum = (docs.filter parses).length
      ∧ (∀ e ∈ Slice.toList b, 1 ≤ e.Count)
      ∧ ((Slice.toList b).map (fun e => e.Designation)).Nodup := by
  obtain ⟨b, hb1, hb2⟩ := GetDesignationBreakdown_ok order docs
  obtain ⟨hwf, -⟩ := designationMap_spec docs
  refine ⟨b, hb1, ?_, ?_, ?_⟩
  · rw [hb2, List.map_map]
    have hp : ((order (designationMap docs)).map Prod.snd).Perm ((designationMap docs).map Prod.snd) :=
      (horder _).map Prod.snd
    have e : (fun (e : DesignationCount) => e.Count)
        ∘ (fun (e : String × Nat) => ({ Designation := e.1, Count := e.2 } : DesignationCount))
        = Prod.snd := rfl
    rw [e, hp.sum_eq, designationMap_eq, foldl_breakdownStep_sum, parsedAttendees_length]
    simp
  · intro e he
    rw [hb2] at he
    obtain ⟨kv, hkv, rfl⟩ := List.mem_map.1 he
    exact hwf.2 kv ((horder _).mem_iff.1 hkv)
  · rw [hb2, List.map_map]
    have e : (fun (e : DesignationCount) => e.Designation)
        ∘ (fun (e : String × Nat) => ({ Designation := e.1, Count := e.2 } : DesignationCount))
        = Prod.fst := rfl
    rw [e]
    exact ((horder _).map Prod.fst).nodup_iff.2 hwf.1

/-- Witness for C25: four documents of which one fails to decode; the counts add up to 3. -/
theorem C25_breakdown_conserves_witness :
    ∃ b, GetDesignationBreakdown List.reverse (Except.ok
          [attendeeDoc "d1" ⟨"", "User1", "u1@test.com", "Engineer", 1⟩,
           ⟨"d2", Except.error "cannot decode"⟩,
           attendeeDoc "d3" ⟨"", "User3", "u3@test.com", "Manager", 3⟩,
           attendeeDoc "d4" ⟨"", "User4", "u4@test.com", "Engineer", 4⟩]) = Except.ok b
      ∧ ((Slice.toList b).map (fun e => e.Count)).sum = 3 :=
  match C25_breakdown_conserves List.reverse (fun m => List.reverse_perm m)
      [attendeeDoc "d1" ⟨"", "User1", "u1@test.com", "Engineer", 1⟩,
       ⟨"d2", Except.error "cannot decode"⟩,
       attendeeDoc "d3" ⟨"", "User3", "u3@test.com", "Manager", 3⟩,
       attendeeDoc "d4" ⟨"", "User4", "u4@test.com", "Engineer", 4⟩] with
  | ⟨b, h1, h2, _, _⟩ => ⟨b, h1, h2⟩

end Totals

/-! ## Theorems: listing paths, order and multiplicity -/

section Paths

open repository models handlers handlers.SessionHandler gin

theorem enrich_unresolved (speakers : List Speaker) (session : Session)
    (hnone : ∀ id ∈ Slice.toList session.Speakers, ∀ x ∈ speakers, x.ID ≠ id) :
    enrich (speakerMap speakers) session = { Session := session, SpeakerDetails := none } := by
  have hnil : (Slice.toList session.Speakers).filterMap (StringMap.get? (speakerMap speakers))
      = [] := by
    rw [List.filterMap_eq_nil_iff]
    intro id hid
    rw [speakerMap_get?, List.find?_eq_none]
    intro x hx
    have := hnone id hid x (List.mem_reverse.1 hx)
    simpa using this
  exact (enrich_foldl (speakerMap speakers) (Slice.toList session.Speakers)
    { Session := session, SpeakerDetails := none }).2.2 hnil

/-- C26: in the enriched path of `SessionHandler.GetAll` the response holds one entry per
fetched session, in the order of the fetch, each with the session's own fields, and the
SpeakerDetails of an entry are the session's identity list with every identity replaced by the
speaker the map holds for it and the identities without a speaker dropped: same order, a
repeated identity gives a repeated speaker, and the details are never longer than the identity
list. -/
theorem C26_denormalization_order {σ : Type} (repo : RepositoryInterface σ) (st st1 st2 : σ)
    (c : Context) (sessions : List Session) (speakers : List Speaker)
    (hs : repo.GetAllSessions st = (Except.ok (some sessions), st1)) (hne : sessions ≠ [])
    (hp : repo.GetAllSpeakers st1 = (Except.ok (some speakers), st2)) (hpne : speakers ≠ []) :
    GetAll repo st c
      = (c.JSON 200 (Body.sessions (some (sessions.map (enrich (speakerMap speakers))))), st2)
    ∧ (sessions.map (enrich (speakerMap speakers))).length = sessions.length
    ∧ (sessions.map (enrich (speakerMap speakers))).map (fun e => e.Session) = sessions
    ∧ ∀ session : Session,
        (enrich (speakerMap speakers) session).Session = session
        ∧ Slice.toList (enrich (speakerMap speakers) session).SpeakerDetails
            = (Slice.toList session.Speakers).filterMap
                (fun id => List.find? (fun x => decide (x.ID = id)) speakers.reverse)
        ∧ (Slice.toList (enrich (speakerMap speakers) session).SpeakerDetails).length
            ≤ (Slice.toList session.Speakers).length := by
  have hfun : StringMap.get? (speakerMap speakers)
      = (fun id => List.find? (fun x => decide (x.ID = id)) speakers.reverse) := by
    funext id
    exact speakerMap_get? speakers id
  refine ⟨GetAll_enriched repo st st1 st2 c sessions speakers hs hne hp hpne, by simp, ?_, ?_⟩
  · rw [List.map_map]
    have : (fun e : SessionWithSpeakers => e.Session) ∘ enrich (speakerMap speakers) = id := by
      funext session
      exact (enrich_spec (speakerMap speakers) session).1
    rw [this, List.map_id]
  · intro session
    obtain ⟨h1, h2⟩ := enrich_spec (speakerMap speakers) session
    refine ⟨h1, ?_, ?_⟩
    · rw [h2, hfun]
    · rw [h2]
      exact List.length_filterMap_le _ _

/-- Witness for C26: a session referencing "sp2", "gone", "sp1", "sp2" with the fetched
speakers "sp1" and "sp2": the details are sp2, sp1, sp2. -/
theorem C26_denormalization_order_witness :
    GetAll
        (MockRepository { MockReturns.success with
          GetAllSessions := Except.ok (some
            [⟨"s1", "Talk", "About", "10:00", some ["sp2", "gone", "sp1", "sp2"]⟩])
          GetAllSpeakers := Except.ok (some [⟨"sp1", "Ann", "Bio", "", "", ""⟩,
                                             ⟨"sp2", "Bob", "Bio", "", "", ""⟩]) })
        [] (newContext [] none)
      = ((newContext [] none).JSON 200 (Body.sessions (some
            [⟨⟨"s1", "Talk", "About", "10:00", some ["sp2", "gone", "sp1", "sp2"]⟩,
              some [⟨"sp2", "Bob", "Bio", "", "", ""⟩, ⟨"sp1", "Ann", "Bio", "", "", ""⟩,
                    ⟨"sp2", "Bob", "Bio", "", "", ""⟩]⟩])),
         [Call.GetAllSessions, Call.GetAllSpeakers]) :=
  (C26_denormalization_order
    (MockRepository { MockReturns.success with
      GetAllSessions := Except.ok (some
        [⟨"s1", "Talk", "About", "10:00", some ["sp2", "gone", "sp1", "sp2"]⟩])
      GetAllSpeakers := Except.ok (some [⟨"sp1", "Ann", "Bio", "", "", ""⟩,
                                         ⟨"sp2", "Bob", "Bio", "", "", ""⟩]) })
    [] [Call.GetAllSessions] [Call.GetAllSessions, Call.GetAllSpeakers] (newContext [] none)
    [⟨"s1", "Talk", "About", "10:00", some ["sp2", "gone", "sp1", "sp2"]⟩]
    [⟨"sp1", "Ann", "Bio", "", "", ""⟩, ⟨"sp2", "Bob", "Bio", "", "", ""⟩]
    rfl (by decide) rfl (by decide)).1

/-- C27: for every non-empty list of sessions, the response of the enriched path, taken with
a non-empty speaker list in which no identity of any session resolves, is the response of the
fallback path, taken when the speaker fetch returns an error, nil or an empty list: 200 with
one entry per session carrying the session's fields and no speaker details. -/
theorem C27_paths_agree {σ τ : Type} (repo : RepositoryInterface σ) (repo' : RepositoryInterface τ)
    (st st1 st2 : σ) (st' st1' st2' : τ) (c : Context) (sessions : List Session)
    (speakers : List Speaker) (r : Except String (Slice Speaker))
    (hs : repo.GetAllSessions st = (Except.ok (some sessions), st1)) (hne : sessions ≠ [])
    (hp : repo.GetAllSpeakers st1 = (Except.ok (some speakers), st2)) (hpne : speakers ≠ [])
    (hnone : ∀ session ∈ sessions, ∀ id ∈ Slice.toList session.Speakers,
      ∀ x ∈ speakers, x.ID ≠ id)
    (hs' : repo'.GetAllSessions st' = (Except.ok (some sessions), st1'))
    (hp' : repo'.GetAllSpeakers st1' = (r, st2'))
    (hr : (∃ e, r = Except.error e) ∨ r = Except.ok none ∨ r = Except.ok (some [])) :
    (GetAll repo st c).1 = (GetAll repo' st' c).1
    ∧ (GetAll repo st c).1
        = c.JSON 200 (Body.sessions
            (some (sessions.map (fun s => { Session := s, SpeakerDetails := none })))) := by
  have hu : usableSpeakers r = none := by
    rcases hr with ⟨e, rfl⟩ | rfl | rfl <;> simp [usableSpeakers]
  have h1 := GetAll_enriched repo st st1 st2 c sessions speakers hs hne hp hpne
  have h2 := GetAll_fallback repo' st' st1' st2' c sessions r hs' hne hp' hu
  have hmap : sessions.map (enrich (speakerMap speakers))
      = sessions.map (fun s => ({ Session := s, SpeakerDetails := none } : SessionWithSpeakers)) :=
    List.map_congr_left (fun session hmem => enrich_unresolved speakers session (hnone session hmem))
  rw [h1, h2, hmap]
  exact ⟨rfl, rfl⟩

/-- Witness for C27: one session referencing "gone"; the enriched run fetches the speaker
"sp1", the fallback run gets the error "unavailable". -/
theorem C27_paths_agree_witness :
    (GetAll
        (MockRepository { MockReturns.success with
          GetAllSessions := Except.ok (some [⟨"s1", "Talk", "About", "10:00", some ["gone"]⟩])
          GetAllSpeakers := Except.ok (some [⟨"sp1", "Ann", "Bio", "", "", ""⟩]) })
        [] (newContext [] none)).1
      = (GetAll
        (MockRepository { MockReturns.success with
          GetAllSessions := Except.ok (some [⟨"s1", "Talk", "About", "10:00", some ["gone"]⟩])
          GetAllSpeakers := Except.error "unavailable" })
        [] (newContext [] none)).1 :=
  (C27_paths_agree
    (MockRepository { MockReturns.success with
      GetAllSessions := Except.ok (some [⟨"s1", "Talk", "About", "10:00", some ["gone"]⟩])
      GetAllSpeakers := Except.ok (some [⟨"sp1", "Ann", "Bio", "", "", ""⟩]) })
    (MockRepository { MockReturns.success with
      GetAllSessions := Except.ok (some [⟨"s1", "Talk", "About", "10:00", some ["gone"]⟩])
      GetAllSpeakers := Except.error "unavailable" })
    [] [Call.GetAllSessions] [Call.GetAllSessions, Call.GetAllSpeakers]
    [] [Call.GetAllSessions] [Call.GetAllSessions, Call.GetAllSpeakers]
    (newContext [] none)
    [⟨"s1", "Talk", "About", "10:00", some ["gone"]⟩] [⟨"sp1", "Ann", "Bio", "", "", ""⟩]
    (Except.error "unavailable") rfl (by decide) rfl (by decide) (by decide) rfl rfl
    (Or.inl ⟨"unavailable", rfl⟩)).1

end Paths

/-! ## Theorems: identities, count against list, registration identity -/

section Identities

open repository models firestore handlers gin

theorem GetAllAttendees_eq (st : Store) :
    GetAllAttendees none st
      = Except.ok (some ((Collection.OrderByDesc st.attendees "createdAt").filterMap
          listedAttendee)) := by
  simp only [GetAllAttendees, Collection.GetAll]
  rw [foldl_listed]
  simp

theorem foldl_listedSpeaker (docs : List Document) (init : List Speaker) :
    docs.foldl
        (fun speakers doc =>
          match speakerDataTo doc.data with
          | Except.error _ => speakers
          | Except.ok speaker => Slice.append speakers { speaker with ID := doc.ID })
        (some init)
      = some (init ++ docs.filterMap listedSpeaker) := by
  induction docs generalizing init with
  | nil => simp
  | cons doc rest ih =>
    simp only [List.foldl_cons, List.filterMap_cons]
    cases hd : speakerDataTo doc.data with
    | error e =>
      have hl : listedSpeaker doc = none := by simp [listedSpeaker, hd]
      simp only [hl]
      exact ih init
    | ok a =>
      have hl : listedSpeaker doc = some { a with ID := doc.ID } := by simp [listedSpeaker, hd]
      have e : Slice.append (some init) { a with ID := doc.ID }
          = some (init ++ [{ a with ID := doc.ID }]) := rfl
      simp only [hl, e]
      rw [ih]
      simp

theorem foldl_listedSession (docs : List Document) (init : List Session) :
    docs.foldl
        (fun sessions doc =>
          match sessionDataTo doc.data with
          | Except.error _ => sessions
          | Except.ok session => Slice.append sessions { session with ID := doc.ID })
        (some init)
      = some (init ++ docs.filterMap listedSession) := by
  induction docs generalizing init with
  | nil => simp
  | cons doc rest ih =>
    simp only [List.foldl_cons, List.filterMap_cons]
    cases hd : sessionDataTo doc.data with
    | error e =>
      have hl : listedSession doc = none := by simp [listedSession, hd]
      simp only [hl]
      exact ih init
    | ok a =>
      have hl : listedSession doc = some { a with ID := doc.ID } := by simp [listedSession, hd]
      have e : Slice.append (some init) { a with ID := doc.ID }
          = some (init ++ [{ a with ID := doc.ID }]) := rfl
      simp only [hl, e]
      rw [ih]
      simp

theorem GetAllSpeakers_eq (st : Store) :
    GetAllSpeakers none st = Except.ok (some (st.speakers.filterMap listedSpeaker)) := by
  simp only [GetAllSpeakers, Collection.GetAll]
  rw [foldl_listedSpeaker]
  simp

theorem GetAllSessions_eq (st : Store) :
    GetAllSessions none st = Except.ok (some (st.sessions.filterMap listedSession)) := by
  simp only [GetAllSessions, Collection.GetAll]
  rw [foldl_listedSession]
  simp

theorem listedAttendee_ID (doc : Document) (a : Attendee) (h : listedAttendee doc = some a) :
    a.ID = doc.ID := by
  unfold listedAttendee at h
  cases hd : attendeeDataTo doc.data with
  | error e => simp [hd] at h
  | ok x =>
    simp only [hd, Option.some.injEq] at h
    rw [← h]

theorem listedSpeaker_ID (doc : Document) (a : Speaker) (h : listedSpeaker doc = some a) :
    a.ID = doc.ID := by
  unfold listedSpeaker at h
  cases hd : speakerDataTo doc.data with
  | error e => simp [hd] at h
  | ok x =>
    simp only [hd, Option.some.injEq] at h
    rw [← h]

theorem listedSession_ID (doc : Document) (a : Session) (h : listedSession doc = some a) :
    a.ID = doc.ID := by
  unfold listedSession at h
  cases hd : sessionDataTo doc.data with
  | error e => simp [hd] at h
  | ok x =>
    simp only [hd, Option.some.injEq] at h
    rw [← h]

theorem filterMap_ids_sublist {α : Type} (f : Document → Option α) (idOf : α → String)
    (hid : ∀ doc a, f doc = some a → idOf a = doc.ID) (docs : List Document) :
    ((docs.filterMap f).map idOf).Sublist (docs.map (fun d => d.ID)) := by
  induction docs with
  | nil => simp
  | cons doc rest ih =>
    simp only [List.filterMap_cons, List.map_cons]
    cases h : f doc with
    | none => exact List.Sublist.cons _ ih
    | some a =>
      simp only [List.map_cons, hid doc a h]
      exact List.Sublist.cons₂ _ ih

theorem OrderByDesc_ids_nodup (coll : Collection) (h : (coll.map (fun d => d.ID)).Nodup) :
    ((Collection.OrderByDesc coll "createdAt").map (fun d => d.ID)).Nodup := by
  have hp := (OrderByDesc_perm coll).map (fun d => d.ID)
  rw [hp.nodup_iff]
  exact List.Nodup.sublist ((List.filter_sublist coll).map _) h

/-- C22: for every contents of the collections, `GetAllAttendees`, `GetAllSpeakers` and
`GetAllSessions` return, for the documents that decode, the decoded record with its ID set to
the identity of the document it was read from, whatever "id" value the document's data holds
(a document stored under "store-id" whose data says id "client-id" is listed with ID
"store-id"). So when the document identities of a collection are pairwise distinct, so are the
IDs of the returned list. -/
theorem C22_identities_from_store (st : Store) :
    GetAllAttendees none st
      = Except.ok (some ((Collection.OrderByDesc st.attendees "createdAt").filterMap
          listedAttendee))
    ∧ GetAllSpeakers none st = Except.ok (some (st.speakers.filterMap listedSpeaker))
    ∧ GetAllSessions none st = Except.ok (some (st.sessions.filterMap listedSession))
    ∧ (∀ (doc : Document) (a : Attendee), listedAttendee doc = some a → a.ID = doc.ID)
    ∧ (∀ (doc : Document) (a : Speaker), listedSpeaker doc = some a → a.ID = doc.ID)
    ∧ (∀ (doc : Document) (a : Session), listedSession doc = some a → a.ID = doc.ID)
    ∧ (∀ a ∈ (Collection.OrderByDesc st.attendees "createdAt").filterMap listedAttendee,
        ∃ doc ∈ st.attendees, listedAttendee doc = some a ∧ a.ID = doc.ID)
    ∧ (∀ a ∈ st.speakers.filterMap listedSpeaker,
        ∃ doc ∈ st.speakers, listedSpeaker doc = some a ∧ a.ID = doc.ID)
    ∧ (∀ a ∈ st.sessions.filterMap listedSession,
        ∃ doc ∈ st.sessions, listedSession doc = some a ∧ a.ID = doc.ID)
    ∧ listedAttendee ⟨"store-id", [("id", FieldValue.string "client-id"),
          ("name", FieldValue.string "Ann"), ("createdAt", FieldValue.timestamp 5)]⟩
        = some ⟨"store-id", "Ann", "", "", 5⟩
    ∧ listedSpeaker ⟨"store-id", [("id", FieldValue.string "client-id"),
          ("name", FieldValue.string "Ann")]⟩
        = some ⟨"store-id", "Ann", "", "", "", ""⟩
    ∧ listedSession ⟨"store-id", [("id", FieldValue.string "client-id"),
          ("title", FieldValue.string "Talk")]⟩
        = some ⟨"store-id", "Talk", "", "", none⟩
    ∧ ((st.attendees.map (fun d => d.ID)).Nodup →
        (((Collection.OrderByDesc st.attendees "createdAt").filterMap listedAttendee).map
          (fun a => a.ID)).Nodup)
    ∧ ((st.speakers.map (fun d => d.ID)).Nodup →
        ((st.speakers.filterMap listedSpeaker).map (fun a => a.ID)).Nodup)
    ∧ ((st.sessions.map (fun d => d.ID)).Nodup →
        ((st.sessions.filterMap listedSession).map (fun a => a.ID)).Nodup) := by
  refine ⟨GetAllAttendees_eq st, GetAllSpeakers_eq st, GetAllSessions_eq st, listedAttendee_ID,
    listedSpeaker_ID, listedSession_ID, ?_, ?_, ?_, by decide, by decide, by decide, ?_, ?_, ?_⟩
  · intro a ha
    obtain ⟨doc, hdoc, hl⟩ := List.mem_filterMap.1 ha
    have hmem : doc ∈ st.attendees :=
      (List.mem_filter.1 ((OrderByDesc_perm st.attendees).mem_iff.1 hdoc)).1
    exact ⟨doc, hmem, hl, listedAttendee_ID doc a hl⟩
  · intro a ha
    obtain ⟨doc, hdoc, hl⟩ := List.mem_filterMap.1 ha
    exact ⟨doc, hdoc, hl, listedSpeaker_ID doc a hl⟩
  · intro a ha
    obtain ⟨doc, hdoc, hl⟩ := List.mem_filterMap.1 ha
    exact ⟨doc, hdoc, hl, listedSession_ID doc a hl⟩
  · intro h
    exact List.Nodup.sublist
      (filterMap_ids_sublist listedAttendee (fun a => a.ID) listedAttendee_ID _)
      (OrderByDesc_ids_nodup st.attendees h)
  · intro h
    exact List.Nodup.sublist
      (filterMap_ids_sublist listedSpeaker (fun a => a.ID) listedSpeaker_ID _) h
  · intro h
    exact List.Nodup.sublist
      (filterMap_ids_sublist listedSession (fun a => a.ID) listedSession_ID _) h

theorem length_filter_filterMap {α : Type} (p : Document → Bool) (f : Document → Option α)
    (l : List Document) :
    ((l.filter p).filterMap f).length ≤ l.length
    ∧ (((l.filter p).filterMap f).length = l.length
        ↔ ∀ d ∈ l, p d = true ∧ (f d).isSome = true) := by
  induction l with
  | nil => simp
  | cons d rest ih =>
    obtain ⟨ih1, ih2⟩ := ih
    cases hp : p d with
    | false =>
      simp only [List.filter_cons, hp, Bool.false_eq_true, if_false, List.length_cons]
      refine ⟨by omega, ?_⟩
      constructor
      · intro h
        omega
      · intro h
        have := (h d (List.mem_cons_self _ _)).1
        simp [hp] at this
    | true =>
      cases hf : f d with
      | none =>
        simp only [List.filter_cons, hp, if_true, List.filterMap_cons, hf, List.length_cons]
        refine ⟨by omega, ?_⟩
        constructor
        · intro h
          omega
        · intro h
          have := (h d (List.mem_cons_self _ _)).2
          simp [hf] at this
      | some a =>
        simp only [List.filter_cons, hp, if_true, List.filterMap_cons, hf, List.length_cons]
        refine ⟨by omega, ?_⟩
        constructor
        · intro h
          have h' : ((rest.filter p).filterMap f).length = rest.length := by omega
          intro x hx
          rcases List.mem_cons.1 hx with rfl | hx
          · exact ⟨hp, by simp [hf]⟩
          · exact ih2.1 h' x hx
        · intro h
          have := ih2.2 (fun x hx => h x (List.mem_cons_of_mem _ hx))
          omega

/-- C29 (as amended): for every attendee collection `GetAttendeeCount` returns the number of
all documents, and `GetAllAttendees` returns records of documents of the collection that decode,
taken from the ordered query, which lists only documents that carry a createdAt field. So the
count is at least the length of the list, with equality exactly when every document carries a
createdAt field and decodes; for a collection in which every document carries the field, as the
documents written by `CreateAttendee` do, equality holds exactly when no document fails to
decode. -/
theorem C29_count_and_list (st : Store) :
    ∃ as : List Attendee, GetAllAttendees none st = Except.ok (some as)
      ∧ GetAttendeeCount none st = Except.ok (st.attendees.length : Int)
      ∧ (∀ a ∈ as, ∃ doc ∈ st.attendees, listedAttendee doc = some a)
      ∧ as.length ≤ st.attendees.length
      ∧ (as.length = st.attendees.length
          ↔ ∀ doc ∈ st.attendees, (Fields.get doc.data "createdAt").isSome = true
              ∧ (listedAttendee doc).isSome = true)
      ∧ ((∀ doc ∈ st.attendees, (Fields.get doc.data "createdAt").isSome = true) →
          (as.length = st.attendees.length
            ↔ ∀ doc ∈ st.attendees, (listedAttendee doc).isSome = true)) := by
  have hlen : ((Collection.OrderByDesc st.attendees "createdAt").filterMap listedAttendee).length
      = ((st.attendees.filter (fun d => (Fields.get d.data "createdAt").isSome)).filterMap
          listedAttendee).length :=
    ((OrderByDesc_perm st.attendees).filterMap listedAttendee).length_eq
  obtain ⟨h1, h2⟩ := length_filter_filterMap
    (fun d => (Fields.get d.data "createdAt").isSome) listedAttendee st.attendees
  refine ⟨_, GetAllAttendees_eq st, by simp [GetAttendeeCount, Collection.GetAll], ?_, ?_, ?_, ?_⟩
  · intro a ha
    obtain ⟨doc, hdoc, hl⟩ := List.mem_filterMap.1 ha
    exact ⟨doc, (List.mem_filter.1 ((OrderByDesc_perm st.attendees).mem_iff.1 hdoc)).1, hl⟩
  · rw [hlen]
    exact h1
  · rw [hlen]
    exact h2
  · intro hall
    rw [hlen, h2]
    constructor
    · intro h doc hdoc
      exact (h doc hdoc).2
    · intro h doc hdoc
      exact ⟨hall doc hdoc, h doc hdoc⟩

/-- Counterexample to C29 as stated: a collection with one document that has name, email and
designation and no createdAt field. The document decodes, so no document fails to parse, yet
the count is 1 and the list is empty. -/
theorem C29_count_and_list_counterexample :
    GetAttendeeCount none
        ⟨[⟨"d1", [("name", FieldValue.string "Ann"), ("email", FieldValue.string "ann@example.com"),
          ("designation", FieldValue.string "Engineer")]⟩], [], []⟩
      = Except.ok 1
    ∧ GetAllAttendees none
        ⟨[⟨"d1", [("name", FieldValue.string "Ann"), ("email", FieldValue.string "ann@example.com"),
          ("designation", FieldValue.string "Engineer")]⟩], [], []⟩
      = Except.ok (some [])
    ∧ attendeeDataTo [("name", FieldValue.string "Ann"),
          ("email", FieldValue.string "ann@example.com"),
          ("designation", FieldValue.string "Engineer")]
      = Except.ok ⟨"", "Ann", "ann@example.com", "Engineer", 0⟩ := by
  decide

theorem listedAttendee_attendeeFields (newID : String) (a : Attendee) (h : 0 ≤ a.CreatedAt) :
    listedAttendee { ID := newID, data := attendeeFields a } = some { a with ID := newID } := by
  have hc : ((a.CreatedAt.toNat : Nat) : Int) = a.CreatedAt := Int.toNat_of_nonneg h
  simp [listedAttendee, attendeeDataTo, attendeeFields, Fields.getString, Fields.getTime,
    Fields.get, List.lookup, Except.bind, hc]

/-- C30: for every valid registration request, against the store-backed repository with a
working store and a fresh document identity, `Register` answers 201 with a record whose id is
the empty string, although the document was stored under the generated identity: the request
record has no id field and `CreateAttendee` returns only an error value. The record then listed
by `GetAllAttendees` for that document carries the generated identity. With any repository
implementation the record of the 201 response has the empty id. -/
theorem C30_register_no_identity (order : GoMap → GoMap) (isEmail : String → Bool) (now : Time)
    (name email designation newID : String) (extra : List (String × Value)) (st : Store)
    (c : Context)
    (hn : name ≠ "") (he : email ≠ "") (hv : isEmail email = true) (hd : designation ≠ "")
    (hnew : newID ∉ st.attendees.map (fun d => d.ID)) (hnow : 0 ≤ now) :
    AttendeeHandler.Register (Repository.interface order none newID) isEmail now
        (RegisterBody.object (some name) (some email) (some designation) extra) st c
      = (c.JSON 201 (Body.attendee ⟨"", name, email, designation, now⟩),
         { st with attendees := st.attendees
            ++ [{ ID := newID, data := attendeeFields ⟨"", name, email, designation, now⟩ }] })
    ∧ listedAttendee { ID := newID, data := attendeeFields ⟨"", name, email, designation, now⟩ }
        = some ⟨newID, name, email, designation, now⟩
    ∧ (∃ as : List Attendee,
        GetAllAttendees none
            (AttendeeHandler.Register (Repository.interface order none newID) isEmail now
              (RegisterBody.object (some name) (some email) (some designation) extra) st c).2
          = Except.ok (some as)
        ∧ (⟨newID, name, email, designation, now⟩ : Attendee) ∈ as)
    ∧ (∀ (σ : Type) (repo : RepositoryInterface σ) (s s' : σ),
        repo.CreateAttendee ⟨"", name, email, designation, now⟩ s = (none, s') →
        ∃ a : Attendee,
          (AttendeeHandler.Register repo isEmail now
            (RegisterBody.object (some name) (some email) (some designation) extra) s c).1
            = c.JSON 201 (Body.attendee a)
          ∧ a.ID = "") := by
  have hb := ShouldBindRegister_valid isEmail name email designation extra hn he hv hd
  have hfind : (Collection.find st.attendees newID).isSome = false := by
    cases h : (Collection.find st.attendees newID).isSome with
    | false => rfl
    | true => exact absurd ((Collection.find_isSome_iff _ _).1 h) hnew
  have hcreate : CreateAttendee none newID ⟨"", name, email, designation, now⟩ st
      = (none, { st with attendees := st.attendees
          ++ [{ ID := newID, data := attendeeFields ⟨"", name, email, designation, now⟩ }] }) := by
    simp [CreateAttendee, Collection.Add, hfind]
  have hreg : AttendeeHandler.Register (Repository.interface order none newID) isEmail now
        (RegisterBody.object (some name) (some email) (some designation) extra) st c
      = (c.JSON 201 (Body.attendee ⟨"", name, email, designation, now⟩),
         { st with attendees := st.attendees
            ++ [{ ID := newID, data := attendeeFields ⟨"", name, email, designation, now⟩ }] }) := by
    simp [AttendeeHandler.Register, hb, Repository.interface, hcreate, StatusCreated]
  have hlisted := listedAttendee_attendeeFields newID ⟨"", name, email, designation, now⟩ hnow
  refine ⟨hreg, hlisted, ?_, ?_⟩
  · rw [hreg]
    refine ⟨_, GetAllAttendees_eq _, ?_⟩
    rw [List.mem_filterMap]
    refine ⟨{ ID := newID, data := attendeeFields ⟨"", name, email, designation, now⟩ }, ?_,
      hlisted⟩
    rw [(OrderByDesc_perm _).mem_iff, List.mem_filter]
    refine ⟨by simp, ?_⟩
    simp [attendeeFields, Fields.get, List.lookup]
  · intro σ repo s s' h
    exact ⟨⟨"", name, email, designation, now⟩,
      by simp [AttendeeHandler.Register, hb, h, StatusCreated], rfl⟩

/-- Witness for C30: an empty store, the generated identity "doc-1". -/
theorem C30_register_no_identity_witness :
    AttendeeHandler.Register (Repository.interface List.reverse none "doc-1") (fun _ => true) 1700
        (RegisterBody.object (some "Ann") (some "ann@example.com") (some "Engineer") [])
        Store.empty (newContext [] none)
      = ((newContext [] none).JSON 201
            (Body.attendee ⟨"", "Ann", "ann@example.com", "Engineer", 1700⟩),
         { Store.empty with attendees := Store.empty.attendees
            ++ [{ ID := "doc-1",
                  data := attendeeFields ⟨"", "Ann", "ann@example.com", "Engineer", 1700⟩ }] }) :=
  (C30_register_no_identity List.reverse (fun _ => true) 1700 "Ann" "ann@example.com" "Engineer"
    "doc-1" [] Store.empty (newContext [] none) (by decide) (by decide) rfl (by decide)
    (by decide) (by decide)).1

end Identities
